import Mathlib

/-!
Shallow embedding of the incremental Eventstorming board layout and merge
engine implemented in `src/eventstorming_agent/agent.py`, together with
theorems about its behaviour.

Modelling conventions:
* Python integers (ids, pixel coordinates, dimensions) are modelled as `Int`;
  the only division in the engine (`(inner_height - stats["height"]) / 2`)
  is applied to an even non-negative quantity, where every division
  convention agrees.
* Python strings are `String`; the truthiness test `if s:` is modelled as
  `s.length ≠ 0`.
* Optional dict keys are `Option`; Python dicts used as association tables
  are modelled as `List (key × value)` with last-write-wins lookup
  (`lookupLast`), matching the insertion/overwrite semantics of the source.
* The Python truthiness test `if v:` on an optional integer is modelled
  faithfully: `None` and `0` are both falsy.
-/

/-- Last-write-wins lookup in an association list: Python dict assignment
overwrites earlier bindings, so `d[k]` returns the value of the most recent
assignment to `k`. -/
def lookupLast {α β : Type} [BEq α] (l : List (α × β)) (k : α) : Option β :=
  (l.filter (fun p => p.1 == k)).getLast?.map (·.2)

/-- Python `a or b` for strings: `a` when non-empty (truthy), else `b`. -/
def pyStrOr (a b : String) : String :=
  if a.length ≠ 0 then a else b

/-- Length of `data.get(k) or []` for an optional list-valued key:
absent (`None`) and present-but-empty both contribute length 0. -/
def optListLen {α : Type} (o : Option (List α)) : Int :=
  ((o.getD []).length : Int)

/-- Entry of an `attributes` list attached to a ReadModel board item
(`{"name": f, "type": "String"}` in the source). -/
structure AttrEntry where
  name : String
  type : String
deriving DecidableEq

/-- The dict passed to `compute_item_dimensions` (the `.dict()` of a pydantic
item, possibly augmented with an `attributes` list for ReadModels).  `name`
and `description` are always present on the dicts the engine builds; the
remaining keys are optional.  Because the pydantic models `DomainCommand` and
`DomainPolicy` declare only `name` and `description`, `parse_obj` drops any
`produced_event_name` key of the incoming JSON and `.dict()` never contains
it; the field below is therefore `none` for every dict the engine builds from
parsed concepts (see `parse_domain_command`). -/
structure ItemData where
  name : String
  description : String
  instanceName : Option String := none
  attributes : Option (List AttrEntry) := none
  properties : Option (List String) := none
  methods : Option (List String) := none
  enumValues : Option (List String) := none
  fields : Option (List String) := none
  producedEventName : Option String := none
deriving DecidableEq

/-- `BASE_ITEM_DIMENSIONS`: per-kind base (width, height), with the
`"default"` entry for unknown kinds. -/
def BASE_ITEM_DIMENSIONS (item_type : String) : Int × Int :=
  if item_type = "Command" then (230, 110)
  else if item_type = "Event" then (210, 90)
  else if item_type = "Policy" then (250, 130)
  else if item_type = "Aggregate" then (260, 140)
  else if item_type = "Actor" then (200, 90)
  else if item_type = "ReadModel" then (250, 140)
  else (220, 100)

def MIN_ITEM_WIDTH : Int := 140
def MAX_ITEM_WIDTH : Int := 460
def MIN_ITEM_HEIGHT : Int := 80
def MAX_ITEM_HEIGHT : Int := 260

/-- `data.get("instanceName") or data.get("name") or ""`. -/
def nameFromData (d : ItemData) : String :=
  pyStrOr (d.instanceName.getD "") (pyStrOr d.name "")

/-- Sum of attribute/property/method/enum-value counts used for the height
bonus of `compute_item_dimensions`. -/
def structured_field_count (d : ItemData) : Int :=
  optListLen d.attributes + optListLen d.properties +
    optListLen d.methods + optListLen d.enumValues

/-- `compute_item_dimensions(item_type, data)` from the source: base size per
kind, width grown by name length, height grown by description lines and by a
capped structured-field bonus, clamped to the global bounds. -/
def compute_item_dimensions (item_type : String) (data : ItemData) : Int × Int :=
  let base := BASE_ITEM_DIMENSIONS item_type
  let name := nameFromData data
  let description := pyStrOr data.description ""
  let width1 :=
    if name.length ≠ 0 then
      max base.1 (min MAX_ITEM_WIDTH (MIN_ITEM_WIDTH + (name.length : Int) * 9))
    else base.1
  let height1 :=
    if description.length ≠ 0 then
      base.2 + ((description.length / 40 + 1 : Nat) : Int) * 14
    else base.2
  let height2 := height1 + min 80 (structured_field_count data * 6)
  (max MIN_ITEM_WIDTH (min MAX_ITEM_WIDTH width1),
   max MIN_ITEM_HEIGHT (min MAX_ITEM_HEIGHT height2))

lemma structured_field_count_nonneg (d : ItemData) : 0 ≤ structured_field_count d := by
  simp only [structured_field_count, optListLen]
  positivity

lemma base_width_range (t : String) :
    200 ≤ (BASE_ITEM_DIMENSIONS t).1 ∧ (BASE_ITEM_DIMENSIONS t).1 ≤ 260 := by
  simp only [BASE_ITEM_DIMENSIONS]
  split_ifs <;> norm_num

lemma base_height_range (t : String) :
    90 ≤ (BASE_ITEM_DIMENSIONS t).2 ∧ (BASE_ITEM_DIMENSIONS t).2 ≤ 140 := by
  simp only [BASE_ITEM_DIMENSIONS]
  split_ifs <;> norm_num

/-- C8.  `compute_item_dimensions` is pure and monotone in content: for a
fixed kind, making the name, the description, or the structured field count
longer/larger never decreases the returned width or height, and for every
input the width lies in `[140, 460]` and the height in `[80, 260]`. -/
theorem compute_item_dimensions_monotone_bounded
    (t : String) (d1 d2 : ItemData)
    (hname : (nameFromData d1).length ≤ (nameFromData d2).length)
    (hdesc : (pyStrOr d1.description "").length ≤ (pyStrOr d2.description "").length)
    (hfields : structured_field_count d1 ≤ structured_field_count d2) :
    (compute_item_dimensions t d1).1 ≤ (compute_item_dimensions t d2).1 ∧
    (compute_item_dimensions t d1).2 ≤ (compute_item_dimensions t d2).2 ∧
    ∀ d : ItemData,
      140 ≤ (compute_item_dimensions t d).1 ∧ (compute_item_dimensions t d).1 ≤ 460 ∧
      80 ≤ (compute_item_dimensions t d).2 ∧ (compute_item_dimensions t d).2 ≤ 260 := by
  have hb1 := base_width_range t
  have hb2 := base_height_range t
  refine ⟨?_, ?_, ?_⟩
  · simp only [compute_item_dimensions, MIN_ITEM_WIDTH, MAX_ITEM_WIDTH]
    generalize (nameFromData d1).length = n1 at hname
    generalize (nameFromData d2).length = n2 at hname
    split_ifs <;> omega
  · simp only [compute_item_dimensions, MIN_ITEM_HEIGHT, MAX_ITEM_HEIGHT]
    have hf1 := structured_field_count_nonneg d1
    have hf2 := structured_field_count_nonneg d2
    generalize structured_field_count d1 = f1 at hfields hf1
    generalize structured_field_count d2 = f2 at hfields hf2
    generalize (pyStrOr d1.description "").length = l1 at hdesc
    generalize (pyStrOr d2.description "").length = l2 at hdesc
    split_ifs <;> omega
  · intro d
    have hf := structured_field_count_nonneg d
    simp only [compute_item_dimensions, MIN_ITEM_WIDTH, MAX_ITEM_WIDTH,
      MIN_ITEM_HEIGHT, MAX_ITEM_HEIGHT]
    generalize structured_field_count d = f at hf
    split_ifs <;> omega

/-- Witness for C8 at concrete inputs: kind `"Policy"`, a shorter and a
longer description. -/
theorem compute_item_dimensions_monotone_bounded_witness :
    (compute_item_dimensions "Policy" { name := "A", description := "hi" }).1 ≤
      (compute_item_dimensions "Policy" { name := "Abc", description := "hello world" }).1 ∧
    (compute_item_dimensions "Policy" { name := "A", description := "hi" }).2 ≤
      (compute_item_dimensions "Policy" { name := "Abc", description := "hello world" }).2 ∧
    ∀ d : ItemData,
      140 ≤ (compute_item_dimensions "Policy" d).1 ∧
      (compute_item_dimensions "Policy" d).1 ≤ 460 ∧
      80 ≤ (compute_item_dimensions "Policy" d).2 ∧
      (compute_item_dimensions "Policy" d).2 ≤ 260 :=
  compute_item_dimensions_monotone_bounded "Policy"
    { name := "A", description := "hi" }
    { name := "Abc", description := "hello world" }
    (by decide) (by decide) (by decide)

/-!
## Concept Normalizer (`_normalize_generated_payload`)

The normalizer operates on an untyped JSON-like payload, modelled by `JVal`.
Python dicts are association lists with unique-key semantics: `get` returns
the first binding, assignment replaces the first binding in place or appends,
`setdefault` appends only when the key is absent.
-/

/-- Untyped JSON-like value, the input of `_normalize_generated_payload`. -/
inductive JVal where
  | null : JVal
  | str : String → JVal
  | num : Int → JVal
  | bool : Bool → JVal
  | arr : List JVal → JVal
  | obj : List (String × JVal) → JVal

/-- Python truthiness of a JSON value. -/
def jTruthy : JVal → Bool
  | .null => false
  | .str s => s.length != 0
  | .num n => n != 0
  | .bool b => b
  | .arr xs => !xs.isEmpty
  | .obj kvs => !kvs.isEmpty

/-- `d.get(k)`: first binding of `k`. -/
def objGet : List (String × JVal) → String → Option JVal
  | [], _ => none
  | (k', v) :: rest, k => if k' = k then some v else objGet rest k

/-- `k in d`. -/
def objContains (l : List (String × JVal)) (k : String) : Bool :=
  (objGet l k).isSome

/-- `d[k] = v`: replace the binding of `k` in place, or append it. -/
def objSet : List (String × JVal) → String → JVal → List (String × JVal)
  | [], k, v => [(k, v)]
  | (k', v') :: rest, k, v =>
      if k' = k then (k, v) :: rest else (k', v') :: objSet rest k v

/-- `d.setdefault(k, v)`: keep the dict unchanged when `k` is present (even
when its value is falsy), otherwise append the binding `(k, v)`. -/
def objSetdefault (l : List (String × JVal)) (k : String) (v : JVal) :
    List (String × JVal) :=
  if objContains l k then l else l ++ [(k, v)]

/-- `x or y` where `x` comes from `d.get(k)`: the value when present and
truthy, else the default. -/
def pyGetOr (o : Option JVal) (dflt : JVal) : JVal :=
  match o with
  | some v => if jTruthy v then v else dflt
  | none => dflt

/-- `_ensure_list(value)` from the source (always called with the default
`None`): lists pass through, `None`/absent becomes `[]`, anything else is
wrapped in a one-element list. -/
def ensure_list (value : Option JVal) : List JVal :=
  match value with
  | some (.arr xs) => xs
  | some .null => []
  | none => []
  | some v => [v]

/-- The body of the per-context loop of `_normalize_generated_payload`:
dict contexts get `name`/`description` `setdefault`-ed and the five item
collections coerced to lists; non-dict contexts are dropped (`None`). -/
def normalize_context (ctx : JVal) : Option JVal :=
  match ctx with
  | .obj c =>
      let c1 := objSetdefault c "name"
        (pyGetOr (objGet c "name") (.str "UnnamedContext"))
      let c2 := objSetdefault c1 "description"
        (pyGetOr (objGet c1 "description") (.str ""))
      let c3 := objSet c2 "events" (.arr (ensure_list (objGet c2 "events")))
      let c4 := objSet c3 "commands" (.arr (ensure_list (objGet c3 "commands")))
      let c5 := objSet c4 "policies" (.arr (ensure_list (objGet c4 "policies")))
      let c6 := objSet c5 "aggregates" (.arr (ensure_list (objGet c5 "aggregates")))
      let c7 := objSet c6 "readModels" (.arr (ensure_list (objGet c6 "readModels")))
      some (.obj c7)
  | _ => none

/-- The body of the connection loop of `_normalize_generated_payload`: dict
connections get `type` `setdefault`-ed; other values pass through. -/
def normalize_connection (conn : JVal) : JVal :=
  match conn with
  | .obj c => .obj (objSetdefault c "type" (pyGetOr (objGet c "type") (.str "Flow")))
  | v => v

/-- `_normalize_generated_payload` from the source: best-effort fix-up of an
LLM payload.  Non-dict payloads are returned unchanged; for dict payloads the
project name is `setdefault`-ed, contexts are normalized per
`normalize_context` (dropping non-dict entries), and connections per
`normalize_connection`. -/
def normalize_generated_payload (payload : JVal) : JVal :=
  match payload with
  | .obj kvs =>
      let kvs1 := objSetdefault kvs "project_name"
        (pyGetOr (objGet kvs "project_name") (.str "generated-project"))
      let contexts := ensure_list (objGet kvs1 "contexts")
      let normCtxs := contexts.filterMap normalize_context
      let kvs2 := objSet kvs1 "contexts" (.arr normCtxs)
      let conns := ensure_list (objGet kvs2 "connections")
      let conns1 := conns.map normalize_connection
      .obj (objSet kvs2 "connections" (.arr conns1))
  | v => v

lemma objGet_objSet_same (l : List (String × JVal)) (k : String) (v : JVal) :
    objGet (objSet l k v) k = some v := by
  induction l with
  | nil => simp [objSet, objGet]
  | cons p rest ih =>
      obtain ⟨k', v'⟩ := p
      by_cases h : k' = k
      · subst h
        simp [objSet, objGet]
      · simp [objSet, objGet, h, ih]

lemma objGet_objSet_other (l : List (String × JVal)) (k k' : String) (v : JVal)
    (h : ¬ k = k') : objGet (objSet l k v) k' = objGet l k' := by
  induction l with
  | nil => simp [objSet, objGet, h]
  | cons p rest ih =>
      obtain ⟨k0, v0⟩ := p
      by_cases h0 : k0 = k
      · subst h0
        simp [objSet, objGet, h]
      · simp [objSet, objGet, h0, ih]

lemma objGet_append_single_same (l : List (String × JVal)) (k : String) (v : JVal)
    (h : objGet l k = none) : objGet (l ++ [(k, v)]) k = some v := by
  induction l with
  | nil => simp [objGet]
  | cons p rest ih =>
      obtain ⟨k0, v0⟩ := p
      by_cases h0 : k0 = k
      · simp [objGet, h0] at h
      · simp only [objGet, h0, if_false] at h
        simp [objGet, h0, ih h]

lemma objGet_append_single_other (l : List (String × JVal)) (k k' : String) (v : JVal)
    (h : ¬ k = k') : objGet (l ++ [(k, v)]) k' = objGet l k' := by
  induction l with
  | nil => simp [objGet, h]
  | cons p rest ih =>
      obtain ⟨k0, v0⟩ := p
      by_cases h0 : k0 = k' <;> simp [objGet, h0, ih]

lemma objGet_objSetdefault_same (l : List (String × JVal)) (k : String) (v : JVal) :
    objGet (objSetdefault l k v) k = some ((objGet l k).getD v) := by
  unfold objSetdefault objContains
  rcases h : objGet l k with _ | w
  · simp only [Option.isSome_none, Bool.false_eq_true, if_false, Option.getD_none]
    exact objGet_append_single_same l k v h
  · simp [h]

lemma objGet_objSetdefault_other (l : List (String × JVal)) (k k' : String) (v : JVal)
    (h : ¬ k = k') : objGet (objSetdefault l k v) k' = objGet l k' := by
  unfold objSetdefault
  split
  · rfl
  · exact objGet_append_single_other l k k' v h

/-- The five item-collection keys plus name/description of a normalized
context. -/
lemma normalize_context_obj_keys (c : List (String × JVal)) :
    ∃ ckvs, normalize_context (.obj c) = some (.obj ckvs) ∧
      (objGet ckvs "name").isSome ∧ (objGet ckvs "description").isSome ∧
      (∃ l, objGet ckvs "events" = some (.arr l)) ∧
      (∃ l, objGet ckvs "commands" = some (.arr l)) ∧
      (∃ l, objGet ckvs "policies" = some (.arr l)) ∧
      (∃ l, objGet ckvs "aggregates" = some (.arr l)) ∧
      (∃ l, objGet ckvs "readModels" = some (.arr l)) := by
  simp only [normalize_context]
  refine ⟨_, rfl, ?_, ?_, ?_, ?_, ?_, ?_, ?_⟩ <;>
    simp [objGet_objSet_same, objGet_objSet_other, objGet_objSetdefault_same,
      objGet_objSetdefault_other]

lemma normalize_context_isSome_iff (v : JVal) :
    (normalize_context v).isSome =
      (match v with | .obj _ => true | _ => false) := by
  cases v <;> simp [normalize_context]

lemma length_filterMap_normalize_context (l : List JVal) :
    (l.filterMap normalize_context).length =
      (l.filter (fun c => match c with | .obj _ => true | _ => false)).length := by
  induction l with
  | nil => rfl
  | cons a rest ih =>
      cases a <;> simp [List.filterMap_cons, normalize_context, List.filter_cons, ih]

/-- C9 counterexample.  A payload whose `project_name` key is present but
empty, and whose only connection carries `type: null`, passes through the
normalizer unchanged in those positions: `setdefault` never replaces a
present key, even when its value is falsy.  The output's project name is the
empty string (not a placeholder) and the connection's `type` stays `null`
(not `"Flow"`), contradicting the claim. -/
theorem normalize_payload_counterexample :
    normalize_generated_payload
        (.obj [("project_name", .str ""),
               ("connections", .arr [.obj [("type", .null)]])]) =
      .obj [("project_name", .str ""),
            ("connections", .arr [.obj [("type", .null)]]),
            ("contexts", .arr [])] ∧
    ("" : String).length = 0 := by
  exact ⟨rfl, rfl⟩

/-- C9 (amended).  The normalizer is total, and for every dict payload: the
output carries a `project_name` key whose value is the input's when the key
was present (verbatim, even falsy) and the placeholder otherwise; the output
contexts are exactly the dict entries of the input contexts collection, each
carrying `name`, `description`, and all five item-kind keys bound to lists;
and every dict connection entry carries its original `type` when the key was
present (verbatim, even falsy) and `"Flow"` otherwise, non-dict connection
entries passing through unchanged. -/
theorem normalize_payload_amended (kvs : List (String × JVal)) :
    ∃ kvs', normalize_generated_payload (.obj kvs) = .obj kvs' ∧
      objGet kvs' "project_name" =
        some ((objGet kvs "project_name").getD (.str "generated-project")) ∧
      (∃ ctxs, objGet kvs' "contexts" = some (.arr ctxs) ∧
        ctxs.length = ((ensure_list (objGet kvs "contexts")).filter
          (fun c => match c with | .obj _ => true | _ => false)).length ∧
        ∀ c ∈ ctxs, ∃ ckvs, c = .obj ckvs ∧
          (objGet ckvs "name").isSome ∧ (objGet ckvs "description").isSome ∧
          (∃ l, objGet ckvs "events" = some (.arr l)) ∧
          (∃ l, objGet ckvs "commands" = some (.arr l)) ∧
          (∃ l, objGet ckvs "policies" = some (.arr l)) ∧
          (∃ l, objGet ckvs "aggregates" = some (.arr l)) ∧
          (∃ l, objGet ckvs "readModels" = some (.arr l))) ∧
      (∃ cs, objGet kvs' "connections" = some (.arr cs) ∧
        cs.length = (ensure_list (objGet kvs "connections")).length ∧
        ∀ (i : Nat) (ck0 : List (String × JVal)),
          (ensure_list (objGet kvs "connections"))[i]? = some (.obj ck0) →
          ∃ ck', cs[i]? = some (.obj ck') ∧
            objGet ck' "type" = some ((objGet ck0 "type").getD (.str "Flow"))) := by
  simp only [normalize_generated_payload]
  refine ⟨_, rfl, ?_, ?_, ?_⟩
  · rw [objGet_objSet_other _ _ _ _ (by decide),
      objGet_objSet_other _ _ _ _ (by decide),
      objGet_objSetdefault_same]
    cases h : objGet kvs "project_name" <;> simp [pyGetOr]
  · rw [objGet_objSet_other _ _ _ _ (by decide), objGet_objSet_same]
    refine ⟨_, rfl, ?_, ?_⟩
    · rw [objGet_objSetdefault_other _ _ _ _ (by decide)]
      exact length_filterMap_normalize_context _
    · intro c hc
      obtain ⟨a, _, ha⟩ := List.mem_filterMap.mp hc
      cases a with
      | obj ca =>
          obtain ⟨ckvs, he, hrest⟩ := normalize_context_obj_keys ca
          rw [he] at ha
          injection ha with h2
          exact ⟨ckvs, h2.symm, hrest⟩
      | null => simp [normalize_context] at ha
      | str s => simp [normalize_context] at ha
      | num n => simp [normalize_context] at ha
      | bool b => simp [normalize_context] at ha
      | arr xs => simp [normalize_context] at ha
  · rw [objGet_objSet_same]
    have hconn : objGet (objSet (objSetdefault kvs "project_name"
        (pyGetOr (objGet kvs "project_name") (.str "generated-project")))
        "contexts" (.arr ((ensure_list (objGet (objSetdefault kvs "project_name"
          (pyGetOr (objGet kvs "project_name") (.str "generated-project")))
          "contexts")).filterMap normalize_context))) "connections"
        = objGet kvs "connections" := by
      rw [objGet_objSet_other _ _ _ _ (by decide),
        objGet_objSetdefault_other _ _ _ _ (by decide)]
    rw [hconn]
    refine ⟨_, rfl, by simp, ?_⟩
    intro i ck0 hi
    refine ⟨objSetdefault ck0 "type" (pyGetOr (objGet ck0 "type") (.str "Flow")), ?_, ?_⟩
    · rw [List.getElem?_map, hi]
      rfl
    · rw [objGet_objSetdefault_same]
      cases h : objGet ck0 "type" <;> simp [pyGetOr]

/-!
## Domain model (parsed `EventstormingConcepts`)

These mirror the pydantic models of the source.  `DomainCommand` and
`DomainPolicy` declare only `name` and `description`: pydantic v1
`parse_obj` silently drops undeclared keys (its default `Extra.ignore`
behaviour), so a `produced_event_name` key in the generated JSON never
survives parsing — see `parse_domain_command` / `parse_domain_policy`.
-/

structure DomainEvent where
  name : String
  description : String
deriving DecidableEq

structure DomainCommand where
  name : String
  description : String
deriving DecidableEq

structure DomainPolicy where
  name : String
  description : String
deriving DecidableEq

structure DomainAggregate where
  name : String
  description : String
deriving DecidableEq

structure DomainReadModel where
  name : String
  description : String
  fields : Option (List String) := some []
deriving DecidableEq

structure DomainConnection where
  from_name : String
  to_name : String
  type : String := "Flow"
deriving DecidableEq

structure BoundedContext where
  name : String
  description : String
  events : List DomainEvent
  commands : List DomainCommand
  policies : List DomainPolicy
  aggregates : List DomainAggregate
  readModels : List DomainReadModel := []
deriving DecidableEq

structure EventstormingConcepts where
  project_name : String
  contexts : List BoundedContext
  connections : List DomainConnection
deriving DecidableEq

/-- A command object as it appears in the generated JSON, where a
`produced_event_name` key may be present. -/
structure RawDomainCommand where
  name : String
  description : String
  produced_event_name : Option String := none
deriving DecidableEq

/-- A policy object as it appears in the generated JSON. -/
structure RawDomainPolicy where
  name : String
  description : String
  produced_event_name : Option String := none
deriving DecidableEq

/-- Modelled library behaviour: `EventstormingConcepts.parse_obj` validates
with pydantic v1, whose default configuration ignores undeclared keys.
`DomainCommand` declares only `name` and `description`, so the
`produced_event_name` key of a generated command object is dropped at
parsing and `.dict()` never contains it. -/
def parse_domain_command (r : RawDomainCommand) : DomainCommand :=
  { name := r.name, description := r.description }

/-- Modelled library behaviour: same as `parse_domain_command`, for
`DomainPolicy`. -/
def parse_domain_policy (r : RawDomainPolicy) : DomainPolicy :=
  { name := r.name, description := r.description }

/-!
## Board data model and layout constants
-/

/-- A persisted board item.  `producedEventNameTmp` models the temporary
`_produced_event_name` key that `place_column_items` stores and step 7.5
pops. -/
structure BoardItem where
  id : Int
  type : String
  instanceName : String
  description : String
  parent : Option Int := none
  x : Int
  y : Int
  width : Int
  height : Int
  attributes : Option (List AttrEntry) := none
  producedEventNameTmp : Option String := none
  producesEventId : Option Int := none
  linkedDiagram : Option String := none
deriving DecidableEq

/-- An item of the prior board snapshot, with the keys the merge logic reads
(`type`, `instanceName`, `id`, `x`, `y`).  Ids are modelled as integers (the
numeric-id board variant the engine's own output uses). -/
structure PriorItem where
  id : Int
  type : String
  instanceName : String
  x : Int
  y : Int
deriving DecidableEq

/-- A board connection (JSON keys `id`, `from`, `to`, `type`). -/
structure BoardConnection where
  id : String
  fromId : Int
  toId : Int
  type : String
deriving DecidableEq

structure Board where
  boardType : String
  instanceName : String
  items : List BoardItem
  connections : List BoardConnection
deriving DecidableEq

def CONTEXT_H_GAP : Int := 50
def ITEM_H_GAP : Int := 50
def ITEM_V_GAP : Int := 30
def PADDING : Int := 50

/-- `_slugify` from the source (faithful for ASCII text; `Char.isAlphanum`
is the ASCII restriction of Python's `str.isalnum`). -/
def slugify (text : String) : String :=
  let joined := text.data.map (fun c => if c.isAlphanum then c else '-')
  let stripped :=
    ((joined.dropWhile (fun c => c = '-')).reverse.dropWhile (fun c => c = '-')).reverse
  let lowered := String.mk (stripped.map Char.toLower)
  if lowered.length ≠ 0 then lowered else "eventstorming-board"

/-!
## Column packer
-/

/-- One entry of a layout column: item type, its `.dict()` data, and the
pre-computed dimensions. -/
structure ColumnEntry where
  type : String
  data : ItemData
  dims : Int × Int
deriving DecidableEq

/-- `cmd.dict()` for a parsed command: only `name` and `description`. -/
def command_data (c : DomainCommand) : ItemData :=
  { name := c.name, description := c.description }

/-- `pol.dict()` for a parsed policy. -/
def policy_data (p : DomainPolicy) : ItemData :=
  { name := p.name, description := p.description }

/-- `agg.dict()` for a parsed aggregate. -/
def aggregate_data (a : DomainAggregate) : ItemData :=
  { name := a.name, description := a.description }

/-- `evt.dict()` for a parsed event. -/
def event_data (e : DomainEvent) : ItemData :=
  { name := e.name, description := e.description }

/-- `rm.dict()` for a parsed read model, with the source's mapping of a
truthy `fields` list to an `attributes` list for UI rendering. -/
def readmodel_data (rm : DomainReadModel) : ItemData :=
  let base : ItemData :=
    { name := rm.name, description := rm.description, fields := rm.fields }
  if (rm.fields.getD []).isEmpty then base
  else { base with
    attributes := some ((rm.fields.getD []).map (fun f => { name := f, type := "String" })) }

/-- The left column: commands then policies. -/
def left_column_of (ctx : BoundedContext) : List ColumnEntry :=
  ctx.commands.map (fun c =>
    { type := "Command", data := command_data c,
      dims := compute_item_dimensions "Command" (command_data c) }) ++
  ctx.policies.map (fun p =>
    { type := "Policy", data := policy_data p,
      dims := compute_item_dimensions "Policy" (policy_data p) })

/-- The center column: aggregates. -/
def center_column_of (ctx : BoundedContext) : List ColumnEntry :=
  ctx.aggregates.map (fun a =>
    { type := "Aggregate", data := aggregate_data a,
      dims := compute_item_dimensions "Aggregate" (aggregate_data a) })

/-- The right column: events then read models. -/
def right_column_of (ctx : BoundedContext) : List ColumnEntry :=
  ctx.events.map (fun e =>
    { type := "Event", data := event_data e,
      dims := compute_item_dimensions "Event" (event_data e) }) ++
  ctx.readModels.map (fun rm =>
    { type := "ReadModel", data := readmodel_data rm,
      dims := compute_item_dimensions "ReadModel" (readmodel_data rm) })

/-- Column height: sum of item heights plus `ITEM_V_GAP` between
consecutive items. -/
def column_height : List ColumnEntry → Int
  | [] => 0
  | [e] => e.dims.2
  | e :: rest => e.dims.2 + ITEM_V_GAP + column_height rest

/-- `column_stats`: `(0, 0)` for an empty column, else
`(max item width, stacked height)`. -/
def column_stats (column : List ColumnEntry) : Int × Int :=
  match column with
  | [] => (0, 0)
  | e :: rest =>
      (rest.foldl (fun w x => max w x.dims.1) e.dims.1, column_height (e :: rest))

/-- `column_order`: the non-empty columns (Python truthiness on the column
width) in left/center/right order, or the placeholder column when all three
are empty. -/
def column_order_of (ls cs rs : Int × Int) : List (String × Int × Int) :=
  let order :=
    (if ls.1 ≠ 0 then [("left", ls)] else []) ++
    (if cs.1 ≠ 0 then [("center", cs)] else []) ++
    (if rs.1 ≠ 0 then [("right", rs)] else [])
  if order.isEmpty then [("placeholder", (MIN_ITEM_WIDTH, MIN_ITEM_HEIGHT))] else order

/-- The running-offset placement of columns: each column starts at the
current offset; the offset advances by the column width, plus `ITEM_H_GAP`
for every column but the last.  Returns the per-column x positions and the
final offset. -/
def column_positions : Int → List (String × Int × Int) → List (String × Int) × Int
  | off, [] => ([], off)
  | off, [(k, s)] => ([(k, off)], off + s.1)
  | off, (k, s) :: rest =>
      let r := column_positions (off + s.1 + ITEM_H_GAP) rest
      ((k, off) :: r.1, r.2)

def column_order_ctx (ctx : BoundedContext) : List (String × Int × Int) :=
  column_order_of (column_stats (left_column_of ctx))
    (column_stats (center_column_of ctx)) (column_stats (right_column_of ctx))

/-- `inner_width = current_offset - PADDING` after placing all columns. -/
def inner_width_of (ctx : BoundedContext) : Int :=
  (column_positions PADDING (column_order_ctx ctx)).2 - PADDING

/-- `inner_height`: max of the three column heights, floored at
`MIN_ITEM_HEIGHT`. -/
def inner_height_of (ctx : BoundedContext) : Int :=
  max (max (max (column_stats (left_column_of ctx)).2
    (column_stats (center_column_of ctx)).2) (column_stats (right_column_of ctx)).2)
    MIN_ITEM_HEIGHT

/-- `context_width = inner_width + PADDING` (note: a single padding). -/
def context_width_of (ctx : BoundedContext) : Int :=
  inner_width_of ctx + PADDING

/-- `context_height = inner_height + 2 * PADDING`. -/
def context_height_of (ctx : BoundedContext) : Int :=
  inner_height_of ctx + 2 * PADDING

/-- `column_x_positions.get(key, PADDING)`. -/
def column_x_of (ctx : BoundedContext) (key : String) : Int :=
  (((column_positions PADDING (column_order_ctx ctx)).1.find?
    (fun p => p.1 == key)).map (·.2)).getD PADDING

/-!
## Identity Merge Resolver
-/

/-- A prior item with truthy `type` and `instanceName` (source:
`if i_type and i_name`) — only these enter the merge index and bump the id
counter. -/
def registeredB (p : PriorItem) : Bool :=
  p.type.length != 0 && p.instanceName.length != 0

/-- Prior-board index entry lookup: `existing_items_map[(type, name)]`.
Only registered items are indexed, and later items overwrite earlier ones
with the same key (dict semantics). -/
def lookup_existing (priorItems : List PriorItem) (t n : String) : Option PriorItem :=
  (priorItems.filter (fun it =>
    registeredB it && it.type == t && it.instanceName == n)).getLast?

/-- Seeding of `item_id_counter`: starts at 1, bumped past the id of every
prior item that is registered into the index (the bump sits inside the
`if i_type and i_name` block of the source). -/
def seed_id_counter (priorItems : List PriorItem) : Int :=
  priorItems.foldl (fun c it =>
    if registeredB it then max c (it.id + 1) else c) 1

/-- Mutable state threaded through `_create_eventstorming_board`:
the items built so far, the id counter, the `name → id` and
`id → containing-context-id` tables, and the global x offset.  `ideals`
is a parallel trace recording, for each appended item, the `ideal_x`/`ideal_y`
local variables the source computes for it (the fresh box position for
ContextBox items); it is read by no computation, only by theorems. -/
structure BuildState where
  items : List BoardItem
  ideals : List (Int × Int)
  item_id_counter : Int
  name_to_id_map : List (String × Int)
  item_context_map : List (Int × Int)
  global_x_offset : Int
deriving DecidableEq

/-- The body of the per-item loop of `place_column_items`: compute the ideal
position, build the item (attaching ReadModel attributes when the data dict
carries them, the temporary produced-event name for truthy
`produced_event_name`, and the aggregate's linked diagram), merge id and —
subject to collapse detection for center/right columns — position against
the prior snapshot, and append to the state. -/
def place_one_item (priorItems : List PriorItem) (column_name : String)
    (context_id fcx fcy xpos : Int) (acc : BuildState × Int) (e : ColumnEntry) :
    BuildState × Int :=
  let st := acc.1
  let relY := acc.2
  let item_id0 := st.item_id_counter
  let w := e.dims.1
  let h := e.dims.2
  let ideal_x := fcx + xpos
  let ideal_y := fcy + relY
  let attrs : Option (List AttrEntry) :=
    if e.type = "ReadModel" then e.data.attributes else none
  let tmp : Option String :=
    if e.type = "Command" ∨ e.type = "Policy" then
      match e.data.producedEventName with
      | some n => if n.length ≠ 0 then some n else none
      | none => none
    else none
  let resolved : Int × Int × Int :=
    match lookup_existing priorItems e.type e.data.name with
    | some ex =>
        let is_collapsed :=
          (column_name = "center" ∨ column_name = "right") ∧ ex.x < ideal_x - 50
        if is_collapsed then (ex.id, ideal_x, ideal_y) else (ex.id, ex.x, ex.y)
    | none => (item_id0, ideal_x, ideal_y)
  let item_id := resolved.1
  let link : Option String :=
    if e.type = "Aggregate" then some (slugify e.data.name ++ "-uml") else none
  let item : BoardItem :=
    { id := item_id, parent := some context_id, type := e.type,
      instanceName := e.data.name, description := e.data.description,
      x := resolved.2.1, y := resolved.2.2, width := w, height := h,
      attributes := attrs, producedEventNameTmp := tmp,
      producesEventId := none, linkedDiagram := link }
  ({ st with
      items := st.items ++ [item],
      ideals := st.ideals ++ [(ideal_x, ideal_y)],
      name_to_id_map := st.name_to_id_map ++ [(e.data.name, item_id)],
      item_context_map := st.item_context_map ++ [(item_id, context_id)],
      item_id_counter := max st.item_id_counter (item_id + 1) },
   relY + h + ITEM_V_GAP)

/-- `place_column_items`: early return on an empty column, else fold the
per-item placement with the vertically-centered starting offset.  The
division is exact: all heights produced by `compute_item_dimensions` are
even, and `inner_height` dominates the column height. -/
def place_column_items (priorItems : List PriorItem) (column_name : String)
    (context_id fcx fcy inner_height xpos : Int)
    (column : List ColumnEntry) (st : BuildState) : BuildState :=
  if column.isEmpty then st
  else
    let stats := column_stats column
    let relY0 := PADDING + (inner_height - stats.2) / 2
    (column.foldl (place_one_item priorItems column_name context_id fcx fcy xpos)
      (st, relY0)).1

/-- The per-context body of the main loop of `_create_eventstorming_board`:
pack the three columns, create the ContextBox (reusing prior id/x/y
unconditionally when the `("ContextBox", name)` key is present in the prior
snapshot), then place the columns and advance the global x offset. -/
def process_context (priorItems : List PriorItem) (st : BuildState)
    (ctx : BoundedContext) : BuildState :=
  let left_column := left_column_of ctx
  let center_column := center_column_of ctx
  let right_column := right_column_of ctx
  let inner_height := inner_height_of ctx
  let context_width := context_width_of ctx
  let context_height := context_height_of ctx
  let fresh_x := st.global_x_offset
  let fresh_y := PADDING
  let merged :=
    match lookup_existing priorItems "ContextBox" ctx.name with
    | some ex => (ex.id, ex.x, ex.y)
    | none => (st.item_id_counter, fresh_x, fresh_y)
  let context_id := merged.1
  let box : BoardItem :=
    { id := context_id, type := "ContextBox", instanceName := ctx.name,
      description := ctx.description, x := merged.2.1, y := merged.2.2,
      width := context_width, height := context_height }
  let st1 : BuildState :=
    { st with
        items := st.items ++ [box],
        ideals := st.ideals ++ [(fresh_x, fresh_y)],
        item_context_map := st.item_context_map ++ [(context_id, context_id)],
        item_id_counter := max st.item_id_counter (context_id + 1) }
  let st2 := place_column_items priorItems "left" context_id merged.2.1 merged.2.2
    inner_height (column_x_of ctx "left") left_column st1
  let st3 := place_column_items priorItems "center" context_id merged.2.1 merged.2.2
    inner_height (column_x_of ctx "center") center_column st2
  let st4 := place_column_items priorItems "right" context_id merged.2.1 merged.2.2
    inner_height (column_x_of ctx "right") right_column st3
  { st4 with global_x_offset := st4.global_x_offset + context_width + CONTEXT_H_GAP }

/-- The initial state: empty board, id counter seeded from the prior
snapshot, global x offset at `PADDING`. -/
def initial_state (prior : Option (List PriorItem)) : BuildState :=
  { items := [], ideals := [], item_id_counter := seed_id_counter (prior.getD []),
    name_to_id_map := [], item_context_map := [], global_x_offset := PADDING }

/-- Steps 1–6 of `_create_eventstorming_board`: the merged, laid-out item
list together with the resolver tables (before connection resolution,
produced-event resolution and containment repair). -/
def merge_state (concepts : EventstormingConcepts) (prior : Option (List PriorItem)) :
    BuildState :=
  concepts.contexts.foldl (process_context (prior.getD [])) (initial_state prior)

/-- The merged item list (pre-repair). -/
def merge_items (concepts : EventstormingConcepts) (prior : Option (List PriorItem)) :
    List BoardItem :=
  (merge_state concepts prior).items

/-!
## Connection Resolver and produced-event resolution
-/

/-- Step 7 of `_create_eventstorming_board`: resolve each connection spec
through the `name → id` table.  The source's truthiness tests are modelled
faithfully: a missing *or zero* id fails `if from_id and to_id` (dropping
the connection with a warning), and a missing *or zero* context id falsifies
`if from_context and to_context and from_context == to_context` (emitting
the connection).  Returns the emitted connections and the warned name
pairs. -/
def resolve_connection_step (st : BuildState)
    (acc : List BoardConnection × List (String × String)) (conn : DomainConnection) :
    List BoardConnection × List (String × String) :=
  let from_id := lookupLast st.name_to_id_map conn.from_name
  let to_id := lookupLast st.name_to_id_map conn.to_name
  match from_id, to_id with
  | some f, some t =>
      if f ≠ 0 ∧ t ≠ 0 then
        let from_context := lookupLast st.item_context_map f
        let to_context := lookupLast st.item_context_map t
        let skip :=
          match from_context, to_context with
          | some fc, some tc => (fc != 0) && (tc != 0) && (fc == tc)
          | _, _ => false
        if skip then acc
        else
          (acc.1 ++ [{ id := s!"conn-{f}-{t}", fromId := f, toId := t,
                       type := conn.type }], acc.2)
      else (acc.1, acc.2 ++ [(conn.from_name, conn.to_name)])
  | _, _ => (acc.1, acc.2 ++ [(conn.from_name, conn.to_name)])

def resolve_connections (st : BuildState) (conns : List DomainConnection) :
    List BoardConnection × List (String × String) :=
  conns.foldl (resolve_connection_step st) ([], [])

/-- Containment check on character lists (Python's `sub in s`). -/
def is_infix_chars (needle : List Char) : List Char → Bool
  | [] => needle.isEmpty
  | c :: rest => needle.isPrefixOf (c :: rest) || is_infix_chars needle rest

/-- Python `sub in s` for strings. -/
def str_contains (s sub : String) : Bool :=
  is_infix_chars sub.data s.data

/-- `name.lower().replace(" ", "")` (ASCII lowering). -/
def normalize_for_match (s : String) : String :=
  String.mk ((s.data.map Char.toLower).filter (fun c => c != ' '))

/-- The verb/participle pairs checked by `_infer_produced_event`, in source
order. -/
def verb_event_pairs : List (String × String) :=
  [("register", "registered"), ("place", "placed"), ("create", "created"),
   ("update", "updated"), ("delete", "deleted"), ("cancel", "cancelled"),
   ("send", "sent"), ("pay", "paid")]

/-- `_infer_produced_event`: the first context event whose normalized name
shares a verb/participle pair with the item's normalized name. -/
def infer_produced_event (item_name : String) (context_events : List BoardItem) :
    Option BoardItem :=
  let normalized_item := normalize_for_match item_name
  context_events.find? (fun ev =>
    let normalized_event := normalize_for_match ev.instanceName
    verb_event_pairs.any (fun p =>
      str_contains normalized_item p.1 && str_contains normalized_event p.2))

/-- Step 7.5 of `_create_eventstorming_board`: pop the temporary
produced-event name and resolve it through the (whole-board) `name → id`
table with a truthiness test on the result, or, for commands/policies
without it, run the verb-pair inference over the events of the same
context.  The source iterates over `items` while mutating them in place,
but the mutations touch only `_produced_event_name`/`producesEventId`,
which the scan never reads, so a pure map over the merged items is
equivalent. -/
def resolve_produced_events (st : BuildState) : List BoardItem :=
  st.items.map (fun item =>
    match item.producedEventNameTmp with
    | some event_name =>
        let item1 := { item with producedEventNameTmp := none }
        match lookupLast st.name_to_id_map event_name with
        | some event_id =>
            if event_id ≠ 0 then { item1 with producesEventId := some event_id }
            else item1
        | none => item1
    | none =>
        if (item.type = "Command" ∨ item.type = "Policy") ∧
            item.producesEventId = none then
          match lookupLast st.item_context_map item.id with
          | some ctx_id =>
              if ctx_id ≠ 0 then
                let context_events := st.items.filter (fun o =>
                  o.type == "Event" && (lookupLast st.item_context_map o.id == some ctx_id))
                match infer_produced_event item.instanceName context_events with
                | some ev => { item with producesEventId := some ev.id }
                | none => item
              else item
          | none => item
        else item)

/-!
## Containment Repair (`_adjust_board_layout`)
-/

/-- Total-function artifact for positional list access; positions fed to it
are always in range. -/
def dummy_item : BoardItem :=
  { id := 0, type := "", instanceName := "", description := "",
    x := 0, y := 0, width := 0, height := 0 }

/-- `type_order.get(type, 99)` used to sort detached children. -/
def type_order (t : String) : Int :=
  if t = "Command" then 0
  else if t = "Policy" then 1
  else if t = "Aggregate" then 2
  else if t = "Event" then 3
  else if t = "ReadModel" then 4
  else 99

/-- The children of the box with id `box_id`: positions of the items whose
`parent` is truthy (non-`None`, non-zero) and equals `box_id`.  The source
builds `children_map` upfront from the original item list; parents, types
and ids are never mutated by the pass, so computing from the original list
is exact. -/
def child_positions (orig : List BoardItem) (box_id : Int) : List Nat :=
  (List.range orig.length).filter (fun j =>
    match (orig.getD j dummy_item).parent with
    | some p => (p != 0) && (p == box_id)
    | none => false)

/-- State of the per-child scan: the (mutated) item list, the local
`ctx_x`/`ctx_y` variables, and the detached children collected so far. -/
structure ChildScan where
  items : List BoardItem
  ctxX : Int
  ctxY : Int
  detached : List Nat
deriving DecidableEq

/-- Scan step `if ch_x < ctx_x`: move the box's left edge out to the child,
growing the width so the right edge stays put; the running `ctx_x` becomes
the new left edge. -/
def grow_left (i : Nat) (st : List BoardItem × Int) (ch_x : Int) :
    List BoardItem × Int :=
  if ch_x < st.2 then
    let diff := st.2 - ch_x
    let c := st.1.getD i dummy_item
    let c1 := { c with x := c.x - diff, width := c.width + diff }
    (st.1.set i c1, c1.x)
  else st

/-- Scan step `if ch_y < ctx_y`: move the box's top edge up to the child,
growing the height so the bottom edge stays put. -/
def grow_up (i : Nat) (st : List BoardItem × Int) (ch_y : Int) :
    List BoardItem × Int :=
  if ch_y < st.2 then
    let diff := st.2 - ch_y
    let c := st.1.getD i dummy_item
    let c1 := { c with y := c.y - diff, height := c.height + diff }
    (st.1.set i c1, c1.y)
  else st

/-- Scan step `if ch_right > ctx_x + width`: widen the box so the child's
right edge fits, with padding. -/
def grow_right (i : Nat) (items : List BoardItem) (ctx_x ch_right : Int) :
    List BoardItem :=
  let c := items.getD i dummy_item
  if ch_right > ctx_x + c.width then
    items.set i { c with width := ch_right - ctx_x + PADDING }
  else items

/-- Scan step `if ch_bottom > ctx_y + height`: deepen the box so the child's
bottom edge fits, with padding. -/
def grow_down (i : Nat) (items : List BoardItem) (ctx_y ch_bottom : Int) :
    List BoardItem :=
  let c := items.getD i dummy_item
  if ch_bottom > ctx_y + c.height then
    items.set i { c with height := ch_bottom - ctx_y + PADDING }
  else items

/-- The body of the per-child loop: classify the child as detached (fully
outside on either axis, against the *original* right/bottom edges but the
*updated* left/top edges) or grow the box minimally around it, in the
source's four sequential steps. -/
def scan_child (i : Nat) (ctx_right ctx_bottom : Int) (acc : ChildScan) (j : Nat) :
    ChildScan :=
  let child := acc.items.getD j dummy_item
  let ch_x := child.x
  let ch_y := child.y
  let ch_right := ch_x + child.width
  let ch_bottom := ch_y + child.height
  let is_outside_x := (ch_right < acc.ctxX) || (ch_x > ctx_right)
  let is_outside_y := (ch_bottom < acc.ctxY) || (ch_y > ctx_bottom)
  if is_outside_x || is_outside_y then
    { acc with detached := acc.detached ++ [j] }
  else
    let step1 := grow_left i (acc.items, acc.ctxX) ch_x
    let step2 := grow_up i (step1.1, acc.ctxY) ch_y
    let items3 := grow_right i step2.1 step1.2 ch_right
    let items4 := grow_down i items3 step2.2 ch_bottom
    { items := items4, ctxX := step1.2, ctxY := step2.2, detached := acc.detached }

/-- The body of the detached-replacement loop: snap the child to the
column x inside the box at the running y, and grow the box's height. -/
def place_detached (i : Nat) (ctx_x : Int) (acc : List BoardItem × Int) (j : Nat) :
    List BoardItem × Int :=
  let child := acc.1.getD j dummy_item
  let items1 := acc.1.set j { child with x := ctx_x + PADDING, y := acc.2 }
  let ctx := items1.getD i dummy_item
  let items2 := items1.set i { ctx with height := ctx.height + child.height + ITEM_V_GAP }
  (items2, acc.2 + child.height + ITEM_V_GAP)

/-- Python's stable `sort(key=type_order.get(·, 99))` realized as a stable
bucket pass: `type_order` only takes the values 0–4 and 99, so concatenating
the per-key filters in key order is exactly the stable sort. -/
def sort_detached (items : List BoardItem) (det : List Nat) : List Nat :=
  (([0, 1, 2, 3, 4, 99] : List Int).map (fun k =>
    det.filter (fun j => type_order ((items.getD j dummy_item).type) == k))).flatten

/-- The per-ContextBox body of `_adjust_board_layout`: scan the children
(from the upfront `children_map` of the original list), then re-stack the
detached ones below the box, growing its height. -/
def repair_box (orig : List BoardItem) (items : List BoardItem) (i : Nat) :
    List BoardItem :=
  let context := items.getD i dummy_item
  let children := child_positions orig context.id
  if children.isEmpty then items
  else
    let ctx_right := context.x + context.width
    let ctx_bottom := context.y + context.height
    let s := children.foldl (scan_child i ctx_right ctx_bottom)
      { items := items, ctxX := context.x, ctxY := context.y, detached := [] }
    if s.detached.isEmpty then s.items
    else
      let sorted := sort_detached s.items s.detached
      let ctx1 := s.items.getD i dummy_item
      let start_y := s.ctxY + ctx1.height - PADDING
      (sorted.foldl (place_detached i s.ctxX) (s.items, start_y)).1

/-- `_adjust_board_layout`: repair each ContextBox in order. -/
def adjust_board_layout (items : List BoardItem) : List BoardItem :=
  let box_positions := (List.range items.length).filter
    (fun i => (items.getD i dummy_item).type == "ContextBox")
  box_positions.foldl (repair_box items) items

/-- `_create_eventstorming_board` (for parsed concepts; the LLM call and the
`concepts is None` sentinel path live outside this core): merge, resolve
connections, resolve produced events, repair containment, and assemble the
board.  Also returns the unresolved-connection warnings the source logs. -/
def create_eventstorming_board (concepts : EventstormingConcepts)
    (existing_board : Option (List PriorItem)) : Board × List (String × String) :=
  let st := merge_state concepts existing_board
  let r := resolve_connections st concepts.connections
  let items1 := resolve_produced_events st
  let items2 := adjust_board_layout items1
  ({ boardType := "Eventstorming", instanceName := slugify concepts.project_name,
     items := items2, connections := r.1 }, r.2)

/-!
## Containment predicate
-/

/-- `c`'s bounding rectangle lies fully inside `b`'s. -/
def insideBox (c b : BoardItem) : Prop :=
  b.x ≤ c.x ∧ b.y ≤ c.y ∧
  c.x + c.width ≤ b.x + b.width ∧ c.y + c.height ≤ b.y + b.height

instance (c b : BoardItem) : Decidable (insideBox c b) := by
  unfold insideBox
  infer_instance

/-!
## Counterexamples and code-bug exhibits
-/

/-- C1 counterexample.  For a ContextBox whose merge key is present in the
prior snapshot, the prior x/y are reused *unconditionally* — there is no
collapse check on the ContextBox path of `_create_eventstorming_board`
(lines 428–438), unlike the center/right item path.  Here the prior x is
−200, the ideal position is `(50, 50)`, and `−200 < 50 − 50`, so the claim
demands the ideal position; the engine keeps `(−200, 0)`. -/
theorem contextbox_position_reuse_counterexample :
    (merge_state
        { project_name := "p",
          contexts := [{ name := "A", description := "", events := [],
                         commands := [], policies := [], aggregates := [],
                         readModels := [] }],
          connections := [] }
        (some [{ id := 1, type := "ContextBox", instanceName := "A",
                 x := -200, y := 0 }])).ideals = [(50, 50)] ∧
    (merge_items
        { project_name := "p",
          contexts := [{ name := "A", description := "", events := [],
                         commands := [], policies := [], aggregates := [],
                         readModels := [] }],
          connections := [] }
        (some [{ id := 1, type := "ContextBox", instanceName := "A",
                 x := -200, y := 0 }])).map (fun it => (it.type, it.id, it.x, it.y)) =
      [("ContextBox", 1, -200, 0)] ∧
    (-200 : Int) < 50 - 50 := by
  refine ⟨by decide, by decide, by decide⟩

/-- C2 counterexample.  With a prior snapshot assigning id 0 to the event
`"E"`, both endpoint names of the connection `E → P` resolve in the
`name → id` table and the two items live in different contexts, yet the
truthiness test `if from_id and to_id:` treats the resolved id 0 as
unresolved: the connection is dropped and a "not found" warning is recorded
instead of emitting `conn-0-3`. -/
theorem connection_resolver_counterexample :
    (lookupLast (merge_state
        { project_name := "p",
          contexts := [
            { name := "A", description := "",
              events := [{ name := "E", description := "" }], commands := [],
              policies := [], aggregates := [], readModels := [] },
            { name := "B", description := "", events := [], commands := [],
              policies := [{ name := "P", description := "" }],
              aggregates := [], readModels := [] }],
          connections := [{ from_name := "E", to_name := "P", type := "Flow" }] }
        (some [{ id := 0, type := "Event", instanceName := "E", x := 690, y := 125 }])).name_to_id_map
      "E" = some 0) ∧
    (lookupLast (merge_state
        { project_name := "p",
          contexts := [
            { name := "A", description := "",
              events := [{ name := "E", description := "" }], commands := [],
              policies := [], aggregates := [], readModels := [] },
            { name := "B", description := "", events := [], commands := [],
              policies := [{ name := "P", description := "" }],
              aggregates := [], readModels := [] }],
          connections := [{ from_name := "E", to_name := "P", type := "Flow" }] }
        (some [{ id := 0, type := "Event", instanceName := "E", x := 690, y := 125 }])).name_to_id_map
      "P" = some 3) ∧
    (resolve_connections
      (merge_state
        { project_name := "p",
          contexts := [
            { name := "A", description := "",
              events := [{ name := "E", description := "" }], commands := [],
              policies := [], aggregates := [], readModels := [] },
            { name := "B", description := "", events := [], commands := [],
              policies := [{ name := "P", description := "" }],
              aggregates := [], readModels := [] }],
          connections := [{ from_name := "E", to_name := "P", type := "Flow" }] }
        (some [{ id := 0, type := "Event", instanceName := "E", x := 690, y := 125 }]))
      [{ from_name := "E", to_name := "P", type := "Flow" }] = ([], [("E", "P")])) := by
  refine ⟨by decide, by decide, by decide⟩

/-- C6 counterexample.  The id-counter seeding only scans prior items with
truthy `type` *and* `instanceName`: a prior item with an empty name does not
bump the counter, although its id belongs to the prior snapshot.  Here the
prior board holds an (unmatchable) item with id 1; the fresh ContextBox
(whose key has no prior match) is assigned id 1 — a collision with an id
present in the prior snapshot. -/
theorem fresh_id_counterexample :
    seed_id_counter [{ id := 1, type := "Event", instanceName := "", x := 0, y := 0 }] = 1 ∧
    lookup_existing [{ id := 1, type := "Event", instanceName := "", x := 0, y := 0 }]
      "ContextBox" "A" = none ∧
    (merge_items
        { project_name := "p",
          contexts := [{ name := "A", description := "", events := [],
                         commands := [], policies := [], aggregates := [],
                         readModels := [] }],
          connections := [] }
        (some [{ id := 1, type := "Event", instanceName := "", x := 0, y := 0 }])).map
      (fun it => it.id) = [1] := by
  refine ⟨by decide, by decide, by decide⟩

/-- C7 counterexample.  A context with a single 230-wide command has inner
width 230, and the engine gives its ContextBox width `230 + 50 = 280`: the
padding is applied on the left only, not on both sides (`330` would be the
both-sides value the claim prescribes).  The height does get padding on both
top and bottom (`110 + 2·50 = 210`). -/
theorem context_box_size_counterexample :
    inner_width_of
      { name := "A", description := "", events := [],
        commands := [{ name := "C", description := "" }], policies := [],
        aggregates := [], readModels := [] } = 230 ∧
    (merge_items
        { project_name := "p",
          contexts := [{ name := "A", description := "", events := [],
                         commands := [{ name := "C", description := "" }],
                         policies := [], aggregates := [], readModels := [] }],
          connections := [] } none).map (fun it => (it.type, it.width, it.height)) =
      [("ContextBox", 280, 210), ("Command", 230, 110)] ∧
    (280 : Int) ≠ 230 + 2 * 50 := by
  refine ⟨by decide, by decide, by decide⟩

/-- C3 counterexample.  A detached child wider than its box is re-stacked at
`ctx_x + PADDING` without ever growing the box's width: after repair the
child's right edge (250) exceeds the box's right edge (100), so containment
fails on this board. -/
theorem containment_counterexample :
    (adjust_board_layout
        [{ id := 1, type := "ContextBox", instanceName := "A", description := "",
           x := 0, y := 0, width := 100, height := 100 },
         { id := 2, type := "Command", instanceName := "c", description := "",
           parent := some 1, x := 1000, y := 0, width := 200, height := 80 }]).map
      (fun it => (it.id, it.x, it.y, it.width, it.height)) =
      [(1, 0, 0, 100, 210), (2, 50, 50, 200, 80)] ∧
    ∃ b ∈ adjust_board_layout
        [{ id := 1, type := "ContextBox", instanceName := "A", description := "",
           x := 0, y := 0, width := 100, height := 100 },
         { id := 2, type := "Command", instanceName := "c", description := "",
           parent := some 1, x := 1000, y := 0, width := 200, height := 80 }],
      b.type = "ContextBox" ∧
      ∃ c ∈ adjust_board_layout
          [{ id := 1, type := "ContextBox", instanceName := "A", description := "",
             x := 0, y := 0, width := 100, height := 100 },
           { id := 2, type := "Command", instanceName := "c", description := "",
             parent := some 1, x := 1000, y := 0, width := 200, height := 80 }],
        c.parent = some b.id ∧ ¬ insideBox c b := by
  refine ⟨by decide, by decide⟩

/-- C4 counterexample.  On the same kind of board (box of width 120, child
of width 200), the first repair leaves the child sticking out to the right;
the second repair then classifies it as partially overlapping and grows the
box's width from 120 to 300 — the second application is not a no-op. -/
theorem repair_idempotent_counterexample :
    (adjust_board_layout
        [{ id := 1, type := "ContextBox", instanceName := "A", description := "",
           x := 0, y := 0, width := 120, height := 100 },
         { id := 2, type := "Command", instanceName := "c", description := "",
           parent := some 1, x := 1000, y := 0, width := 200, height := 80 }]).map
      (fun it => (it.id, it.x, it.y, it.width, it.height)) =
      [(1, 0, 0, 120, 210), (2, 50, 50, 200, 80)] ∧
    adjust_board_layout (adjust_board_layout
        [{ id := 1, type := "ContextBox", instanceName := "A", description := "",
           x := 0, y := 0, width := 120, height := 100 },
         { id := 2, type := "Command", instanceName := "c", description := "",
           parent := some 1, x := 1000, y := 0, width := 200, height := 80 }]) ≠
      adjust_board_layout
        [{ id := 1, type := "ContextBox", instanceName := "A", description := "",
           x := 0, y := 0, width := 120, height := 100 },
         { id := 2, type := "Command", instanceName := "c", description := "",
           parent := some 1, x := 1000, y := 0, width := 200, height := 80 }] := by
  refine ⟨by decide, by decide⟩

/-- C5 code-bug exhibit.  The generated JSON declares
`produced_event_name = "ClaimReceived"` on the command `"SubmitClaim"`, and
an event `"ClaimReceived"` exists in the same context (it gets id 3).
pydantic parsing drops the undeclared key (`parse_domain_command`), so the
engine's explicit-resolution branch never sees it; the verb-pair fallback
finds no match, and the emitted `"SubmitClaim"` item has no
`producesEventId` — against the claim, which requires it to be the event's
id. -/
theorem produced_event_name_dropped_bug :
    parse_domain_command
      { name := "SubmitClaim", description := "",
        produced_event_name := some "ClaimReceived" } =
      { name := "SubmitClaim", description := "" } ∧
    ((create_eventstorming_board
        { project_name := "p",
          contexts := [
            { name := "A", description := "",
              events := [{ name := "ClaimReceived", description := "" }],
              commands := [parse_domain_command
                { name := "SubmitClaim", description := "",
                  produced_event_name := some "ClaimReceived" }],
              policies := [], aggregates := [], readModels := [] }],
          connections := [] } none).1.items).map
      (fun it => (it.instanceName, it.id, it.producesEventId)) =
      [("A", 1, none), ("SubmitClaim", 2, none), ("ClaimReceived", 3, none)] := by
  refine ⟨by decide, by decide⟩

/-!
## Invariants of the merge resolver state
-/

/-- Generic fold-preservation with membership. -/
lemma foldl_preserve_mem {α β : Type} (f : β → α → β) (P : β → Prop) :
    ∀ (l : List α) (acc : β), (∀ acc' e, e ∈ l → P acc' → P (f acc' e)) →
      P acc → P (l.foldl f acc)
  | [], _, _, hP => hP
  | e :: rest, acc, h, hP =>
      foldl_preserve_mem f P rest (f acc e)
        (fun acc' e' he' => h acc' e' (List.mem_cons_of_mem e he'))
        (h acc e (List.mem_cons_self e rest) hP)

lemma lookupLast_append {α β : Type} [BEq α] (l : List (α × β)) (a : α) (b : β) (k : α) :
    lookupLast (l ++ [(a, b)]) k = if a == k then some b else lookupLast l k := by
  unfold lookupLast
  rw [List.filter_append]
  by_cases h : a == k
  · simp [h]
  · simp only [List.filter_cons, List.filter_nil]
    simp [h]

lemma mem_of_getLast?_eq_some {α : Type} {l : List α} {a : α}
    (h : l.getLast? = some a) : a ∈ l := by
  have hx : a ∈ l.getLast? := Option.mem_def.mpr h
  obtain ⟨hne, heq⟩ := List.mem_getLast?_eq_getLast hx
  rw [heq]
  exact List.getLast_mem hne

lemma lookupLast_mem {α β : Type} [BEq α] (l : List (α × β)) (k : α) (v : β)
    (h : lookupLast l k = some v) : ∃ a, (a, v) ∈ l ∧ (a == k) = true := by
  unfold lookupLast at h
  rcases hg : (l.filter (fun p => p.1 == k)).getLast? with _ | p
  · rw [hg] at h
    exact absurd h (by simp)
  · rw [hg] at h
    have hf := List.mem_filter.mp (mem_of_getLast?_eq_some hg)
    refine ⟨p.1, ?_, hf.2⟩
    have hv : p.2 = v := by injection h
    rw [← hv]
    exact hf.1

/-- A matched prior item belongs to the snapshot, is registered, and bears
the queried key. -/
lemma lookup_existing_spec (pr : List PriorItem) (t n : String) (ex : PriorItem)
    (h : lookup_existing pr t n = some ex) :
    ex ∈ pr ∧ registeredB ex = true ∧ ex.type = t ∧ ex.instanceName = n := by
  unfold lookup_existing at h
  have hf := List.mem_filter.mp (mem_of_getLast?_eq_some h)
  have h2 := hf.2
  simp only [Bool.and_eq_true, beq_iff_eq] at h2
  exact ⟨hf.1, h2.1.1, h2.1.2, h2.2⟩

lemma seed_id_counter_spec (pr : List PriorItem) :
    1 ≤ seed_id_counter pr ∧
    ∀ p ∈ pr, registeredB p = true → p.id < seed_id_counter pr := by
  unfold seed_id_counter
  suffices h : ∀ (init : Int),
      init ≤ pr.foldl (fun c it =>
        if registeredB it then max c (it.id + 1) else c) init ∧
      ∀ p ∈ pr, registeredB p = true →
        p.id < pr.foldl (fun c it =>
          if registeredB it then max c (it.id + 1) else c) init by
    exact ⟨(h 1).1, (h 1).2⟩
  induction pr with
  | nil => intro init; exact ⟨le_refl _, by simp⟩
  | cons p rest ih =>
      intro init
      simp only [List.foldl_cons]
      constructor
      · refine le_trans ?_ (ih _).1
        split <;> simp [le_max_left]
      · intro q hq hreg
        rcases List.mem_cons.mp hq with h1 | h1
        · subst h1
          refine lt_of_lt_of_le ?_ (ih _).1
          rw [if_pos hreg]
          have := le_max_right init (q.id + 1)
          omega
        · exact (ih _).2 q h1 hreg

/-- Full characterization of one placement step: the state grows by exactly
one item (with its ideal-position trace entry, name table entry, context
table entry and counter bump), and the item's id/position follow the
merge-and-collapse rule of the source. -/
lemma place_one_item_spec (pr : List PriorItem) (cn : String)
    (cid fcx fcy xpos : Int) (st : BuildState) (relY : Int) (e : ColumnEntry) :
    ∃ it : BoardItem,
      place_one_item pr cn cid fcx fcy xpos (st, relY) e =
        ({ st with
            items := st.items ++ [it],
            ideals := st.ideals ++ [(fcx + xpos, fcy + relY)],
            name_to_id_map := st.name_to_id_map ++ [(e.data.name, it.id)],
            item_context_map := st.item_context_map ++ [(it.id, cid)],
            item_id_counter := max st.item_id_counter (it.id + 1) },
         relY + e.dims.2 + ITEM_V_GAP) ∧
      it.type = e.type ∧ it.instanceName = e.data.name ∧ it.parent = some cid ∧
      it.width = e.dims.1 ∧ it.height = e.dims.2 ∧
      (match lookup_existing pr e.type e.data.name with
       | some ex =>
           it.id = ex.id ∧
           (((cn = "center" ∨ cn = "right") ∧ ex.x < (fcx + xpos) - 50) →
               it.x = fcx + xpos ∧ it.y = fcy + relY) ∧
           (¬ ((cn = "center" ∨ cn = "right") ∧ ex.x < (fcx + xpos) - 50) →
               it.x = ex.x ∧ it.y = ex.y)
       | none => it.id = st.item_id_counter ∧ it.x = fcx + xpos ∧ it.y = fcy + relY) := by
  rcases hL : lookup_existing pr e.type e.data.name with _ | ex <;>
    simp only [place_one_item, hL] <;>
    refine ⟨_, rfl, rfl, rfl, rfl, rfl, rfl, ?_⟩
  · exact ⟨rfl, rfl, rfl⟩
  · split_ifs with hcoll <;>
      refine ⟨rfl, ?_, ?_⟩ <;>
      first
        | exact fun hc => ⟨rfl, rfl⟩
        | exact fun hn => absurd hcoll hn
        | exact fun hc => absurd hc hcoll

/-- The merge rule the resolver establishes for every placed item, relating
the emitted item to its ideal position: a prior match reuses the prior id;
left-column items and ContextBoxes reuse the prior position verbatim, while
center/right items reuse it exactly when the prior x is within the 50px
collapse threshold of the ideal x, and take the ideal position otherwise. -/
def mergeSpec (pr : List PriorItem) (it : BoardItem) (ideal : Int × Int) : Prop :=
  match lookup_existing pr it.type it.instanceName with
  | some ex =>
      it.id = ex.id ∧
      ((it.type = "ContextBox" ∨ it.type = "Command" ∨ it.type = "Policy") →
          it.x = ex.x ∧ it.y = ex.y) ∧
      ((it.type = "Aggregate" ∨ it.type = "Event" ∨ it.type = "ReadModel") →
          (ex.x < ideal.1 - 50 → it.x = ideal.1 ∧ it.y = ideal.2) ∧
          (¬ ex.x < ideal.1 - 50 → it.x = ex.x ∧ it.y = ex.y))
  | none => True

/-- The item's merge key is absent from the prior index. -/
def no_prior_match (pr : List PriorItem) (it : BoardItem) : Prop :=
  lookup_existing pr it.type it.instanceName = none

/-- Invariant of the resolver state: the name table mirrors the non-box
items in placement order; the id counter strictly dominates every registered
prior id and every placed id; freshly assigned ids avoid registered prior
ids; ids are collision-free whenever one of the two items is fresh; and
every placed item satisfies the merge rule against its traced ideal
position. -/
def StateInv (pr : List PriorItem) (st : BuildState) : Prop :=
  st.name_to_id_map =
    (st.items.filter (fun it => it.type != "ContextBox")).map
      (fun it => (it.instanceName, it.id)) ∧
  1 ≤ st.item_id_counter ∧
  (∀ p ∈ pr, registeredB p = true → p.id < st.item_id_counter) ∧
  (∀ it ∈ st.items, it.id < st.item_id_counter) ∧
  (∀ it ∈ st.items, no_prior_match pr it →
      ∀ p ∈ pr, registeredB p = true → it.id ≠ p.id) ∧
  st.items.Pairwise
    (fun a b => (no_prior_match pr a ∨ no_prior_match pr b) → a.id ≠ b.id) ∧
  List.Forall₂ (mergeSpec pr) st.items st.ideals

lemma mem_left_column (ctx : BoundedContext) :
    ∀ e ∈ left_column_of ctx, e.type = "Command" ∨ e.type = "Policy" := by
  intro e he
  rcases List.mem_append.mp he with h | h <;>
    obtain ⟨a, _, rfl⟩ := List.mem_map.mp h
  · exact Or.inl rfl
  · exact Or.inr rfl

lemma mem_center_column (ctx : BoundedContext) :
    ∀ e ∈ center_column_of ctx, e.type = "Aggregate" := by
  intro e he
  obtain ⟨a, _, rfl⟩ := List.mem_map.mp he
  rfl

lemma mem_right_column (ctx : BoundedContext) :
    ∀ e ∈ right_column_of ctx, e.type = "Event" ∨ e.type = "ReadModel" := by
  intro e he
  rcases List.mem_append.mp he with h | h <;>
    obtain ⟨a, _, rfl⟩ := List.mem_map.mp h
  · exact Or.inl rfl
  · exact Or.inr rfl

/-- Appending an item whose fields obey `place_one_item_spec` preserves the
state invariant. -/
lemma append_item_preserves (pr : List PriorItem) (st : BuildState)
    (it : BoardItem) (ideal : Int × Int) (nm : String) (cid : Int)
    (hname : it.instanceName = nm)
    (hbox : (it.type != "ContextBox") = true)
    (hid : (match lookup_existing pr it.type it.instanceName with
            | some ex => it.id = ex.id
            | none => it.id = st.item_id_counter))
    (hms : mergeSpec pr it ideal)
    (h : StateInv pr st) :
    StateInv pr
      { st with
          items := st.items ++ [it],
          ideals := st.ideals ++ [ideal],
          name_to_id_map := st.name_to_id_map ++ [(nm, it.id)],
          item_context_map := st.item_context_map ++ [(it.id, cid)],
          item_id_counter := max st.item_id_counter (it.id + 1) } := by
  obtain ⟨h1, h2, h3, h4, h5, h6, h7⟩ := h
  refine ⟨?_, ?_, ?_, ?_, ?_, ?_, ?_⟩
  · simp only [List.filter_append, List.map_append, List.filter_cons, hbox,
      List.filter_nil, if_true, List.map_cons, List.map_nil, h1, hname]
  · simp only []
    exact le_trans h2 (le_max_left _ _)
  · intro p hp hreg
    exact lt_of_lt_of_le (h3 p hp hreg) (le_max_left _ _)
  · intro x hx
    rcases List.mem_append.mp hx with hx | hx
    · exact lt_of_lt_of_le (h4 x hx) (le_max_left _ _)
    · have hx2 : x = it := by simpa using hx
      subst hx2
      exact lt_of_lt_of_le (by omega) (le_max_right _ _)
  · intro x hx hnm p hp hreg
    rcases List.mem_append.mp hx with hx | hx
    · exact h5 x hx hnm p hp hreg
    · have hx2 : x = it := by simpa using hx
      subst hx2
      unfold no_prior_match at hnm
      rw [hnm] at hid
      have := h3 p hp hreg
      omega
  · rw [List.pairwise_append]
    refine ⟨h6, List.pairwise_singleton _ _, ?_⟩
    intro a ha b hb hor
    have hb2 : b = it := by simpa using hb
    rw [hb2] at hor ⊢
    rcases hL : lookup_existing pr it.type it.instanceName with _ | ex
    · rw [hL] at hid
      have := h4 a ha
      omega
    · rw [hL] at hid
      rcases hor with hna | hnb
      · obtain ⟨hmem, hreg, _, _⟩ := lookup_existing_spec pr _ _ ex hL
        rw [hid]
        exact h5 a ha hna ex hmem hreg
      · exact absurd hL (by rw [hnb]; simp)
  · exact List.rel_append h7 (List.forall₂_cons.mpr ⟨hms, List.Forall₂.nil⟩)

/-- One placement step preserves the invariant, provided the column name is
consistent with the entry type (as in every call site of
`place_column_items`). -/
lemma place_one_item_preserves (pr : List PriorItem) (cn : String)
    (cid fcx fcy xpos : Int) (e : ColumnEntry)
    (hcn : (cn = "left" ∧ (e.type = "Command" ∨ e.type = "Policy")) ∨
           (cn = "center" ∧ e.type = "Aggregate") ∨
           (cn = "right" ∧ (e.type = "Event" ∨ e.type = "ReadModel")))
    (acc : BuildState × Int) (h : StateInv pr acc.1) :
    StateInv pr (place_one_item pr cn cid fcx fcy xpos acc e).1 := by
  obtain ⟨it, heq, htype, hname, hparent, hw, hh, hmerge⟩ :=
    place_one_item_spec pr cn cid fcx fcy xpos acc.1 acc.2 e
  have heq2 : place_one_item pr cn cid fcx fcy xpos acc e = _ := heq
  rw [heq2]
  have hl : lookup_existing pr it.type it.instanceName =
      lookup_existing pr e.type e.data.name := by rw [htype, hname]
  have htype5 : it.type = "Command" ∨ it.type = "Policy" ∨ it.type = "Aggregate" ∨
      it.type = "Event" ∨ it.type = "ReadModel" := by
    rw [htype]; tauto
  have hbox : (it.type != "ContextBox") = true := by
    rcases htype5 with h' | h' | h' | h' | h' <;> rw [h'] <;> decide
  apply append_item_preserves pr acc.1 it (fcx + xpos, fcy + acc.2) e.data.name cid
    hname hbox
  · rw [hl]
    rcases hL : lookup_existing pr e.type e.data.name with _ | ex <;> rw [hL] at hmerge
    · exact hmerge.1
    · exact hmerge.1
  · unfold mergeSpec
    rw [hl]
    rcases hL : lookup_existing pr e.type e.data.name with _ | ex <;> rw [hL] at hmerge
    · trivial
    · refine ⟨hmerge.1, ?_, ?_⟩
      · intro hP
        rcases hcn with ⟨hcnv, hty⟩ | ⟨hcnv, hty⟩ | ⟨hcnv, hty⟩
        · subst hcnv
          exact hmerge.2.2 (fun hc => absurd hc.1 (by decide))
        · rw [htype.trans hty] at hP
          exact absurd hP (by decide)
        · rcases hty with hty | hty <;> rw [htype.trans hty] at hP <;>
            exact absurd hP (by decide)
      · intro hP
        have hcnd : cn = "center" ∨ cn = "right" := by
          rcases hcn with ⟨hcnv, hty | hty⟩ | ⟨hcnv, hty⟩ | ⟨hcnv, hty⟩ <;>
            [skip; skip; exact Or.inl hcnv; exact Or.inr hcnv] <;>
            (rw [htype.trans hty] at hP; exact absurd hP (by decide))
        exact ⟨fun hlt => hmerge.2.1 ⟨hcnd, hlt⟩,
               fun hge => hmerge.2.2 (fun hc => hge hc.2)⟩
  · exact h

lemma place_column_items_preserves (pr : List PriorItem) (cn : String)
    (cid fcx fcy ih xpos : Int) (col : List ColumnEntry) (st : BuildState)
    (hcol : ∀ e ∈ col,
      (cn = "left" ∧ (e.type = "Command" ∨ e.type = "Policy")) ∨
      (cn = "center" ∧ e.type = "Aggregate") ∨
      (cn = "right" ∧ (e.type = "Event" ∨ e.type = "ReadModel")))
    (h : StateInv pr st) :
    StateInv pr (place_column_items pr cn cid fcx fcy ih xpos col st) := by
  unfold place_column_items
  split
  · exact h
  · exact foldl_preserve_mem _ (fun acc : BuildState × Int => StateInv pr acc.1)
      col _
      (fun acc' e he hP =>
        place_one_item_preserves pr cn cid fcx fcy xpos e (hcol e he) acc' hP)
      h

/-- Appending a ContextBox (which enters `item_context_map` but not the name
table) preserves the invariant. -/
lemma append_box_preserves (pr : List PriorItem) (st : BuildState)
    (it : BoardItem) (ideal : Int × Int)
    (hbox : it.type = "ContextBox")
    (hid : (match lookup_existing pr it.type it.instanceName with
            | some ex => it.id = ex.id
            | none => it.id = st.item_id_counter))
    (hms : mergeSpec pr it ideal)
    (h : StateInv pr st) :
    StateInv pr
      { st with
          items := st.items ++ [it],
          ideals := st.ideals ++ [ideal],
          item_context_map := st.item_context_map ++ [(it.id, it.id)],
          item_id_counter := max st.item_id_counter (it.id + 1) } := by
  obtain ⟨h1, h2, h3, h4, h5, h6, h7⟩ := h
  refine ⟨?_, ?_, ?_, ?_, ?_, ?_, ?_⟩
  · simp only [List.filter_append, List.map_append, List.filter_cons, hbox,
      List.filter_nil, List.map_nil]
    simp [h1]
  · simp only []
    exact le_trans h2 (le_max_left _ _)
  · intro p hp hreg
    exact lt_of_lt_of_le (h3 p hp hreg) (le_max_left _ _)
  · intro x hx
    rcases List.mem_append.mp hx with hx | hx
    · exact lt_of_lt_of_le (h4 x hx) (le_max_left _ _)
    · have hx2 : x = it := by simpa using hx
      subst hx2
      exact lt_of_lt_of_le (by omega) (le_max_right _ _)
  · intro x hx hnm p hp hreg
    rcases List.mem_append.mp hx with hx | hx
    · exact h5 x hx hnm p hp hreg
    · have hx2 : x = it := by simpa using hx
      subst hx2
      unfold no_prior_match at hnm
      rw [hnm] at hid
      have := h3 p hp hreg
      omega
  · rw [List.pairwise_append]
    refine ⟨h6, List.pairwise_singleton _ _, ?_⟩
    intro a ha b hb hor
    have hb2 : b = it := by simpa using hb
    rw [hb2] at hor ⊢
    rcases hL : lookup_existing pr it.type it.instanceName with _ | ex
    · rw [hL] at hid
      have := h4 a ha
      omega
    · rw [hL] at hid
      rcases hor with hna | hnb
      · obtain ⟨hmem, hreg, _, _⟩ := lookup_existing_spec pr _ _ ex hL
        rw [hid]
        exact h5 a ha hna ex hmem hreg
      · exact absurd hL (by rw [hnb]; simp)
  · exact List.rel_append h7 (List.forall₂_cons.mpr ⟨hms, List.Forall₂.nil⟩)

lemma process_context_preserves (pr : List PriorItem) (st : BuildState)
    (ctx : BoundedContext) (h : StateInv pr st) :
    StateInv pr (process_context pr st ctx) := by
  unfold process_context
  apply place_column_items_preserves pr "right" _ _ _ _ _ _ _
    (fun e he => Or.inr (Or.inr ⟨rfl, mem_right_column ctx e he⟩))
  apply place_column_items_preserves pr "center" _ _ _ _ _ _ _
    (fun e he => Or.inr (Or.inl ⟨rfl, mem_center_column ctx e he⟩))
  apply place_column_items_preserves pr "left" _ _ _ _ _ _ _
    (fun e he => Or.inl ⟨rfl, mem_left_column ctx e he⟩)
  rcases hL : lookup_existing pr "ContextBox" ctx.name with _ | ex <;>
      simp only [hL] <;>
      refine append_box_preserves pr st _ _ rfl ?_ ?_ h
  · simp [hL]
  · unfold mergeSpec
    simp [hL]
  · simp [hL]
  · unfold mergeSpec
    simp only [hL]
    exact ⟨trivial, fun _ => ⟨trivial, trivial⟩, fun hP => absurd hP (by decide)⟩

lemma merge_state_inv (concepts : EventstormingConcepts)
    (prior : Option (List PriorItem)) :
    StateInv (prior.getD []) (merge_state concepts prior) := by
  unfold merge_state
  refine foldl_preserve_mem _ (StateInv (prior.getD [])) _ _
    (fun st ctx _ h => process_context_preserves _ st ctx h) ?_
  obtain ⟨hseed1, hseed2⟩ := seed_id_counter_spec (prior.getD [])
  exact ⟨rfl, hseed1, fun p hp hreg => hseed2 p hp hreg,
    by simp [initial_state], by simp [initial_state], by simp [initial_state],
    by simp [initial_state]⟩

lemma lookupLast_name_table (items : List BoardItem) (name : String) :
    lookupLast ((items.filter (fun it => it.type != "ContextBox")).map
      (fun it => (it.instanceName, it.id))) name =
    ((items.filter (fun it =>
      it.type != "ContextBox" && it.instanceName == name)).getLast?).map (·.id) := by
  unfold lookupLast
  rw [List.filter_map, List.getLast?_map, Option.map_map, List.filter_filter]
  have hpred : List.filter
      (fun a => ((fun p => p.1 == name) ∘ fun it => (it.instanceName, it.id)) a &&
        (a.type != "ContextBox")) items =
      List.filter (fun it => it.type != "ContextBox" && it.instanceName == name) items := by
    apply List.filter_congr
    intro a _
    simp [Function.comp, Bool.and_comm]
  rw [hpred]
  rfl

lemma resolve_connection_step_cases (st : BuildState)
    (acc : List BoardConnection × List (String × String)) (conn : DomainConnection) :
    (resolve_connection_step st acc conn).1 = acc.1 ∨
    ∃ f t : Int,
      lookupLast st.name_to_id_map conn.from_name = some f ∧
      lookupLast st.name_to_id_map conn.to_name = some t ∧
      (resolve_connection_step st acc conn).1 =
        acc.1 ++ [{ id := s!"conn-{f}-{t}", fromId := f, toId := t,
                    type := conn.type }] := by
  unfold resolve_connection_step
  rcases hf : lookupLast st.name_to_id_map conn.from_name with _ | f <;>
    rcases ht : lookupLast st.name_to_id_map conn.to_name with _ | t <;>
    simp only [hf, ht]
  · exact Or.inl trivial
  · exact Or.inl trivial
  · exact Or.inl trivial
  · split_ifs with h1 h2
    · exact Or.inl rfl
    · exact Or.inr ⟨f, t, rfl, rfl, rfl⟩
    · exact Or.inl rfl

lemma resolve_connections_mem (st : BuildState) (conns : List DomainConnection) :
    ∀ bc ∈ (resolve_connections st conns).1,
      ∃ conn ∈ conns, ∃ f t : Int,
        lookupLast st.name_to_id_map conn.from_name = some f ∧
        lookupLast st.name_to_id_map conn.to_name = some t ∧
        bc = { id := s!"conn-{f}-{t}", fromId := f, toId := t,
               type := conn.type } := by
  suffices h : ∀ (l : List DomainConnection) acc,
      ∀ bc ∈ (l.foldl (resolve_connection_step st) acc).1,
        bc ∈ acc.1 ∨ ∃ conn ∈ l, ∃ f t : Int,
          lookupLast st.name_to_id_map conn.from_name = some f ∧
          lookupLast st.name_to_id_map conn.to_name = some t ∧
          bc = { id := s!"conn-{f}-{t}", fromId := f, toId := t,
                 type := conn.type } by
    intro bc hbc
    rcases h conns ([], []) bc hbc with h0 | h0
    · exact absurd h0 (by simp)
    · exact h0
  intro l
  induction l with
  | nil => exact fun acc bc hbc => Or.inl hbc
  | cons c rest ih =>
      intro acc bc hbc
      rw [List.foldl_cons] at hbc
      rcases ih (resolve_connection_step st acc c) bc hbc with h0 | h0
      · rcases resolve_connection_step_cases st acc c with hc | ⟨f, t, hf, ht, hc⟩
        · rw [hc] at h0
          exact Or.inl h0
        · rw [hc] at h0
          rcases List.mem_append.mp h0 with h1 | h1
          · exact Or.inl h1
          · have h2 : bc = { id := s!"conn-{f}-{t}", fromId := f, toId := t, type := c.type } := by
              simpa using h1
            exact Or.inr ⟨c, List.mem_cons_self c rest, f, t, hf, ht, h2⟩
      · obtain ⟨conn, hm, hrest⟩ := h0
        exact Or.inr ⟨conn, List.mem_cons_of_mem _ hm, hrest⟩

/-- C10.  The resolver's `name → id` table is keyed by bare item name across
the whole board, ignoring context and item type: a lookup returns exactly
the id of the *last* non-ContextBox item bearing that name in placement
order (contexts in model order, left/center/right within a context — the
order of `merge_items`), and every emitted connection's endpoints are the
values this table assigns to the spec's names. -/
theorem name_table_last_wins (concepts : EventstormingConcepts)
    (prior : Option (List PriorItem)) (name : String) :
    lookupLast (merge_state concepts prior).name_to_id_map name =
      (((merge_state concepts prior).items.filter (fun it =>
        it.type != "ContextBox" && it.instanceName == name)).getLast?).map (·.id) ∧
    ∀ bc ∈ (resolve_connections (merge_state concepts prior) concepts.connections).1,
      ∃ conn ∈ concepts.connections,
        lookupLast (merge_state concepts prior).name_to_id_map conn.from_name =
            some bc.fromId ∧
        lookupLast (merge_state concepts prior).name_to_id_map conn.to_name =
            some bc.toId ∧
        bc.type = conn.type := by
  have hinv := merge_state_inv concepts prior
  constructor
  · rw [hinv.1, lookupLast_name_table]
  · intro bc hbc
    obtain ⟨conn, hm, f, t, hf, ht, hbc2⟩ :=
      resolve_connections_mem (merge_state concepts prior) concepts.connections bc hbc
    subst hbc2
    exact ⟨conn, hm, hf, ht, rfl⟩

/-- Concrete fixture: two contexts with duplicate item names `"X"` (a
command in the first context, an event in the second), and a cross-context
connection. -/
def wConcepts : EventstormingConcepts :=
  { project_name := "w",
    contexts := [
      { name := "A", description := "",
        events := [{ name := "E", description := "" }],
        commands := [{ name := "X", description := "" }],
        policies := [], aggregates := [], readModels := [] },
      { name := "B", description := "",
        events := [{ name := "X", description := "" }],
        commands := [],
        policies := [{ name := "P", description := "" }],
        aggregates := [], readModels := [] }],
    connections := [{ from_name := "E", to_name := "P", type := "Flow" }] }

/-- Witness for C10: in `wConcepts` the name `"X"` is borne by a command
(id 2) in context A and later by an event (id 6) in context B; the table
retains the event's id 6, and the emitted `E → P` connection's endpoints
are the table's values. -/
theorem name_table_last_wins_witness :
    lookupLast (merge_state wConcepts none).name_to_id_map "X" = some 6 ∧
    (resolve_connections (merge_state wConcepts none) wConcepts.connections).1.map
      (fun bc => (bc.fromId, bc.toId)) = [(3, 5)] := by
  constructor
  · rw [(name_table_last_wins wConcepts none "X").1]
    decide
  · decide

/-- C6 (amended).  Freshly assigned ids never collide: whenever one of two
placed items has no `(type, name)` match in the prior snapshot, their ids
differ; and a fresh item's id differs from the id of every *registered*
prior item (one with non-empty type and name — exactly the items the
counter seeding scans).  The restriction to registered prior items is what
the counterexample forces: unregistered prior ids are not protected. -/
theorem fresh_id_amended (concepts : EventstormingConcepts)
    (prior : Option (List PriorItem)) :
    (∀ (i j : Nat) (a b : BoardItem), i < j →
        (merge_items concepts prior)[i]? = some a →
        (merge_items concepts prior)[j]? = some b →
        (no_prior_match (prior.getD []) a ∨ no_prior_match (prior.getD []) b) →
        a.id ≠ b.id) ∧
    (∀ a ∈ merge_items concepts prior, no_prior_match (prior.getD []) a →
        ∀ p ∈ prior.getD [], registeredB p = true → a.id ≠ p.id) := by
  obtain ⟨h1, h2, h3, h4, h5, h6, h7⟩ := merge_state_inv concepts prior
  constructor
  · intro i j a b hij ha hb hor
    simp only [merge_items] at ha hb
    obtain ⟨hi, hae⟩ := List.getElem?_eq_some.mp ha
    obtain ⟨hj, hbe⟩ := List.getElem?_eq_some.mp hb
    have hpw := List.pairwise_iff_getElem.mp h6 i j hi hj hij
    rw [hae, hbe] at hpw
    exact hpw hor
  · exact h5

/-- C1 (amended).  For every placed item whose merge key is present in the
prior snapshot, the prior id is reused; a ContextBox — like a left-column
Command or Policy — reuses the prior x/y verbatim (ContextBoxes are *not*
subject to collapse detection, which is what the counterexample forces);
and a center-column Aggregate or right-column Event/ReadModel reuses the
prior x/y exactly when the prior x is at least `ideal x − 50`, taking the
freshly computed ideal position otherwise. -/
theorem merge_position_reuse_amended (concepts : EventstormingConcepts)
    (prior : Option (List PriorItem)) (j : Nat) (it : BoardItem) (ix iy : Int)
    (ex : PriorItem)
    (hit : (merge_items concepts prior)[j]? = some it)
    (hid : ((merge_state concepts prior).ideals)[j]? = some (ix, iy))
    (hl : lookup_existing (prior.getD []) it.type it.instanceName = some ex) :
    it.id = ex.id ∧
    ((it.type = "ContextBox" ∨ it.type = "Command" ∨ it.type = "Policy") →
        it.x = ex.x ∧ it.y = ex.y) ∧
    ((it.type = "Aggregate" ∨ it.type = "Event" ∨ it.type = "ReadModel") →
        (ex.x < ix - 50 → it.x = ix ∧ it.y = iy) ∧
        (ix - 50 ≤ ex.x → it.x = ex.x ∧ it.y = ex.y)) := by
  have h7 := (merge_state_inv concepts prior).2.2.2.2.2.2
  rw [List.forall₂_iff_get] at h7
  obtain ⟨hlen, hget⟩ := h7
  obtain ⟨hj, hje⟩ := List.getElem?_eq_some.mp hit
  obtain ⟨hj2, hje2⟩ := List.getElem?_eq_some.mp hid
  have hR := hget j hj hj2
  rw [List.get_eq_getElem, List.get_eq_getElem] at hR
  unfold merge_items at hje
  rw [hje, hje2] at hR
  unfold mergeSpec at hR
  rw [hl] at hR
  refine ⟨hR.1, hR.2.1, fun hP => ?_⟩
  exact ⟨fun hlt => (hR.2.2 hP).1 hlt,
         fun hge => (hR.2.2 hP).2 (not_lt.mpr hge)⟩

instance (pr : List PriorItem) (it : BoardItem) : Decidable (no_prior_match pr it) := by
  unfold no_prior_match
  infer_instance

/-- Fixture for the C1/C6 witnesses: one context with one command `"C"`,
and a prior snapshot assigning that command id 9 at `(-500, 7)` — far left
of the ideal `(100, 100)`. -/
def w1Concepts : EventstormingConcepts :=
  { project_name := "w1",
    contexts := [{ name := "A", description := "",
                   events := [], commands := [{ name := "C", description := "" }],
                   policies := [], aggregates := [], readModels := [] }],
    connections := [] }

def w1Ex : PriorItem :=
  { id := 9, type := "Command", instanceName := "C", x := -500, y := 7 }

def w1Prior : List PriorItem := [w1Ex]

/-- The merged command item of the fixture: prior id 9 and prior position
reused verbatim (left column). -/
def w1Item : BoardItem :=
  { id := 9, type := "Command", instanceName := "C", description := "",
    parent := some 10, x := -500, y := 7, width := 230, height := 110 }

/-- The fixture's freshly assigned ContextBox. -/
def w1Box : BoardItem :=
  { id := 10, type := "ContextBox", instanceName := "A", description := "",
    x := 50, y := 50, width := 280, height := 210 }

/-- Witness for C6: the fixture's ContextBox (no prior match) gets the fresh
id 10, distinct from the registered prior id 9. -/
theorem fresh_id_amended_witness : w1Box.id ≠ w1Ex.id :=
  (fresh_id_amended w1Concepts (some w1Prior)).2 w1Box
    (by decide) (by decide) w1Ex (by decide) (by decide)

/-- Witness for C1: applying the amended merge rule to the fixture's command
(position 1, ideal `(100, 100)`, prior `(-500, 7)`): the id is reused and,
being a left-column item, the prior position is reused verbatim. -/
theorem merge_position_reuse_amended_witness :
    w1Item.id = w1Ex.id ∧
    ((w1Item.type = "ContextBox" ∨ w1Item.type = "Command" ∨ w1Item.type = "Policy") →
        w1Item.x = w1Ex.x ∧ w1Item.y = w1Ex.y) ∧
    ((w1Item.type = "Aggregate" ∨ w1Item.type = "Event" ∨ w1Item.type = "ReadModel") →
        (w1Ex.x < 100 - 50 → w1Item.x = 100 ∧ w1Item.y = 100) ∧
        ((100 : Int) - 50 ≤ w1Ex.x → w1Item.x = w1Ex.x ∧ w1Item.y = w1Ex.y)) :=
  merge_position_reuse_amended w1Concepts (some w1Prior) 1 w1Item 100 100 w1Ex
    (by decide) (by decide) (by decide)

/-!
## Connection Resolver: positivity and the spec-level description
-/

/-- Positivity facts available when every prior id is positive: all placed
ids are positive, all context-table values are positive, and every placed
id has a context-table entry. -/
def PosState (st : BuildState) : Prop :=
  (∀ it ∈ st.items, 1 ≤ it.id) ∧
  (∀ q ∈ st.item_context_map, 1 ≤ q.2) ∧
  (∀ it ∈ st.items, (lookupLast st.item_context_map it.id).isSome = true)

lemma pos_append_step (st : BuildState) (it : BoardItem) (ideal : Int × Int)
    (nmap : List (String × Int)) (cid : Int) (cnt : Int)
    (hid : 1 ≤ it.id) (hcid : 1 ≤ cid) (h : PosState st) :
    PosState
      { st with
          items := st.items ++ [it],
          ideals := st.ideals ++ [ideal],
          name_to_id_map := nmap,
          item_context_map := st.item_context_map ++ [(it.id, cid)],
          item_id_counter := cnt } := by
  obtain ⟨h1, h2, h3⟩ := h
  refine ⟨?_, ?_, ?_⟩
  · intro x hx
    rcases List.mem_append.mp hx with hx | hx
    · exact h1 x hx
    · have hx2 : x = it := by simpa using hx
      rw [hx2]
      exact hid
  · intro q hq
    rcases List.mem_append.mp hq with hq | hq
    · exact h2 q hq
    · have hq2 : q = (it.id, cid) := by simpa using hq
      rw [hq2]
      exact hcid
  · intro x hx
    rw [lookupLast_append]
    split
    · rfl
    · rcases List.mem_append.mp hx with hx | hx
      · exact h3 x hx
      · have hx2 : x = it := by simpa using hx
        rename_i hne
        rw [hx2] at hne
        exact absurd (by simp : (it.id == it.id) = true) hne

lemma place_one_item_pos (pr : List PriorItem) (cn : String)
    (cid fcx fcy xpos : Int) (e : ColumnEntry)
    (hp : ∀ p ∈ pr, 1 ≤ p.id) (hcid : 1 ≤ cid)
    (acc : BuildState × Int) (h : 1 ≤ acc.1.item_id_counter ∧ PosState acc.1) :
    PosState (place_one_item pr cn cid fcx fcy xpos acc e).1 := by
  obtain ⟨it, heq, htype, hname, hparent, hw, hh, hmerge⟩ :=
    place_one_item_spec pr cn cid fcx fcy xpos acc.1 acc.2 e
  have heq2 : place_one_item pr cn cid fcx fcy xpos acc e = _ := heq
  rw [heq2]
  apply pos_append_step _ _ _ _ _ _ ?_ hcid h.2
  rcases hL : lookup_existing pr e.type e.data.name with _ | ex <;> rw [hL] at hmerge
  · rw [hmerge.1]
    exact h.1
  · rw [hmerge.1]
    exact hp ex (lookup_existing_spec pr _ _ ex hL).1

/-- Counter positivity travels with `place_one_item` (it only grows). -/
lemma place_one_item_counter (pr : List PriorItem) (cn : String)
    (cid fcx fcy xpos : Int) (e : ColumnEntry) (acc : BuildState × Int)
    (h : 1 ≤ acc.1.item_id_counter) :
    1 ≤ (place_one_item pr cn cid fcx fcy xpos acc e).1.item_id_counter := by
  obtain ⟨it, heq, _⟩ := place_one_item_spec pr cn cid fcx fcy xpos acc.1 acc.2 e
  have heq2 : place_one_item pr cn cid fcx fcy xpos acc e = _ := heq
  rw [heq2]
  exact le_trans h (le_max_left _ _)

lemma place_column_items_pos (pr : List PriorItem) (cn : String)
    (cid fcx fcy ih xpos : Int) (col : List ColumnEntry) (st : BuildState)
    (hp : ∀ p ∈ pr, 1 ≤ p.id) (hcid : 1 ≤ cid)
    (h : 1 ≤ st.item_id_counter ∧ PosState st) :
    1 ≤ (place_column_items pr cn cid fcx fcy ih xpos col st).item_id_counter ∧
    PosState (place_column_items pr cn cid fcx fcy ih xpos col st) := by
  unfold place_column_items
  split
  · exact h
  · exact foldl_preserve_mem _
      (fun acc : BuildState × Int => 1 ≤ acc.1.item_id_counter ∧ PosState acc.1)
      col _
      (fun acc' e _ hP =>
        ⟨place_one_item_counter pr cn cid fcx fcy xpos e acc' hP.1,
         place_one_item_pos pr cn cid fcx fcy xpos e hp hcid acc' hP⟩)
      h

lemma process_context_pos (pr : List PriorItem) (st : BuildState)
    (ctx : BoundedContext) (hp : ∀ p ∈ pr, 1 ≤ p.id)
    (h : 1 ≤ st.item_id_counter ∧ PosState st) :
    1 ≤ (process_context pr st ctx).item_id_counter ∧
    PosState (process_context pr st ctx) := by
  unfold process_context
  rcases hL : lookup_existing pr "ContextBox" ctx.name with _ | ex <;>
    simp only [hL]
  · have hbox : (1 : Int) ≤ st.item_id_counter := h.1
    apply place_column_items_pos _ _ _ _ _ _ _ _ _ hp hbox
    apply place_column_items_pos _ _ _ _ _ _ _ _ _ hp hbox
    apply place_column_items_pos _ _ _ _ _ _ _ _ _ hp hbox
    refine ⟨le_trans h.1 (le_max_left _ _), ?_⟩
    exact pos_append_step st _ _ _ _ _ hbox hbox h.2
  · have hbox : (1 : Int) ≤ ex.id := hp ex (lookup_existing_spec pr _ _ ex hL).1
    apply place_column_items_pos _ _ _ _ _ _ _ _ _ hp hbox
    apply place_column_items_pos _ _ _ _ _ _ _ _ _ hp hbox
    apply place_column_items_pos _ _ _ _ _ _ _ _ _ hp hbox
    refine ⟨le_trans h.1 (le_max_left _ _), ?_⟩
    exact pos_append_step st _ _ _ _ _ hbox hbox h.2

lemma merge_state_pos (concepts : EventstormingConcepts)
    (prior : Option (List PriorItem))
    (hp : ∀ p ∈ prior.getD [], 1 ≤ p.id) :
    PosState (merge_state concepts prior) := by
  unfold merge_state
  refine (foldl_preserve_mem _
    (fun st => 1 ≤ st.item_id_counter ∧ PosState st) _ _
    (fun st ctx _ h => process_context_pos _ st ctx hp h) ?_).2
  exact ⟨(seed_id_counter_spec (prior.getD [])).1,
    by simp [PosState, initial_state], by simp [PosState, initial_state],
    by simp [PosState, initial_state]⟩

/-- Every name-table value is a positive placed id with a positive
context-table entry. -/
lemma name_table_values_pos (pr : List PriorItem) (st : BuildState)
    (hinv : StateInv pr st) (hpos : PosState st) :
    ∀ q ∈ st.name_to_id_map, 1 ≤ q.2 ∧
      ∃ c, lookupLast st.item_context_map q.2 = some c ∧ 1 ≤ c := by
  intro q hq
  rw [hinv.1] at hq
  obtain ⟨it, hitf, hq2⟩ := List.mem_map.mp hq
  have hit : it ∈ st.items := (List.mem_filter.mp hitf).1
  have h2 : q.2 = it.id := by rw [← hq2]
  rw [h2]
  refine ⟨hpos.1 it hit, ?_⟩
  have hsome := hpos.2.2 it hit
  rcases hc : lookupLast st.item_context_map it.id with _ | c
  · rw [hc] at hsome
    exact absurd hsome (by simp)
  · obtain ⟨a, hmem, _⟩ := lookupLast_mem _ _ _ hc
    exact ⟨c, rfl, hpos.2.1 (a, c) hmem⟩

/-- The per-connection outcome, written from the claim's words: drop with a
warning when either endpoint name has no entry in the name table; drop
silently when both resolve but the containing-context ids coincide;
otherwise emit exactly one connection `conn-{f}-{t}`. -/
def spec_connection (st : BuildState) (conn : DomainConnection) :
    Option BoardConnection :=
  match lookupLast st.name_to_id_map conn.from_name,
        lookupLast st.name_to_id_map conn.to_name with
  | some f, some t =>
      if lookupLast st.item_context_map f = lookupLast st.item_context_map t then none
      else some { id := s!"conn-{f}-{t}", fromId := f, toId := t, type := conn.type }
  | _, _ => none

/-- The per-connection warning, from the claim's words: reported exactly
when an endpoint name is unresolved. -/
def spec_warning (st : BuildState) (conn : DomainConnection) :
    Option (String × String) :=
  match lookupLast st.name_to_id_map conn.from_name,
        lookupLast st.name_to_id_map conn.to_name with
  | some _, some _ => none
  | _, _ => some (conn.from_name, conn.to_name)

/-- The Connection Resolver as the claim describes it. -/
def connection_resolver_spec (st : BuildState) (conns : List DomainConnection) :
    List BoardConnection × List (String × String) :=
  (conns.filterMap (spec_connection st), conns.filterMap (spec_warning st))

lemma resolve_connection_step_eq_spec (st : BuildState)
    (hA : ∀ q ∈ st.name_to_id_map, 1 ≤ q.2 ∧
      ∃ c, lookupLast st.item_context_map q.2 = some c ∧ 1 ≤ c)
    (acc : List BoardConnection × List (String × String)) (conn : DomainConnection) :
    resolve_connection_step st acc conn =
      (acc.1 ++ (spec_connection st conn).toList,
       acc.2 ++ (spec_warning st conn).toList) := by
  unfold resolve_connection_step spec_connection spec_warning
  rcases hf : lookupLast st.name_to_id_map conn.from_name with _ | f <;>
    rcases ht : lookupLast st.name_to_id_map conn.to_name with _ | t <;>
    simp only [hf, ht, Option.toList]
  · simp
  · simp
  · simp
  · obtain ⟨a1, hm1, _⟩ := lookupLast_mem _ _ _ hf
    obtain ⟨a2, hm2, _⟩ := lookupLast_mem _ _ _ ht
    obtain ⟨hf1, fc, hfc, hfc1⟩ := hA (a1, f) hm1
    obtain ⟨ht1, tc, htc, htc1⟩ := hA (a2, t) hm2
    have hf0 : f ≠ 0 := by omega
    have ht0 : t ≠ 0 := by omega
    have hfc0 : fc ≠ 0 := by omega
    have htc0 : tc ≠ 0 := by omega
    rw [if_pos ⟨hf0, ht0⟩]
    simp only [hfc, htc]
    by_cases hct : fc = tc
    · subst hct
      simp [hfc0]
    · simp [hct, hfc0, htc0]

lemma resolve_connections_eq_spec (st : BuildState) (conns : List DomainConnection)
    (hA : ∀ q ∈ st.name_to_id_map, 1 ≤ q.2 ∧
      ∃ c, lookupLast st.item_context_map q.2 = some c ∧ 1 ≤ c) :
    resolve_connections st conns = connection_resolver_spec st conns := by
  unfold resolve_connections connection_resolver_spec
  suffices h : ∀ (l : List DomainConnection) acc,
      l.foldl (resolve_connection_step st) acc =
        (acc.1 ++ l.filterMap (spec_connection st),
         acc.2 ++ l.filterMap (spec_warning st)) by
    rw [h conns ([], [])]
    simp
  intro l
  induction l with
  | nil => intro acc; simp
  | cons c rest ih =>
      intro acc
      rw [List.foldl_cons, ih, resolve_connection_step_eq_spec st hA acc c]
      rcases hsc : spec_connection st c with _ | bc <;>
        rcases hsw : spec_warning st c with _ | w <;>
        simp [hsc, hsw, List.filterMap_cons, Option.toList, List.append_assoc]

/-- C2 (amended).  In runs whose prior snapshot carries only positive ids —
which includes every fresh run and every snapshot the engine itself
produced — the Connection Resolver behaves exactly as the claim states: a
spec with an unresolved endpoint name is dropped with a warning, a spec
whose endpoints share a containing context is dropped silently, and
otherwise exactly one connection `conn-{fromId}-{toId}` is emitted with the
spec's type; consequently no emitted connection joins two items of the same
context.  (The positivity restriction is what the counterexample forces: a
prior id 0 defeats the truthiness tests.) -/
theorem connection_resolver_amended (concepts : EventstormingConcepts)
    (prior : Option (List PriorItem))
    (hp : ∀ p ∈ prior.getD [], 1 ≤ p.id) :
    resolve_connections (merge_state concepts prior) concepts.connections =
      connection_resolver_spec (merge_state concepts prior) concepts.connections ∧
    ∀ bc ∈ (resolve_connections (merge_state concepts prior) concepts.connections).1,
      lookupLast (merge_state concepts prior).item_context_map bc.fromId ≠
        lookupLast (merge_state concepts prior).item_context_map bc.toId := by
  have hA := name_table_values_pos _ _ (merge_state_inv concepts prior)
    (merge_state_pos concepts prior hp)
  have heq := resolve_connections_eq_spec (merge_state concepts prior)
    concepts.connections hA
  refine ⟨heq, ?_⟩
  intro bc hbc
  rw [heq] at hbc
  obtain ⟨conn, hm, hsc⟩ := List.mem_filterMap.mp hbc
  unfold spec_connection at hsc
  rcases hf : lookupLast (merge_state concepts prior).name_to_id_map conn.from_name
      with _ | f <;>
    rcases ht : lookupLast (merge_state concepts prior).name_to_id_map conn.to_name
      with _ | t <;>
    simp only [hf, ht] at hsc
  · exact absurd hsc (by simp)
  · exact absurd hsc (by simp)
  · exact absurd hsc (by simp)
  · split_ifs at hsc with hct
    injection hsc with h
    have hfrom : bc.fromId = f := by rw [← h]
    have hto : bc.toId = t := by rw [← h]
    rw [hfrom, hto]
    exact hct

def wPrior2 : List PriorItem :=
  [{ id := 7, type := "Event", instanceName := "E", x := 690, y := 125 }]

/-- Witness for C2 at a concrete run with a positive-id prior snapshot. -/
theorem connection_resolver_amended_witness :
    resolve_connections (merge_state wConcepts (some wPrior2)) wConcepts.connections =
      connection_resolver_spec (merge_state wConcepts (some wPrior2))
        wConcepts.connections :=
  (connection_resolver_amended wConcepts (some wPrior2) (by decide)).1

/-!
## Column Packer: context-box dimensions (C7)
-/

lemma compute_item_dimensions_bounds (t : String) (d : ItemData) :
    140 ≤ (compute_item_dimensions t d).1 ∧ (compute_item_dimensions t d).1 ≤ 460 ∧
    80 ≤ (compute_item_dimensions t d).2 ∧ (compute_item_dimensions t d).2 ≤ 260 := by
  have hf := structured_field_count_nonneg d
  have hb1 := base_width_range t
  have hb2 := base_height_range t
  simp only [compute_item_dimensions, MIN_ITEM_WIDTH, MAX_ITEM_WIDTH,
    MIN_ITEM_HEIGHT, MAX_ITEM_HEIGHT]
  generalize structured_field_count d = f at hf
  split_ifs <;> omega

lemma column_entry_width_ge (ctx : BoundedContext) :
    (∀ e ∈ left_column_of ctx, 140 ≤ e.dims.1) ∧
    (∀ e ∈ center_column_of ctx, 140 ≤ e.dims.1) ∧
    (∀ e ∈ right_column_of ctx, 140 ≤ e.dims.1) := by
  refine ⟨?_, ?_, ?_⟩ <;> intro e he
  · rcases List.mem_append.mp he with h | h <;>
      obtain ⟨a, _, rfl⟩ := List.mem_map.mp h <;>
      exact (compute_item_dimensions_bounds _ _).1
  · obtain ⟨a, _, rfl⟩ := List.mem_map.mp he
    exact (compute_item_dimensions_bounds _ _).1
  · rcases List.mem_append.mp he with h | h <;>
      obtain ⟨a, _, rfl⟩ := List.mem_map.mp h <;>
      exact (compute_item_dimensions_bounds _ _).1

lemma foldl_max_width_ge (l : List ColumnEntry) :
    ∀ a : Int, 140 ≤ a → 140 ≤ l.foldl (fun w x => max w x.dims.1) a := by
  induction l with
  | nil => exact fun a ha => ha
  | cons x rest ih =>
      intro a ha
      simp only [List.foldl_cons]
      exact ih _ (le_trans ha (le_max_left _ _))

lemma column_stats_width_pos (col : List ColumnEntry)
    (h : ∀ e ∈ col, 140 ≤ e.dims.1) (hne : col ≠ []) :
    140 ≤ (column_stats col).1 := by
  match col, hne with
  | e :: rest, _ =>
    simp only [column_stats]
    exact foldl_max_width_ge rest e.dims.1 (h e (List.mem_cons_self _ _))

lemma column_stats_empty : column_stats [] = (0, 0) := rfl

/-- Included-column characterization: exactly the non-empty columns appear,
in left/center/right order, with the placeholder only when all three are
empty. -/
lemma column_order_keys (ctx : BoundedContext) :
    (column_order_ctx ctx).map (fun p => p.1) =
      if left_column_of ctx = [] ∧ center_column_of ctx = [] ∧
          right_column_of ctx = [] then ["placeholder"]
      else (if left_column_of ctx = [] then [] else ["left"]) ++
           (if center_column_of ctx = [] then [] else ["center"]) ++
           (if right_column_of ctx = [] then [] else ["right"]) := by
  obtain ⟨hwl, hwc, hwr⟩ := column_entry_width_ge ctx
  unfold column_order_ctx column_order_of
  by_cases hl : left_column_of ctx = [] <;>
    by_cases hc : center_column_of ctx = [] <;>
    by_cases hr : right_column_of ctx = []
  · simp [hl, hc, hr, column_stats_empty]
  · have nr : (column_stats (right_column_of ctx)).1 ≠ 0 := by
      have := column_stats_width_pos _ hwr hr
      omega
    simp [hl, hc, hr, nr, column_stats_empty]
  · have nc : (column_stats (center_column_of ctx)).1 ≠ 0 := by
      have := column_stats_width_pos _ hwc hc
      omega
    simp [hl, hc, hr, nc, column_stats_empty]
  · have nc : (column_stats (center_column_of ctx)).1 ≠ 0 := by
      have := column_stats_width_pos _ hwc hc
      omega
    have nr : (column_stats (right_column_of ctx)).1 ≠ 0 := by
      have := column_stats_width_pos _ hwr hr
      omega
    simp [hl, hc, hr, nc, nr, column_stats_empty]
  · have nl : (column_stats (left_column_of ctx)).1 ≠ 0 := by
      have := column_stats_width_pos _ hwl hl
      omega
    simp [hl, hc, hr, nl, column_stats_empty]
  · have nl : (column_stats (left_column_of ctx)).1 ≠ 0 := by
      have := column_stats_width_pos _ hwl hl
      omega
    have nr : (column_stats (right_column_of ctx)).1 ≠ 0 := by
      have := column_stats_width_pos _ hwr hr
      omega
    simp [hl, hc, hr, nl, nr, column_stats_empty]
  · have nl : (column_stats (left_column_of ctx)).1 ≠ 0 := by
      have := column_stats_width_pos _ hwl hl
      omega
    have nc : (column_stats (center_column_of ctx)).1 ≠ 0 := by
      have := column_stats_width_pos _ hwc hc
      omega
    simp [hl, hc, hr, nl, nc, column_stats_empty]
  · have nl : (column_stats (left_column_of ctx)).1 ≠ 0 := by
      have := column_stats_width_pos _ hwl hl
      omega
    have nc : (column_stats (center_column_of ctx)).1 ≠ 0 := by
      have := column_stats_width_pos _ hwc hc
      omega
    have nr : (column_stats (right_column_of ctx)).1 ≠ 0 := by
      have := column_stats_width_pos _ hwr hr
      omega
    simp [hl, hc, hr, nl, nc, nr, column_stats_empty]

/-- Closed form of the running-offset fold: final offset = start + sum of
column widths + one `ITEM_H_GAP` between consecutive columns. -/
lemma column_positions_final (l : List (String × Int × Int)) :
    ∀ off : Int, l ≠ [] →
      (column_positions off l).2 =
        off + (l.map (fun p => p.2.1)).sum + ITEM_H_GAP * ((l.length : Int) - 1) := by
  induction l with
  | nil => intro off h; exact absurd rfl h
  | cons x rest ih =>
      intro off _
      match rest with
      | [] =>
          obtain ⟨k, s⟩ := x
          simp [column_positions]
      | y :: rest2 =>
          obtain ⟨k, s⟩ := x
          have h2 := ih (off + s.1 + ITEM_H_GAP) (by simp)
          simp only [column_positions, h2, List.map_cons, List.sum_cons,
            List.length_cons]
          push_cast
          ring

lemma if_isEmpty_ne_nil {α : Type} (A : List α) (ph : α) :
    (if A.isEmpty = true then [ph] else A) ≠ [] := by
  by_cases hA : A.isEmpty = true
  · simp [hA]
  · rw [if_neg hA]
    intro h
    rw [h] at hA
    exact hA rfl

lemma column_order_ne_nil (ctx : BoundedContext) : column_order_ctx ctx ≠ [] := by
  unfold column_order_ctx column_order_of
  exact if_isEmpty_ne_nil _ _

/-- `inner_width` equals the sum of the included column widths plus the
inter-column gaps. -/
lemma inner_width_closed (ctx : BoundedContext) :
    inner_width_of ctx =
      ((column_order_ctx ctx).map (fun p => p.2.1)).sum +
        ITEM_H_GAP * (((column_order_ctx ctx).length : Int) - 1) := by
  unfold inner_width_of
  rw [column_positions_final (column_order_ctx ctx) PADDING (column_order_ne_nil ctx)]
  ring

lemma place_one_item_box_filter (pr : List PriorItem) (cn : String)
    (cid fcx fcy xpos : Int) (e : ColumnEntry)
    (he : (e.type == "ContextBox") = false) (acc : BuildState × Int) :
    (place_one_item pr cn cid fcx fcy xpos acc e).1.items.filter
      (fun it => it.type == "ContextBox") =
    acc.1.items.filter (fun it => it.type == "ContextBox") := by
  obtain ⟨it, heq, htype, _⟩ := place_one_item_spec pr cn cid fcx fcy xpos acc.1 acc.2 e
  have heq2 : place_one_item pr cn cid fcx fcy xpos acc e = _ := heq
  rw [heq2]
  have he2 : (it.type == "ContextBox") = false := by
    rw [htype]
    exact he
  simp [List.filter_append, List.filter_cons, he2]

lemma column_entry_not_box (ctx : BoundedContext) :
    (∀ e ∈ left_column_of ctx, (e.type == "ContextBox") = false) ∧
    (∀ e ∈ center_column_of ctx, (e.type == "ContextBox") = false) ∧
    (∀ e ∈ right_column_of ctx, (e.type == "ContextBox") = false) := by
  refine ⟨fun e he => ?_, fun e he => ?_, fun e he => ?_⟩
  · rcases mem_left_column ctx e he with h | h <;> rw [h] <;> rfl
  · rw [mem_center_column ctx e he]
    rfl
  · rcases mem_right_column ctx e he with h | h <;> rw [h] <;> rfl

lemma place_column_items_box_filter (pr : List PriorItem) (cn : String)
    (cid fcx fcy ih xpos : Int) (col : List ColumnEntry) (st : BuildState)
    (hcol : ∀ e ∈ col, (e.type == "ContextBox") = false) :
    (place_column_items pr cn cid fcx fcy ih xpos col st).items.filter
      (fun it => it.type == "ContextBox") =
    st.items.filter (fun it => it.type == "ContextBox") := by
  unfold place_column_items
  split
  · rfl
  · exact foldl_preserve_mem _
      (fun acc : BuildState × Int =>
        acc.1.items.filter (fun it => it.type == "ContextBox") =
          st.items.filter (fun it => it.type == "ContextBox"))
      col _
      (fun acc' e he hP => by
        show (place_one_item pr cn cid fcx fcy xpos acc' e).1.items.filter
            (fun it => it.type == "ContextBox") =
          st.items.filter (fun it => it.type == "ContextBox")
        rw [place_one_item_box_filter pr cn cid fcx fcy xpos e (hcol e he) acc']
        exact hP)
      rfl

lemma process_context_box_dims (pr : List PriorItem) (st : BuildState)
    (ctx : BoundedContext) :
    ((process_context pr st ctx).items.filter
      (fun it => it.type == "ContextBox")).map (fun b => (b.width, b.height)) =
    ((st.items.filter (fun it => it.type == "ContextBox")).map
      (fun b => (b.width, b.height))) ++
      [(context_width_of ctx, context_height_of ctx)] := by
  obtain ⟨hnl, hnc, hnr⟩ := column_entry_not_box ctx
  unfold process_context
  rcases hL : lookup_existing pr "ContextBox" ctx.name with _ | ex <;>
    simp only [hL] <;>
    rw [place_column_items_box_filter _ _ _ _ _ _ _ _ _ hnr,
      place_column_items_box_filter _ _ _ _ _ _ _ _ _ hnc,
      place_column_items_box_filter _ _ _ _ _ _ _ _ _ hnl] <;>
    simp [List.filter_append]

lemma merge_boxes_dims (concepts : EventstormingConcepts)
    (prior : Option (List PriorItem)) :
    (((merge_state concepts prior).items.filter
      (fun it => it.type == "ContextBox")).map (fun b => (b.width, b.height))) =
    concepts.contexts.map
      (fun ctx => (context_width_of ctx, context_height_of ctx)) := by
  unfold merge_state
  suffices h : ∀ (l : List BoundedContext) (st : BuildState),
      (((l.foldl (process_context (prior.getD [])) st).items.filter
        (fun it => it.type == "ContextBox")).map (fun b => (b.width, b.height))) =
      ((st.items.filter (fun it => it.type == "ContextBox")).map
        (fun b => (b.width, b.height))) ++
        l.map (fun ctx => (context_width_of ctx, context_height_of ctx)) by
    rw [h concepts.contexts (initial_state prior)]
    simp [initial_state]
  intro l
  induction l with
  | nil => intro st; simp
  | cons c rest ih =>
      intro st
      rw [List.foldl_cons, ih (process_context (prior.getD []) st c),
        process_context_box_dims]
      simp

/-- C7 (amended).  For every context, the `k`-th ContextBox of the merged
board: its width is the sum of the included column widths plus the
inter-column gaps plus a *single* padding (the padding is applied on the
left only — the counterexample rules out padding on both sides); its height
is the max of the three column heights, floored at `MIN_ITEM_HEIGHT`, plus
padding on both top and bottom; empty columns are omitted entirely from the
horizontal sequence (with a placeholder only when all three are empty); and
a context with no aggregates but non-empty left and right columns has
exactly two columns. -/
theorem context_box_size_amended (concepts : EventstormingConcepts)
    (prior : Option (List PriorItem)) (k : Nat) (ctx : BoundedContext)
    (b : BoardItem)
    (hctx : concepts.contexts[k]? = some ctx)
    (hb : ((merge_items concepts prior).filter
      (fun it => it.type == "ContextBox"))[k]? = some b) :
    b.width = ((column_order_ctx ctx).map (fun p => p.2.1)).sum +
      ITEM_H_GAP * (((column_order_ctx ctx).length : Int) - 1) + PADDING ∧
    b.height = max (max (max (column_stats (left_column_of ctx)).2
      (column_stats (center_column_of ctx)).2)
      (column_stats (right_column_of ctx)).2) MIN_ITEM_HEIGHT + 2 * PADDING ∧
    (column_order_ctx ctx).map (fun p => p.1) =
      (if left_column_of ctx = [] ∧ center_column_of ctx = [] ∧
          right_column_of ctx = [] then ["placeholder"]
       else (if left_column_of ctx = [] then [] else ["left"]) ++
            (if center_column_of ctx = [] then [] else ["center"]) ++
            (if right_column_of ctx = [] then [] else ["right"])) ∧
    (ctx.aggregates = [] → left_column_of ctx ≠ [] → right_column_of ctx ≠ [] →
      (column_order_ctx ctx).length = 2) := by
  have hd := merge_boxes_dims concepts prior
  have h1 : ((((merge_state concepts prior).items.filter
      (fun it => it.type == "ContextBox")).map (fun x => (x.width, x.height)))[k]?) =
      some (b.width, b.height) := by
    rw [List.getElem?_map]
    simp only [merge_items] at hb
    rw [hb]
    rfl
  rw [hd] at h1
  have h2 : ((concepts.contexts.map (fun ctx =>
      (context_width_of ctx, context_height_of ctx)))[k]?) =
      some (context_width_of ctx, context_height_of ctx) := by
    rw [List.getElem?_map, hctx]
    rfl
  rw [h2] at h1
  have hw : b.width = context_width_of ctx := by
    have := congrArg (fun o => Option.map Prod.fst o) h1
    simpa using this.symm
  have hh : b.height = context_height_of ctx := by
    have := congrArg (fun o => Option.map Prod.snd o) h1
    simpa using this.symm
  refine ⟨?_, ?_, column_order_keys ctx, ?_⟩
  · rw [hw]
    unfold context_width_of
    rw [inner_width_closed]
  · rw [hh]
    unfold context_height_of inner_height_of
    rfl
  · intro hagg hl hr
    have hcenter : center_column_of ctx = [] := by
      unfold center_column_of
      rw [hagg]
      rfl
    have hkeys := column_order_keys ctx
    rw [if_neg (by intro hand; exact hl hand.1)] at hkeys
    rw [if_neg hl, if_pos hcenter, if_neg hr] at hkeys
    have hlen : ((column_order_ctx ctx).map (fun p => p.1)).length = 2 := by
      rw [hkeys]
      rfl
    rw [List.length_map] at hlen
    exact hlen

def w7Ctx : BoundedContext :=
  { name := "A", description := "", events := [],
    commands := [{ name := "C", description := "" }], policies := [],
    aggregates := [], readModels := [] }

def w7Concepts : EventstormingConcepts :=
  { project_name := "p", contexts := [w7Ctx], connections := [] }

def w7Box : BoardItem :=
  { id := 1, type := "ContextBox", instanceName := "A", description := "",
    parent := none, x := 50, y := 50, width := 280, height := 210 }

theorem context_box_size_amended_witness :
    w7Concepts.contexts[0]? = some w7Ctx ∧
    ((merge_items w7Concepts none).filter
      (fun it => it.type == "ContextBox"))[0]? = some w7Box ∧
    (w7Box.width = ((column_order_ctx w7Ctx).map (fun p => p.2.1)).sum +
      ITEM_H_GAP * (((column_order_ctx w7Ctx).length : Int) - 1) + PADDING ∧
    w7Box.height = max (max (max (column_stats (left_column_of w7Ctx)).2
      (column_stats (center_column_of w7Ctx)).2)
      (column_stats (right_column_of w7Ctx)).2) MIN_ITEM_HEIGHT + 2 * PADDING ∧
    (column_order_ctx w7Ctx).map (fun p => p.1) =
      (if left_column_of w7Ctx = [] ∧ center_column_of w7Ctx = [] ∧
          right_column_of w7Ctx = [] then ["placeholder"]
       else (if left_column_of w7Ctx = [] then [] else ["left"]) ++
            (if center_column_of w7Ctx = [] then [] else ["center"]) ++
            (if right_column_of w7Ctx = [] then [] else ["right"])) ∧
    (w7Ctx.aggregates = [] → left_column_of w7Ctx ≠ [] →
      right_column_of w7Ctx ≠ [] → (column_order_ctx w7Ctx).length = 2)) :=
  ⟨by decide, by decide,
    context_box_size_amended w7Concepts none 0 w7Ctx w7Box (by decide) (by decide)⟩

/-!
## Containment repair: invariant lemmas

The repair pass mutates only the positional fields (`x`, `y`, `width`,
`height`) of items; `skel` collects the fields it reads but never writes.
-/

def skel (it : BoardItem) : Int × String × Option Int :=
  (it.id, it.type, it.parent)

lemma getD_set_self (l : List BoardItem) (i : Nat) (a : BoardItem)
    (h : i < l.length) : (l.set i a).getD i dummy_item = a := by
  simp [List.getD, List.getElem?_set_self, h]

lemma getD_set_ne (l : List BoardItem) (i j : Nat) (a : BoardItem)
    (h : i ≠ j) : (l.set i a).getD j dummy_item = l.getD j dummy_item := by
  simp [List.getD, List.getElem?_set_ne, h]

lemma grow_left_spec (i : Nat) (st : List BoardItem × Int) (ch_x : Int)
    (hi : i < st.1.length) (hx : (st.1.getD i dummy_item).x = st.2) :
    (grow_left i st ch_x).1.length = st.1.length ∧
    (∀ k, k ≠ i → (grow_left i st ch_x).1.getD k dummy_item =
      st.1.getD k dummy_item) ∧
    skel ((grow_left i st ch_x).1.getD i dummy_item) =
      skel (st.1.getD i dummy_item) ∧
    ((grow_left i st ch_x).1.getD i dummy_item).y =
      (st.1.getD i dummy_item).y ∧
    ((grow_left i st ch_x).1.getD i dummy_item).height =
      (st.1.getD i dummy_item).height ∧
    ((grow_left i st ch_x).1.getD i dummy_item).x = (grow_left i st ch_x).2 ∧
    (grow_left i st ch_x).2 ≤ st.2 ∧
    (grow_left i st ch_x).2 ≤ ch_x ∧
    (grow_left i st ch_x).2 + ((grow_left i st ch_x).1.getD i dummy_item).width =
      st.2 + (st.1.getD i dummy_item).width := by
  by_cases h : ch_x < st.2
  · simp only [grow_left, if_pos h]
    refine ⟨by simp, fun k hk => getD_set_ne _ _ _ _ (fun he => hk he.symm), ?_⟩
    rw [getD_set_self _ _ _ hi]
    refine ⟨rfl, rfl, rfl, rfl, ?_, ?_, ?_⟩
    · show (st.1.getD i dummy_item).x - (st.2 - ch_x) ≤ st.2
      omega
    · show (st.1.getD i dummy_item).x - (st.2 - ch_x) ≤ ch_x
      omega
    · show (st.1.getD i dummy_item).x - (st.2 - ch_x) +
        ((st.1.getD i dummy_item).width + (st.2 - ch_x)) =
        st.2 + (st.1.getD i dummy_item).width
      omega
  · have he : grow_left i st ch_x = st := by simp only [grow_left, if_neg h]
    rw [he]
    exact ⟨rfl, fun k _ => rfl, rfl, rfl, rfl, hx, le_refl _, by omega, rfl⟩

lemma grow_up_spec (i : Nat) (st : List BoardItem × Int) (ch_y : Int)
    (hi : i < st.1.length) (hy : (st.1.getD i dummy_item).y = st.2) :
    (grow_up i st ch_y).1.length = st.1.length ∧
    (∀ k, k ≠ i → (grow_up i st ch_y).1.getD k dummy_item =
      st.1.getD k dummy_item) ∧
    skel ((grow_up i st ch_y).1.getD i dummy_item) =
      skel (st.1.getD i dummy_item) ∧
    ((grow_up i st ch_y).1.getD i dummy_item).x =
      (st.1.getD i dummy_item).x ∧
    ((grow_up i st ch_y).1.getD i dummy_item).width =
      (st.1.getD i dummy_item).width ∧
    ((grow_up i st ch_y).1.getD i dummy_item).y = (grow_up i st ch_y).2 ∧
    (grow_up i st ch_y).2 ≤ st.2 ∧
    (grow_up i st ch_y).2 ≤ ch_y ∧
    (grow_up i st ch_y).2 + ((grow_up i st ch_y).1.getD i dummy_item).height =
      st.2 + (st.1.getD i dummy_item).height := by
  by_cases h : ch_y < st.2
  · simp only [grow_up, if_pos h]
    refine ⟨by simp, fun k hk => getD_set_ne _ _ _ _ (fun he => hk he.symm), ?_⟩
    rw [getD_set_self _ _ _ hi]
    refine ⟨rfl, rfl, rfl, rfl, ?_, ?_, ?_⟩
    · show (st.1.getD i dummy_item).y - (st.2 - ch_y) ≤ st.2
      omega
    · show (st.1.getD i dummy_item).y - (st.2 - ch_y) ≤ ch_y
      omega
    · show (st.1.getD i dummy_item).y - (st.2 - ch_y) +
        ((st.1.getD i dummy_item).height + (st.2 - ch_y)) =
        st.2 + (st.1.getD i dummy_item).height
      omega
  · have he : grow_up i st ch_y = st := by simp only [grow_up, if_neg h]
    rw [he]
    exact ⟨rfl, fun k _ => rfl, rfl, rfl, rfl, hy, le_refl _, by omega, rfl⟩

lemma grow_right_spec (i : Nat) (items : List BoardItem) (ctx_x ch_right : Int)
    (hi : i < items.length) :
    (grow_right i items ctx_x ch_right).length = items.length ∧
    (∀ k, k ≠ i → (grow_right i items ctx_x ch_right).getD k dummy_item =
      items.getD k dummy_item) ∧
    skel ((grow_right i items ctx_x ch_right).getD i dummy_item) =
      skel (items.getD i dummy_item) ∧
    ((grow_right i items ctx_x ch_right).getD i dummy_item).x =
      (items.getD i dummy_item).x ∧
    ((grow_right i items ctx_x ch_right).getD i dummy_item).y =
      (items.getD i dummy_item).y ∧
    ((grow_right i items ctx_x ch_right).getD i dummy_item).height =
      (items.getD i dummy_item).height ∧
    (items.getD i dummy_item).width ≤
      ((grow_right i items ctx_x ch_right).getD i dummy_item).width ∧
    ch_right ≤ ctx_x + ((grow_right i items ctx_x ch_right).getD i dummy_item).width := by
  by_cases h : ch_right > ctx_x + (items.getD i dummy_item).width
  · simp only [grow_right, if_pos h]
    refine ⟨by simp, fun k hk => getD_set_ne _ _ _ _ (fun he => hk he.symm), ?_⟩
    rw [getD_set_self _ _ _ hi]
    refine ⟨rfl, rfl, rfl, rfl, ?_, ?_⟩
    · show (items.getD i dummy_item).width ≤ ch_right - ctx_x + PADDING
      simp only [PADDING]
      omega
    · show ch_right ≤ ctx_x + (ch_right - ctx_x + PADDING)
      simp only [PADDING]
      omega
  · have he : grow_right i items ctx_x ch_right = items := by
      simp only [grow_right, if_neg h]
    rw [he]
    exact ⟨rfl, fun k _ => rfl, rfl, rfl, rfl, rfl, le_refl _, by omega⟩

lemma grow_down_spec (i : Nat) (items : List BoardItem) (ctx_y ch_bottom : Int)
    (hi : i < items.length) :
    (grow_down i items ctx_y ch_bottom).length = items.length ∧
    (∀ k, k ≠ i → (grow_down i items ctx_y ch_bottom).getD k dummy_item =
      items.getD k dummy_item) ∧
    skel ((grow_down i items ctx_y ch_bottom).getD i dummy_item) =
      skel (items.getD i dummy_item) ∧
    ((grow_down i items ctx_y ch_bottom).getD i dummy_item).x =
      (items.getD i dummy_item).x ∧
    ((grow_down i items ctx_y ch_bottom).getD i dummy_item).y =
      (items.getD i dummy_item).y ∧
    ((grow_down i items ctx_y ch_bottom).getD i dummy_item).width =
      (items.getD i dummy_item).width ∧
    (items.getD i dummy_item).height ≤
      ((grow_down i items ctx_y ch_bottom).getD i dummy_item).height ∧
    ch_bottom ≤ ctx_y + ((grow_down i items ctx_y ch_bottom).getD i dummy_item).height := by
  by_cases h : ch_bottom > ctx_y + (items.getD i dummy_item).height
  · simp only [grow_down, if_pos h]
    refine ⟨by simp, fun k hk => getD_set_ne _ _ _ _ (fun he => hk he.symm), ?_⟩
    rw [getD_set_self _ _ _ hi]
    refine ⟨rfl, rfl, rfl, rfl, ?_, ?_⟩
    · show (items.getD i dummy_item).height ≤ ch_bottom - ctx_y + PADDING
      simp only [PADDING]
      omega
    · show ch_bottom ≤ ctx_y + (ch_bottom - ctx_y + PADDING)
      simp only [PADDING]
      omega
  · have he : grow_down i items ctx_y ch_bottom = items := by
      simp only [grow_down, if_neg h]
    rw [he]
    exact ⟨rfl, fun k _ => rfl, rfl, rfl, rfl, rfl, le_refl _, by omega⟩

/-- First scan step applied to the state, feeding the child's left edge. -/
def sc1 (acc : ChildScan) (j i : Nat) : List BoardItem × Int :=
  grow_left i (acc.items, acc.ctxX) ((acc.items.getD j dummy_item).x)

/-- Second scan step, feeding the child's top edge. -/
def sc2 (acc : ChildScan) (j i : Nat) : List BoardItem × Int :=
  grow_up i ((sc1 acc j i).1, acc.ctxY) ((acc.items.getD j dummy_item).y)

/-- Third scan step, feeding the child's right edge. -/
def sc3 (acc : ChildScan) (j i : Nat) : List BoardItem :=
  grow_right i (sc2 acc j i).1 (sc1 acc j i).2
    ((acc.items.getD j dummy_item).x + (acc.items.getD j dummy_item).width)

/-- Fourth scan step, feeding the child's bottom edge. -/
def sc4 (acc : ChildScan) (j i : Nat) : List BoardItem :=
  grow_down i (sc3 acc j i) (sc2 acc j i).2
    ((acc.items.getD j dummy_item).y + (acc.items.getD j dummy_item).height)

/-- The detachment test of the per-child loop, as the source computes it. -/
def is_detached (acc : ChildScan) (j : Nat) (cr cb : Int) : Bool :=
  let child := acc.items.getD j dummy_item
  let ch_x := child.x
  let ch_y := child.y
  let ch_right := ch_x + child.width
  let ch_bottom := ch_y + child.height
  let is_outside_x := (ch_right < acc.ctxX) || (ch_x > cr)
  let is_outside_y := (ch_bottom < acc.ctxY) || (ch_y > cb)
  is_outside_x || is_outside_y

lemma scan_child_detached_eq (i : Nat) (cr cb : Int) (acc : ChildScan) (j : Nat)
    (h : is_detached acc j cr cb = true) :
    scan_child i cr cb acc j = { acc with detached := acc.detached ++ [j] } := by
  have h' := h
  simp only [is_detached] at h'
  simp only [scan_child]
  rw [if_pos h']

lemma scan_child_attached_eq (i : Nat) (cr cb : Int) (acc : ChildScan) (j : Nat)
    (h : ¬ is_detached acc j cr cb = true) :
    scan_child i cr cb acc j =
      { items := sc4 acc j i, ctxX := (sc1 acc j i).2, ctxY := (sc2 acc j i).2,
        detached := acc.detached } := by
  have h' := h
  simp only [is_detached] at h'
  simp only [scan_child, sc4, sc3, sc2, sc1]
  rw [if_neg h']

lemma sc1_spec (i j : Nat) (acc : ChildScan) (hi : i < acc.items.length)
    (hbx : (acc.items.getD i dummy_item).x = acc.ctxX) :
    (sc1 acc j i).1.length = acc.items.length ∧
    (∀ k, k ≠ i → (sc1 acc j i).1.getD k dummy_item =
      acc.items.getD k dummy_item) ∧
    skel ((sc1 acc j i).1.getD i dummy_item) = skel (acc.items.getD i dummy_item) ∧
    ((sc1 acc j i).1.getD i dummy_item).y = (acc.items.getD i dummy_item).y ∧
    ((sc1 acc j i).1.getD i dummy_item).height =
      (acc.items.getD i dummy_item).height ∧
    ((sc1 acc j i).1.getD i dummy_item).x = (sc1 acc j i).2 ∧
    (sc1 acc j i).2 ≤ acc.ctxX ∧
    (sc1 acc j i).2 ≤ (acc.items.getD j dummy_item).x ∧
    (sc1 acc j i).2 + ((sc1 acc j i).1.getD i dummy_item).width =
      acc.ctxX + (acc.items.getD i dummy_item).width :=
  grow_left_spec i (acc.items, acc.ctxX) ((acc.items.getD j dummy_item).x) hi hbx

lemma sc2_spec (i j : Nat) (acc : ChildScan) (hi2 : i < (sc1 acc j i).1.length)
    (hy2 : ((sc1 acc j i).1.getD i dummy_item).y = acc.ctxY) :
    (sc2 acc j i).1.length = (sc1 acc j i).1.length ∧
    (∀ k, k ≠ i → (sc2 acc j i).1.getD k dummy_item =
      (sc1 acc j i).1.getD k dummy_item) ∧
    skel ((sc2 acc j i).1.getD i dummy_item) =
      skel ((sc1 acc j i).1.getD i dummy_item) ∧
    ((sc2 acc j i).1.getD i dummy_item).x = ((sc1 acc j i).1.getD i dummy_item).x ∧
    ((sc2 acc j i).1.getD i dummy_item).width =
      ((sc1 acc j i).1.getD i dummy_item).width ∧
    ((sc2 acc j i).1.getD i dummy_item).y = (sc2 acc j i).2 ∧
    (sc2 acc j i).2 ≤ acc.ctxY ∧
    (sc2 acc j i).2 ≤ (acc.items.getD j dummy_item).y ∧
    (sc2 acc j i).2 + ((sc2 acc j i).1.getD i dummy_item).height =
      acc.ctxY + ((sc1 acc j i).1.getD i dummy_item).height :=
  grow_up_spec i ((sc1 acc j i).1, acc.ctxY) ((acc.items.getD j dummy_item).y)
    hi2 hy2

lemma sc3_spec (i j : Nat) (acc : ChildScan) (hi3 : i < (sc2 acc j i).1.length) :
    (sc3 acc j i).length = (sc2 acc j i).1.length ∧
    (∀ k, k ≠ i → (sc3 acc j i).getD k dummy_item =
      (sc2 acc j i).1.getD k dummy_item) ∧
    skel ((sc3 acc j i).getD i dummy_item) =
      skel ((sc2 acc j i).1.getD i dummy_item) ∧
    ((sc3 acc j i).getD i dummy_item).x = ((sc2 acc j i).1.getD i dummy_item).x ∧
    ((sc3 acc j i).getD i dummy_item).y = ((sc2 acc j i).1.getD i dummy_item).y ∧
    ((sc3 acc j i).getD i dummy_item).height =
      ((sc2 acc j i).1.getD i dummy_item).height ∧
    ((sc2 acc j i).1.getD i dummy_item).width ≤
      ((sc3 acc j i).getD i dummy_item).width ∧
    (acc.items.getD j dummy_item).x + (acc.items.getD j dummy_item).width ≤
      (sc1 acc j i).2 + ((sc3 acc j i).getD i dummy_item).width :=
  grow_right_spec i (sc2 acc j i).1 (sc1 acc j i).2
    ((acc.items.getD j dummy_item).x + (acc.items.getD j dummy_item).width) hi3

lemma sc4_spec (i j : Nat) (acc : ChildScan) (hi4 : i < (sc3 acc j i).length) :
    (sc4 acc j i).length = (sc3 acc j i).length ∧
    (∀ k, k ≠ i → (sc4 acc j i).getD k dummy_item =
      (sc3 acc j i).getD k dummy_item) ∧
    skel ((sc4 acc j i).getD i dummy_item) =
      skel ((sc3 acc j i).getD i dummy_item) ∧
    ((sc4 acc j i).getD i dummy_item).x = ((sc3 acc j i).getD i dummy_item).x ∧
    ((sc4 acc j i).getD i dummy_item).y = ((sc3 acc j i).getD i dummy_item).y ∧
    ((sc4 acc j i).getD i dummy_item).width =
      ((sc3 acc j i).getD i dummy_item).width ∧
    ((sc3 acc j i).getD i dummy_item).height ≤
      ((sc4 acc j i).getD i dummy_item).height ∧
    (acc.items.getD j dummy_item).y + (acc.items.getD j dummy_item).height ≤
      (sc2 acc j i).2 + ((sc4 acc j i).getD i dummy_item).height :=
  grow_down_spec i (sc3 acc j i) (sc2 acc j i).2
    ((acc.items.getD j dummy_item).y + (acc.items.getD j dummy_item).height) hi4

lemma scan_child_step (i : Nat) (cr cb : Int) (acc : ChildScan) (j : Nat)
    (hij : j ≠ i) (hi : i < acc.items.length)
    (hbx : (acc.items.getD i dummy_item).x = acc.ctxX)
    (hby : (acc.items.getD i dummy_item).y = acc.ctxY) :
    (scan_child i cr cb acc j).items.length = acc.items.length ∧
    (∀ k, k ≠ i → (scan_child i cr cb acc j).items.getD k dummy_item =
      acc.items.getD k dummy_item) ∧
    skel ((scan_child i cr cb acc j).items.getD i dummy_item) =
      skel (acc.items.getD i dummy_item) ∧
    ((scan_child i cr cb acc j).items.getD i dummy_item).x =
      (scan_child i cr cb acc j).ctxX ∧
    ((scan_child i cr cb acc j).items.getD i dummy_item).y =
      (scan_child i cr cb acc j).ctxY ∧
    (scan_child i cr cb acc j).ctxX ≤ acc.ctxX ∧
    (scan_child i cr cb acc j).ctxY ≤ acc.ctxY ∧
    acc.ctxX + (acc.items.getD i dummy_item).width ≤
      (scan_child i cr cb acc j).ctxX +
        ((scan_child i cr cb acc j).items.getD i dummy_item).width ∧
    acc.ctxY + (acc.items.getD i dummy_item).height ≤
      (scan_child i cr cb acc j).ctxY +
        ((scan_child i cr cb acc j).items.getD i dummy_item).height ∧
    (∀ m ∈ acc.detached, m ∈ (scan_child i cr cb acc j).detached) ∧
    (∀ m ∈ (scan_child i cr cb acc j).detached, m ∈ acc.detached ∨ m = j) ∧
    (j ∈ (scan_child i cr cb acc j).detached ∨
      insideBox ((scan_child i cr cb acc j).items.getD j dummy_item)
        ((scan_child i cr cb acc j).items.getD i dummy_item)) := by
  by_cases h : is_detached acc j cr cb = true
  · rw [scan_child_detached_eq i cr cb acc j h]
    refine ⟨rfl, fun k _ => rfl, rfl, hbx, hby, le_refl _, le_refl _, le_refl _,
      le_refl _, fun m hm => List.mem_append_left _ hm,
      fun m hm => (List.mem_append.mp hm).imp id List.mem_singleton.mp,
      Or.inl (List.mem_append_right _ (List.mem_singleton.mpr rfl))⟩
  · rw [scan_child_attached_eq i cr cb acc j h]
    obtain ⟨l1, u1, s1, y1, h1, x1, xle1, xch1, re1⟩ := sc1_spec i j acc hi hbx
    have hi2 : i < (sc1 acc j i).1.length := by rw [l1]; exact hi
    have hy2 : ((sc1 acc j i).1.getD i dummy_item).y = acc.ctxY := y1.trans hby
    obtain ⟨l2, u2, s2, x2, w2, y2, yle2, ych2, be2⟩ := sc2_spec i j acc hi2 hy2
    have hi3 : i < (sc2 acc j i).1.length := by rw [l2]; exact hi2
    obtain ⟨l3, u3, s3, x3, y3, h3, wle3, wch3⟩ := sc3_spec i j acc hi3
    have hi4 : i < (sc3 acc j i).length := by rw [l3]; exact hi3
    obtain ⟨l4, u4, s4, x4, y4, w4, hle4, hch4⟩ := sc4_spec i j acc hi4
    have hbx4 : ((sc4 acc j i).getD i dummy_item).x = (sc1 acc j i).2 :=
      x4.trans (x3.trans (x2.trans x1))
    have hby4 : ((sc4 acc j i).getD i dummy_item).y = (sc2 acc j i).2 :=
      y4.trans (y3.trans y2)
    have hchild : (sc4 acc j i).getD j dummy_item = acc.items.getD j dummy_item :=
      (u4 j hij).trans ((u3 j hij).trans ((u2 j hij).trans (u1 j hij)))
    refine ⟨?_, ?_, ?_, ?_, ?_, ?_, ?_, ?_, ?_, ?_, ?_, ?_⟩
    · show (sc4 acc j i).length = acc.items.length
      rw [l4, l3, l2, l1]
    · intro k hk
      show (sc4 acc j i).getD k dummy_item = acc.items.getD k dummy_item
      rw [u4 k hk, u3 k hk, u2 k hk, u1 k hk]
    · show skel ((sc4 acc j i).getD i dummy_item) = skel (acc.items.getD i dummy_item)
      rw [s4, s3, s2, s1]
    · show ((sc4 acc j i).getD i dummy_item).x = (sc1 acc j i).2
      exact hbx4
    · show ((sc4 acc j i).getD i dummy_item).y = (sc2 acc j i).2
      exact hby4
    · show (sc1 acc j i).2 ≤ acc.ctxX
      exact xle1
    · show (sc2 acc j i).2 ≤ acc.ctxY
      exact yle2
    · show acc.ctxX + (acc.items.getD i dummy_item).width ≤
        (sc1 acc j i).2 + ((sc4 acc j i).getD i dummy_item).width
      omega
    · show acc.ctxY + (acc.items.getD i dummy_item).height ≤
        (sc2 acc j i).2 + ((sc4 acc j i).getD i dummy_item).height
      omega
    · intro m hm
      exact hm
    · intro m hm
      exact Or.inl hm
    · refine Or.inr ?_
      show insideBox ((sc4 acc j i).getD j dummy_item) ((sc4 acc j i).getD i dummy_item)
      rw [hchild]
      simp only [insideBox]
      refine ⟨?_, ?_, ?_, ?_⟩ <;> omega

lemma scan_fold (i : Nat) (cr cb : Int) (cs : List Nat) (acc : ChildScan)
    (hi : i < acc.items.length)
    (hbx : (acc.items.getD i dummy_item).x = acc.ctxX)
    (hby : (acc.items.getD i dummy_item).y = acc.ctxY)
    (hcs : ∀ j ∈ cs, j ≠ i) :
    (cs.foldl (scan_child i cr cb) acc).items.length = acc.items.length ∧
    (∀ k, k ≠ i → (cs.foldl (scan_child i cr cb) acc).items.getD k dummy_item =
      acc.items.getD k dummy_item) ∧
    skel ((cs.foldl (scan_child i cr cb) acc).items.getD i dummy_item) =
      skel (acc.items.getD i dummy_item) ∧
    ((cs.foldl (scan_child i cr cb) acc).items.getD i dummy_item).x =
      (cs.foldl (scan_child i cr cb) acc).ctxX ∧
    ((cs.foldl (scan_child i cr cb) acc).items.getD i dummy_item).y =
      (cs.foldl (scan_child i cr cb) acc).ctxY ∧
    (cs.foldl (scan_child i cr cb) acc).ctxX ≤ acc.ctxX ∧
    (cs.foldl (scan_child i cr cb) acc).ctxY ≤ acc.ctxY ∧
    acc.ctxX + (acc.items.getD i dummy_item).width ≤
      (cs.foldl (scan_child i cr cb) acc).ctxX +
        ((cs.foldl (scan_child i cr cb) acc).items.getD i dummy_item).width ∧
    acc.ctxY + (acc.items.getD i dummy_item).height ≤
      (cs.foldl (scan_child i cr cb) acc).ctxY +
        ((cs.foldl (scan_child i cr cb) acc).items.getD i dummy_item).height ∧
    (∀ m ∈ acc.detached, m ∈ (cs.foldl (scan_child i cr cb) acc).detached) ∧
    (∀ m ∈ (cs.foldl (scan_child i cr cb) acc).detached,
      m ∈ acc.detached ∨ m ∈ cs) ∧
    (∀ j ∈ cs, j ∈ (cs.foldl (scan_child i cr cb) acc).detached ∨
      insideBox ((cs.foldl (scan_child i cr cb) acc).items.getD j dummy_item)
        ((cs.foldl (scan_child i cr cb) acc).items.getD i dummy_item)) := by
  induction cs generalizing acc with
  | nil =>
      exact ⟨rfl, fun k _ => rfl, rfl, hbx, hby, le_refl _, le_refl _, le_refl _,
        le_refl _, fun m hm => hm, fun m hm => Or.inl hm,
        fun j hj => absurd hj (List.not_mem_nil j)⟩
  | cons j rest ih =>
      simp only [List.foldl_cons]
      obtain ⟨sl, su, ss, sx, sy, sxle, syle, sre, sbe, sd1, sd2, sj⟩ :=
        scan_child_step i cr cb acc j (hcs j (List.mem_cons_self j rest)) hi hbx hby
      have hi' : i < (scan_child i cr cb acc j).items.length := by
        rw [sl]; exact hi
      obtain ⟨il, iu, is, ix, iy, ixle, iyle, ire, ibe, id1, id2, ij⟩ :=
        ih (scan_child i cr cb acc j) hi' sx sy
          (fun m hm => hcs m (List.mem_cons_of_mem j hm))
      refine ⟨il.trans sl, fun k hk => (iu k hk).trans (su k hk), is.trans ss,
        ix, iy, le_trans ixle sxle, le_trans iyle syle, ?_, ?_,
        fun m hm => id1 m (sd1 m hm), ?_, ?_⟩
      · omega
      · omega
      · intro m hm
        rcases id2 m hm with hm' | hm'
        · rcases sd2 m hm' with hm'' | hm''
          · exact Or.inl hm''
          · exact Or.inr (hm'' ▸ List.mem_cons_self j rest)
        · exact Or.inr (List.mem_cons_of_mem j hm')
      · intro j' hj'
        rcases List.mem_cons.mp hj' with he | hm
        · subst he
          rcases sj with hd | hin
          · exact Or.inl (id1 j' hd)
          · refine Or.inr ?_
            have hcj : (rest.foldl (scan_child i cr cb)
                (scan_child i cr cb acc j')).items.getD j' dummy_item =
                (scan_child i cr cb acc j').items.getD j' dummy_item :=
              iu j' (hcs j' (List.mem_cons_self j' rest))
            rw [hcj]
            simp only [insideBox] at hin ⊢
            omega
        · exact ij j' hm

lemma place_detached_step (i : Nat) (ctx_x : Int) (acc : List BoardItem × Int)
    (j : Nat) (hij : j ≠ i) (hi : i < acc.1.length) (hj : j < acc.1.length) :
    (place_detached i ctx_x acc j).1.length = acc.1.length ∧
    (∀ k, k ≠ i → k ≠ j → (place_detached i ctx_x acc j).1.getD k dummy_item =
      acc.1.getD k dummy_item) ∧
    skel ((place_detached i ctx_x acc j).1.getD i dummy_item) =
      skel (acc.1.getD i dummy_item) ∧
    ((place_detached i ctx_x acc j).1.getD i dummy_item).x =
      (acc.1.getD i dummy_item).x ∧
    ((place_detached i ctx_x acc j).1.getD i dummy_item).y =
      (acc.1.getD i dummy_item).y ∧
    ((place_detached i ctx_x acc j).1.getD i dummy_item).width =
      (acc.1.getD i dummy_item).width ∧
    ((place_detached i ctx_x acc j).1.getD i dummy_item).height =
      (acc.1.getD i dummy_item).height + (acc.1.getD j dummy_item).height +
        ITEM_V_GAP ∧
    (place_detached i ctx_x acc j).1.getD j dummy_item =
      { acc.1.getD j dummy_item with x := ctx_x + PADDING, y := acc.2 } ∧
    (place_detached i ctx_x acc j).2 =
      acc.2 + (acc.1.getD j dummy_item).height + ITEM_V_GAP := by
  have hset1 : ∀ a : BoardItem,
      (acc.1.set j a).getD i dummy_item = acc.1.getD i dummy_item :=
    fun a => getD_set_ne acc.1 j i a hij
  have hset2 : ∀ a b : BoardItem,
      ((acc.1.set j a).set i b).getD i dummy_item = b :=
    fun a b => getD_set_self _ i b (by simpa using hi)
  have hset3 : ∀ a b : BoardItem,
      ((acc.1.set j a).set i b).getD j dummy_item = a := by
    intro a b
    rw [getD_set_ne _ i j b (fun he => hij he.symm), getD_set_self acc.1 j a hj]
  have hset4 : ∀ (a b : BoardItem) (k : Nat), k ≠ i → k ≠ j →
      ((acc.1.set j a).set i b).getD k dummy_item = acc.1.getD k dummy_item := by
    intro a b k hki hkj
    rw [getD_set_ne _ i k b (fun he => hki he.symm),
      getD_set_ne _ j k a (fun he => hkj he.symm)]
  simp only [place_detached]
  rw [hset1]
  refine ⟨by simp, fun k hki hkj => hset4 _ _ k hki hkj, ?_, ?_, ?_, ?_, ?_, ?_,
    by trivial⟩
  · rw [hset2]
    rfl
  · rw [hset2]
  · rw [hset2]
  · rw [hset2]
  · rw [hset2]
  · rw [hset3]

lemma place_fold (i : Nat) (ctx_x : Int) (js : List Nat)
    (acc : List BoardItem × Int)
    (hi : i < acc.1.length)
    (hbx : (acc.1.getD i dummy_item).x = ctx_x)
    (hinv : (acc.1.getD i dummy_item).y + (acc.1.getD i dummy_item).height =
      acc.2 + PADDING)
    (hys : (acc.1.getD i dummy_item).y ≤ acc.2)
    (hjs : ∀ j ∈ js, j ≠ i ∧ j < acc.1.length ∧
      0 ≤ (acc.1.getD j dummy_item).height ∧
      (acc.1.getD j dummy_item).width + PADDING ≤
        (acc.1.getD i dummy_item).width) :
    (js.foldl (place_detached i ctx_x) acc).1.length = acc.1.length ∧
    (∀ k, k ≠ i → k ∉ js →
      (js.foldl (place_detached i ctx_x) acc).1.getD k dummy_item =
        acc.1.getD k dummy_item) ∧
    (∀ k, k ≠ i →
      skel ((js.foldl (place_detached i ctx_x) acc).1.getD k dummy_item) =
        skel (acc.1.getD k dummy_item) ∧
      ((js.foldl (place_detached i ctx_x) acc).1.getD k dummy_item).width =
        (acc.1.getD k dummy_item).width ∧
      ((js.foldl (place_detached i ctx_x) acc).1.getD k dummy_item).height =
        (acc.1.getD k dummy_item).height) ∧
    skel ((js.foldl (place_detached i ctx_x) acc).1.getD i dummy_item) =
      skel (acc.1.getD i dummy_item) ∧
    ((js.foldl (place_detached i ctx_x) acc).1.getD i dummy_item).x =
      (acc.1.getD i dummy_item).x ∧
    ((js.foldl (place_detached i ctx_x) acc).1.getD i dummy_item).y =
      (acc.1.getD i dummy_item).y ∧
    ((js.foldl (place_detached i ctx_x) acc).1.getD i dummy_item).width =
      (acc.1.getD i dummy_item).width ∧
    (acc.1.getD i dummy_item).height ≤
      ((js.foldl (place_detached i ctx_x) acc).1.getD i dummy_item).height ∧
    (∀ j ∈ js, insideBox
      ((js.foldl (place_detached i ctx_x) acc).1.getD j dummy_item)
      ((js.foldl (place_detached i ctx_x) acc).1.getD i dummy_item)) := by
  have hpad : PADDING = 50 := rfl
  have hgap : ITEM_V_GAP = 30 := rfl
  induction js generalizing acc with
  | nil =>
      exact ⟨rfl, fun k _ _ => rfl, fun k _ => ⟨rfl, rfl, rfl⟩, rfl, rfl, rfl, rfl,
        le_refl _, fun j hj => absurd hj (List.not_mem_nil j)⟩
  | cons j rest ih =>
      simp only [List.foldl_cons]
      obtain ⟨hj1, hj2, hj3, hj4⟩ := hjs j (List.mem_cons_self j rest)
      obtain ⟨pl, pu, ps, px, py, pw, ph, pc, psnd⟩ :=
        place_detached_step i ctx_x acc j hj1 hi hj2
      have hi' : i < (place_detached i ctx_x acc j).1.length := by
        rw [pl]; exact hi
      have hwh' : ∀ k, k ≠ i →
          skel ((place_detached i ctx_x acc j).1.getD k dummy_item) =
            skel (acc.1.getD k dummy_item) ∧
          ((place_detached i ctx_x acc j).1.getD k dummy_item).width =
            (acc.1.getD k dummy_item).width ∧
          ((place_detached i ctx_x acc j).1.getD k dummy_item).height =
            (acc.1.getD k dummy_item).height := by
        intro k hk
        by_cases hkj : k = j
        · subst hkj
          rw [pc]
          exact ⟨rfl, rfl, rfl⟩
        · rw [pu k hk hkj]
          exact ⟨rfl, rfl, rfl⟩
      have hbx' : ((place_detached i ctx_x acc j).1.getD i dummy_item).x = ctx_x :=
        px.trans hbx
      have hinv' : ((place_detached i ctx_x acc j).1.getD i dummy_item).y +
          ((place_detached i ctx_x acc j).1.getD i dummy_item).height =
          (place_detached i ctx_x acc j).2 + PADDING := by
        rw [py, ph, psnd]
        omega
      have hys' : ((place_detached i ctx_x acc j).1.getD i dummy_item).y ≤
          (place_detached i ctx_x acc j).2 := by
        rw [py, psnd]
        omega
      have hjs' : ∀ j' ∈ rest, j' ≠ i ∧
          j' < (place_detached i ctx_x acc j).1.length ∧
          0 ≤ ((place_detached i ctx_x acc j).1.getD j' dummy_item).height ∧
          ((place_detached i ctx_x acc j).1.getD j' dummy_item).width + PADDING ≤
            ((place_detached i ctx_x acc j).1.getD i dummy_item).width := by
        intro j' hj'
        obtain ⟨ha, hb, hc, hd⟩ := hjs j' (List.mem_cons_of_mem j hj')
        obtain ⟨_, hw', hh'⟩ := hwh' j' ha
        refine ⟨ha, by rw [pl]; exact hb, by rw [hh']; exact hc, ?_⟩
        rw [hw', pw]
        exact hd
      obtain ⟨il, iu, iwh, is, ix, iy, iw, ihh, iin⟩ :=
        ih (place_detached i ctx_x acc j) hi' hbx' hinv' hys' hjs'
      refine ⟨il.trans pl, ?_, ?_, is.trans ps, ix.trans px, iy.trans py,
        iw.trans pw, ?_, ?_⟩
      · intro k hk hkm
        have hkj : k ≠ j := fun he => hkm (he ▸ List.mem_cons_self j rest)
        have hkr : k ∉ rest := fun hmem => hkm (List.mem_cons_of_mem j hmem)
        rw [iu k hk hkr, pu k hk hkj]
      · intro k hk
        obtain ⟨ia, ib, ic⟩ := iwh k hk
        obtain ⟨pa, pb', pc'⟩ := hwh' k hk
        exact ⟨ia.trans pa, ib.trans pb', ic.trans pc'⟩
      · rw [ph] at ihh
        omega
      · intro j' hj'
        rcases List.mem_cons.mp hj' with he | hm
        · subst he
          by_cases hjr : j' ∈ rest
          · exact iin j' hjr
          · have hfix : (rest.foldl (place_detached i ctx_x)
                (place_detached i ctx_x acc j')).1.getD j' dummy_item =
                (place_detached i ctx_x acc j').1.getD j' dummy_item :=
              iu j' hj1 hjr
            have hjx : ((rest.foldl (place_detached i ctx_x)
                (place_detached i ctx_x acc j')).1.getD j' dummy_item).x =
                ctx_x + PADDING := by rw [hfix, pc]
            have hjy : ((rest.foldl (place_detached i ctx_x)
                (place_detached i ctx_x acc j')).1.getD j' dummy_item).y =
                acc.2 := by rw [hfix, pc]
            have hjw : ((rest.foldl (place_detached i ctx_x)
                (place_detached i ctx_x acc j')).1.getD j' dummy_item).width =
                (acc.1.getD j' dummy_item).width := by rw [hfix, pc]
            have hjh : ((rest.foldl (place_detached i ctx_x)
                (place_detached i ctx_x acc j')).1.getD j' dummy_item).height =
                (acc.1.getD j' dummy_item).height := by rw [hfix, pc]
            have hfbx : ((rest.foldl (place_detached i ctx_x)
                (place_detached i ctx_x acc j')).1.getD i dummy_item).x = ctx_x :=
              ix.trans hbx'
            have hfby : ((rest.foldl (place_detached i ctx_x)
                (place_detached i ctx_x acc j')).1.getD i dummy_item).y =
                (acc.1.getD i dummy_item).y := iy.trans py
            have hfbw : ((rest.foldl (place_detached i ctx_x)
                (place_detached i ctx_x acc j')).1.getD i dummy_item).width =
                (acc.1.getD i dummy_item).width := iw.trans pw
            have hfbh : (acc.1.getD i dummy_item).height +
                (acc.1.getD j' dummy_item).height + ITEM_V_GAP ≤
                ((rest.foldl (place_detached i ctx_x)
                  (place_detached i ctx_x acc j')).1.getD i dummy_item).height := by
              rw [ph] at ihh
              exact ihh
            simp only [insideBox]
            rw [hjx, hjy, hjw, hjh, hfbx, hfby, hfbw]
            omega
        · exact iin j' hm

lemma type_order_cases (t : String) :
    type_order t = 0 ∨ type_order t = 1 ∨ type_order t = 2 ∨ type_order t = 3 ∨
    type_order t = 4 ∨ type_order t = 99 := by
  unfold type_order
  split_ifs <;> simp

lemma sort_detached_sub (items : List BoardItem) (det : List Nat) :
    ∀ m ∈ sort_detached items det, m ∈ det := by
  intro m hm
  simp only [sort_detached, List.mem_flatten, List.mem_map] at hm
  obtain ⟨l, ⟨k, _, hlk⟩, hml⟩ := hm
  rw [← hlk] at hml
  exact (List.mem_filter.mp hml).1

lemma sort_detached_mem (items : List BoardItem) (det : List Nat) :
    ∀ m ∈ det, m ∈ sort_detached items det := by
  intro m hm
  refine List.mem_flatten.mpr ⟨det.filter (fun j =>
    type_order ((items.getD j dummy_item).type) ==
      type_order ((items.getD m dummy_item).type)),
    List.mem_map.mpr ⟨type_order ((items.getD m dummy_item).type), ?_, rfl⟩,
    List.mem_filter.mpr ⟨hm, by simp⟩⟩
  rcases type_order_cases ((items.getD m dummy_item).type) with h | h | h | h | h | h <;>
    rw [h] <;> decide

lemma repair_box_contains (orig its : List BoardItem) (i : Nat)
    (hi : i < its.length)
    (hij : ∀ j ∈ child_positions orig (its.getD i dummy_item).id,
      j ≠ i ∧ j < its.length)
    (hbh : PADDING ≤ (its.getD i dummy_item).height)
    (hch : ∀ j ∈ child_positions orig (its.getD i dummy_item).id,
      0 ≤ (its.getD j dummy_item).height)
    (hcw : ∀ j ∈ child_positions orig (its.getD i dummy_item).id,
      (its.getD j dummy_item).width + PADDING ≤ (its.getD i dummy_item).width) :
    (repair_box orig its i).length = its.length ∧
    (∀ k, k ≠ i → k ∉ child_positions orig (its.getD i dummy_item).id →
      (repair_box orig its i).getD k dummy_item = its.getD k dummy_item) ∧
    (∀ k, skel ((repair_box orig its i).getD k dummy_item) =
      skel (its.getD k dummy_item)) ∧
    (∀ k, k ≠ i → ((repair_box orig its i).getD k dummy_item).width =
      (its.getD k dummy_item).width ∧
      ((repair_box orig its i).getD k dummy_item).height =
      (its.getD k dummy_item).height) ∧
    (∀ j ∈ child_positions orig (its.getD i dummy_item).id,
      insideBox ((repair_box orig its i).getD j dummy_item)
        ((repair_box orig its i).getD i dummy_item)) := by
  by_cases hemp : (child_positions orig (its.getD i dummy_item).id).isEmpty = true
  · have he : repair_box orig its i = its := by
      simp only [repair_box]
      rw [if_pos hemp]
    rw [he]
    refine ⟨rfl, fun k _ _ => rfl, fun k => rfl, fun k _ => ⟨rfl, rfl⟩, ?_⟩
    intro j hj
    rw [List.isEmpty_iff.mp hemp] at hj
    exact absurd hj (List.not_mem_nil j)
  · obtain ⟨sl, su, ss, sx, sy, sxle, syle, sre, sbe, _, sd2, sj⟩ :=
      scan_fold i ((its.getD i dummy_item).x + (its.getD i dummy_item).width)
        ((its.getD i dummy_item).y + (its.getD i dummy_item).height)
        (child_positions orig (its.getD i dummy_item).id)
        { items := its, ctxX := (its.getD i dummy_item).x,
          ctxY := (its.getD i dummy_item).y, detached := [] }
        hi rfl rfl (fun j hj => (hij j hj).1)
    dsimp only at sl su ss sx sy sxle syle sre sbe sd2 sj
    by_cases hdet : ((child_positions orig (its.getD i dummy_item).id).foldl
        (scan_child i ((its.getD i dummy_item).x + (its.getD i dummy_item).width)
          ((its.getD i dummy_item).y + (its.getD i dummy_item).height))
        { items := its, ctxX := (its.getD i dummy_item).x,
          ctxY := (its.getD i dummy_item).y, detached := [] }).detached = []
    · have he : repair_box orig its i =
          ((child_positions orig (its.getD i dummy_item).id).foldl
            (scan_child i
              ((its.getD i dummy_item).x + (its.getD i dummy_item).width)
              ((its.getD i dummy_item).y + (its.getD i dummy_item).height))
            { items := its, ctxX := (its.getD i dummy_item).x,
              ctxY := (its.getD i dummy_item).y, detached := [] }).items := by
        simp only [repair_box]
        rw [if_neg hemp, if_pos (List.isEmpty_iff.mpr hdet)]
      rw [he]
      refine ⟨sl, fun k hk _ => su k hk, ?_, ?_, ?_⟩
      · intro k
        by_cases hk : k = i
        · subst hk
          exact ss
        · rw [su k hk]
      · intro k hk
        rw [su k hk]
        exact ⟨rfl, rfl⟩
      · intro j hj
        rcases sj j hj with hd | hin
        · rw [hdet] at hd
          exact absurd hd (List.not_mem_nil j)
        · exact hin
    · have he : repair_box orig its i =
          ((sort_detached
            ((child_positions orig (its.getD i dummy_item).id).foldl
              (scan_child i
                ((its.getD i dummy_item).x + (its.getD i dummy_item).width)
                ((its.getD i dummy_item).y + (its.getD i dummy_item).height))
              { items := its, ctxX := (its.getD i dummy_item).x,
                ctxY := (its.getD i dummy_item).y, detached := [] }).items
            ((child_positions orig (its.getD i dummy_item).id).foldl
              (scan_child i
                ((its.getD i dummy_item).x + (its.getD i dummy_item).width)
                ((its.getD i dummy_item).y + (its.getD i dummy_item).height))
              { items := its, ctxX := (its.getD i dummy_item).x,
                ctxY := (its.getD i dummy_item).y, detached := [] }).detached).foldl
            (place_detached i
              ((child_positions orig (its.getD i dummy_item).id).foldl
                (scan_child i
                  ((its.getD i dummy_item).x + (its.getD i dummy_item).width)
                  ((its.getD i dummy_item).y + (its.getD i dummy_item).height))
                { items := its, ctxX := (its.getD i dummy_item).x,
                  ctxY := (its.getD i dummy_item).y, detached := [] }).ctxX)
            (((child_positions orig (its.getD i dummy_item).id).foldl
              (scan_child i
                ((its.getD i dummy_item).x + (its.getD i dummy_item).width)
                ((its.getD i dummy_item).y + (its.getD i dummy_item).height))
              { items := its, ctxX := (its.getD i dummy_item).x,
                ctxY := (its.getD i dummy_item).y, detached := [] }).items,
             ((child_positions orig (its.getD i dummy_item).id).foldl
              (scan_child i
                ((its.getD i dummy_item).x + (its.getD i dummy_item).width)
                ((its.getD i dummy_item).y + (its.getD i dummy_item).height))
              { items := its, ctxX := (its.getD i dummy_item).x,
                ctxY := (its.getD i dummy_item).y, detached := [] }).ctxY +
              (((child_positions orig (its.getD i dummy_item).id).foldl
                (scan_child i
                  ((its.getD i dummy_item).x + (its.getD i dummy_item).width)
                  ((its.getD i dummy_item).y + (its.getD i dummy_item).height))
                { items := its, ctxX := (its.getD i dummy_item).x,
                  ctxY := (its.getD i dummy_item).y,
                  detached := [] }).items.getD i dummy_item).height -
              PADDING)).1 := by
        simp only [repair_box]
        rw [if_neg hemp, if_neg (fun hc => hdet (List.isEmpty_iff.mp hc))]
      have hchildmem : ∀ j ∈ sort_detached
          ((child_positions orig (its.getD i dummy_item).id).foldl
            (scan_child i
              ((its.getD i dummy_item).x + (its.getD i dummy_item).width)
              ((its.getD i dummy_item).y + (its.getD i dummy_item).height))
            { items := its, ctxX := (its.getD i dummy_item).x,
              ctxY := (its.getD i dummy_item).y, detached := [] }).items
          ((child_positions orig (its.getD i dummy_item).id).foldl
            (scan_child i
              ((its.getD i dummy_item).x + (its.getD i dummy_item).width)
              ((its.getD i dummy_item).y + (its.getD i dummy_item).height))
            { items := its, ctxX := (its.getD i dummy_item).x,
              ctxY := (its.getD i dummy_item).y, detached := [] }).detached,
          j ∈ child_positions orig (its.getD i dummy_item).id := by
        intro j hj
        rcases sd2 j (sort_detached_sub _ _ j hj) with h0 | h1
        · exact absurd h0 (List.not_mem_nil j)
        · exact h1
      have hjsall : ∀ j ∈ sort_detached ((child_positions orig (its.getD i dummy_item).id).foldl
            (scan_child i
              ((its.getD i dummy_item).x + (its.getD i dummy_item).width)
              ((its.getD i dummy_item).y + (its.getD i dummy_item).height))
            { items := its, ctxX := (its.getD i dummy_item).x,
              ctxY := (its.getD i dummy_item).y, detached := [] }).items ((child_positions orig (its.getD i dummy_item).id).foldl
            (scan_child i
              ((its.getD i dummy_item).x + (its.getD i dummy_item).width)
              ((its.getD i dummy_item).y + (its.getD i dummy_item).height))
            { items := its, ctxX := (its.getD i dummy_item).x,
              ctxY := (its.getD i dummy_item).y, detached := [] }).detached, j ≠ i ∧
          j < (((child_positions orig (its.getD i dummy_item).id).foldl
            (scan_child i
              ((its.getD i dummy_item).x + (its.getD i dummy_item).width)
              ((its.getD i dummy_item).y + (its.getD i dummy_item).height))
            { items := its, ctxX := (its.getD i dummy_item).x,
              ctxY := (its.getD i dummy_item).y, detached := [] }).items, ((child_positions orig (its.getD i dummy_item).id).foldl
            (scan_child i
              ((its.getD i dummy_item).x + (its.getD i dummy_item).width)
              ((its.getD i dummy_item).y + (its.getD i dummy_item).height))
            { items := its, ctxX := (its.getD i dummy_item).x,
              ctxY := (its.getD i dummy_item).y, detached := [] }).ctxY +
            (((child_positions orig (its.getD i dummy_item).id).foldl
            (scan_child i
              ((its.getD i dummy_item).x + (its.getD i dummy_item).width)
              ((its.getD i dummy_item).y + (its.getD i dummy_item).height))
            { items := its, ctxX := (its.getD i dummy_item).x,
              ctxY := (its.getD i dummy_item).y, detached := [] }).items.getD i dummy_item).height - PADDING).1.length ∧
          0 ≤ ((((child_positions orig (its.getD i dummy_item).id).foldl
            (scan_child i
              ((its.getD i dummy_item).x + (its.getD i dummy_item).width)
              ((its.getD i dummy_item).y + (its.getD i dummy_item).height))
            { items := its, ctxX := (its.getD i dummy_item).x,
              ctxY := (its.getD i dummy_item).y, detached := [] }).items, ((child_positions orig (its.getD i dummy_item).id).foldl
            (scan_child i
              ((its.getD i dummy_item).x + (its.getD i dummy_item).width)
              ((its.getD i dummy_item).y + (its.getD i dummy_item).height))
            { items := its, ctxX := (its.getD i dummy_item).x,
              ctxY := (its.getD i dummy_item).y, detached := [] }).ctxY +
            (((child_positions orig (its.getD i dummy_item).id).foldl
            (scan_child i
              ((its.getD i dummy_item).x + (its.getD i dummy_item).width)
              ((its.getD i dummy_item).y + (its.getD i dummy_item).height))
            { items := its, ctxX := (its.getD i dummy_item).x,
              ctxY := (its.getD i dummy_item).y, detached := [] }).items.getD i dummy_item).height - PADDING).1.getD j
              dummy_item).height ∧
          ((((child_positions orig (its.getD i dummy_item).id).foldl
            (scan_child i
              ((its.getD i dummy_item).x + (its.getD i dummy_item).width)
              ((its.getD i dummy_item).y + (its.getD i dummy_item).height))
            { items := its, ctxX := (its.getD i dummy_item).x,
              ctxY := (its.getD i dummy_item).y, detached := [] }).items, ((child_positions orig (its.getD i dummy_item).id).foldl
            (scan_child i
              ((its.getD i dummy_item).x + (its.getD i dummy_item).width)
              ((its.getD i dummy_item).y + (its.getD i dummy_item).height))
            { items := its, ctxX := (its.getD i dummy_item).x,
              ctxY := (its.getD i dummy_item).y, detached := [] }).ctxY +
            (((child_positions orig (its.getD i dummy_item).id).foldl
            (scan_child i
              ((its.getD i dummy_item).x + (its.getD i dummy_item).width)
              ((its.getD i dummy_item).y + (its.getD i dummy_item).height))
            { items := its, ctxX := (its.getD i dummy_item).x,
              ctxY := (its.getD i dummy_item).y, detached := [] }).items.getD i dummy_item).height - PADDING).1.getD j
              dummy_item).width + PADDING ≤
            ((((child_positions orig (its.getD i dummy_item).id).foldl
            (scan_child i
              ((its.getD i dummy_item).x + (its.getD i dummy_item).width)
              ((its.getD i dummy_item).y + (its.getD i dummy_item).height))
            { items := its, ctxX := (its.getD i dummy_item).x,
              ctxY := (its.getD i dummy_item).y, detached := [] }).items, ((child_positions orig (its.getD i dummy_item).id).foldl
            (scan_child i
              ((its.getD i dummy_item).x + (its.getD i dummy_item).width)
              ((its.getD i dummy_item).y + (its.getD i dummy_item).height))
            { items := its, ctxX := (its.getD i dummy_item).x,
              ctxY := (its.getD i dummy_item).y, detached := [] }).ctxY +
              (((child_positions orig (its.getD i dummy_item).id).foldl
            (scan_child i
              ((its.getD i dummy_item).x + (its.getD i dummy_item).width)
              ((its.getD i dummy_item).y + (its.getD i dummy_item).height))
            { items := its, ctxX := (its.getD i dummy_item).x,
              ctxY := (its.getD i dummy_item).y, detached := [] }).items.getD i dummy_item).height - PADDING).1.getD i
                dummy_item).width := by
        intro j hj
        have hjc := hchildmem j hj
        obtain ⟨hne, hlt⟩ := hij j hjc
        have hju := su j hne
        refine ⟨hne, ?_, ?_, ?_⟩
        · show j < ((child_positions orig (its.getD i dummy_item).id).foldl
            (scan_child i
              ((its.getD i dummy_item).x + (its.getD i dummy_item).width)
              ((its.getD i dummy_item).y + (its.getD i dummy_item).height))
            { items := its, ctxX := (its.getD i dummy_item).x,
              ctxY := (its.getD i dummy_item).y, detached := [] }).items.length
          rw [sl]
          exact hlt
        · show 0 ≤ (((child_positions orig (its.getD i dummy_item).id).foldl
            (scan_child i
              ((its.getD i dummy_item).x + (its.getD i dummy_item).width)
              ((its.getD i dummy_item).y + (its.getD i dummy_item).height))
            { items := its, ctxX := (its.getD i dummy_item).x,
              ctxY := (its.getD i dummy_item).y, detached := [] }).items.getD j dummy_item).height
          rw [hju]
          exact hch j hjc
        · show (((child_positions orig (its.getD i dummy_item).id).foldl
            (scan_child i
              ((its.getD i dummy_item).x + (its.getD i dummy_item).width)
              ((its.getD i dummy_item).y + (its.getD i dummy_item).height))
            { items := its, ctxX := (its.getD i dummy_item).x,
              ctxY := (its.getD i dummy_item).y, detached := [] }).items.getD j dummy_item).width + PADDING ≤
            (((child_positions orig (its.getD i dummy_item).id).foldl
            (scan_child i
              ((its.getD i dummy_item).x + (its.getD i dummy_item).width)
              ((its.getD i dummy_item).y + (its.getD i dummy_item).height))
            { items := its, ctxX := (its.getD i dummy_item).x,
              ctxY := (its.getD i dummy_item).y, detached := [] }).items.getD i dummy_item).width
          have h1 := hcw j hjc
          rw [hju]
          omega
      obtain ⟨pl, pu, pwh, ps, px, py, pw, phh, pin⟩ :=
        place_fold i ((child_positions orig (its.getD i dummy_item).id).foldl
            (scan_child i
              ((its.getD i dummy_item).x + (its.getD i dummy_item).width)
              ((its.getD i dummy_item).y + (its.getD i dummy_item).height))
            { items := its, ctxX := (its.getD i dummy_item).x,
              ctxY := (its.getD i dummy_item).y, detached := [] }).ctxX
          (sort_detached ((child_positions orig (its.getD i dummy_item).id).foldl
            (scan_child i
              ((its.getD i dummy_item).x + (its.getD i dummy_item).width)
              ((its.getD i dummy_item).y + (its.getD i dummy_item).height))
            { items := its, ctxX := (its.getD i dummy_item).x,
              ctxY := (its.getD i dummy_item).y, detached := [] }).items ((child_positions orig (its.getD i dummy_item).id).foldl
            (scan_child i
              ((its.getD i dummy_item).x + (its.getD i dummy_item).width)
              ((its.getD i dummy_item).y + (its.getD i dummy_item).height))
            { items := its, ctxX := (its.getD i dummy_item).x,
              ctxY := (its.getD i dummy_item).y, detached := [] }).detached)
          (((child_positions orig (its.getD i dummy_item).id).foldl
            (scan_child i
              ((its.getD i dummy_item).x + (its.getD i dummy_item).width)
              ((its.getD i dummy_item).y + (its.getD i dummy_item).height))
            { items := its, ctxX := (its.getD i dummy_item).x,
              ctxY := (its.getD i dummy_item).y, detached := [] }).items, ((child_positions orig (its.getD i dummy_item).id).foldl
            (scan_child i
              ((its.getD i dummy_item).x + (its.getD i dummy_item).width)
              ((its.getD i dummy_item).y + (its.getD i dummy_item).height))
            { items := its, ctxX := (its.getD i dummy_item).x,
              ctxY := (its.getD i dummy_item).y, detached := [] }).ctxY + (((child_positions orig (its.getD i dummy_item).id).foldl
            (scan_child i
              ((its.getD i dummy_item).x + (its.getD i dummy_item).width)
              ((its.getD i dummy_item).y + (its.getD i dummy_item).height))
            { items := its, ctxX := (its.getD i dummy_item).x,
              ctxY := (its.getD i dummy_item).y, detached := [] }).items.getD i dummy_item).height - PADDING)
          (by show i < ((child_positions orig (its.getD i dummy_item).id).foldl
            (scan_child i
              ((its.getD i dummy_item).x + (its.getD i dummy_item).width)
              ((its.getD i dummy_item).y + (its.getD i dummy_item).height))
            { items := its, ctxX := (its.getD i dummy_item).x,
              ctxY := (its.getD i dummy_item).y, detached := [] }).items.length; rw [sl]; exact hi) sx
          (by
            show (((child_positions orig (its.getD i dummy_item).id).foldl
            (scan_child i
              ((its.getD i dummy_item).x + (its.getD i dummy_item).width)
              ((its.getD i dummy_item).y + (its.getD i dummy_item).height))
            { items := its, ctxX := (its.getD i dummy_item).x,
              ctxY := (its.getD i dummy_item).y, detached := [] }).items.getD i dummy_item).y +
              (((child_positions orig (its.getD i dummy_item).id).foldl
            (scan_child i
              ((its.getD i dummy_item).x + (its.getD i dummy_item).width)
              ((its.getD i dummy_item).y + (its.getD i dummy_item).height))
            { items := its, ctxX := (its.getD i dummy_item).x,
              ctxY := (its.getD i dummy_item).y, detached := [] }).items.getD i dummy_item).height =
              (((child_positions orig (its.getD i dummy_item).id).foldl
            (scan_child i
              ((its.getD i dummy_item).x + (its.getD i dummy_item).width)
              ((its.getD i dummy_item).y + (its.getD i dummy_item).height))
            { items := its, ctxX := (its.getD i dummy_item).x,
              ctxY := (its.getD i dummy_item).y, detached := [] }).ctxY + (((child_positions orig (its.getD i dummy_item).id).foldl
            (scan_child i
              ((its.getD i dummy_item).x + (its.getD i dummy_item).width)
              ((its.getD i dummy_item).y + (its.getD i dummy_item).height))
            { items := its, ctxX := (its.getD i dummy_item).x,
              ctxY := (its.getD i dummy_item).y, detached := [] }).items.getD i dummy_item).height - PADDING) + PADDING
            rw [sy]
            omega)
          (by
            show (((child_positions orig (its.getD i dummy_item).id).foldl
            (scan_child i
              ((its.getD i dummy_item).x + (its.getD i dummy_item).width)
              ((its.getD i dummy_item).y + (its.getD i dummy_item).height))
            { items := its, ctxX := (its.getD i dummy_item).x,
              ctxY := (its.getD i dummy_item).y, detached := [] }).items.getD i dummy_item).y ≤
              ((child_positions orig (its.getD i dummy_item).id).foldl
            (scan_child i
              ((its.getD i dummy_item).x + (its.getD i dummy_item).width)
              ((its.getD i dummy_item).y + (its.getD i dummy_item).height))
            { items := its, ctxX := (its.getD i dummy_item).x,
              ctxY := (its.getD i dummy_item).y, detached := [] }).ctxY + (((child_positions orig (its.getD i dummy_item).id).foldl
            (scan_child i
              ((its.getD i dummy_item).x + (its.getD i dummy_item).width)
              ((its.getD i dummy_item).y + (its.getD i dummy_item).height))
            { items := its, ctxX := (its.getD i dummy_item).x,
              ctxY := (its.getD i dummy_item).y, detached := [] }).items.getD i dummy_item).height - PADDING
            rw [sy]
            omega)
          hjsall
      dsimp only at pl pu pwh ps px py pw phh pin
      rw [he]
      refine ⟨pl.trans sl, ?_, ?_, ?_, ?_⟩
      · intro k hk hkc
        have hks : k ∉ _ := fun hs => hkc (hchildmem k hs)
        rw [pu k hk hks, su k hk]
      · intro k
        by_cases hk : k = i
        · subst hk
          exact ps.trans ss
        · exact ((pwh k hk).1).trans (by rw [su k hk])
      · intro k hk
        exact ⟨((pwh k hk).2.1).trans (by rw [su k hk]),
          ((pwh k hk).2.2).trans (by rw [su k hk])⟩
      · intro j hj
        have hne := (hij j hj).1
        by_cases hjd : j ∈ ((child_positions orig (its.getD i dummy_item).id).foldl
            (scan_child i
              ((its.getD i dummy_item).x + (its.getD i dummy_item).width)
              ((its.getD i dummy_item).y + (its.getD i dummy_item).height))
            { items := its, ctxX := (its.getD i dummy_item).x,
              ctxY := (its.getD i dummy_item).y, detached := [] }).detached
        · exact pin j (sort_detached_mem _ _ j hjd)
        · have hin : insideBox
              (((child_positions orig (its.getD i dummy_item).id).foldl
                (scan_child i
                  ((its.getD i dummy_item).x + (its.getD i dummy_item).width)
                  ((its.getD i dummy_item).y + (its.getD i dummy_item).height))
                { items := its, ctxX := (its.getD i dummy_item).x,
                  ctxY := (its.getD i dummy_item).y,
                  detached := [] }).items.getD j dummy_item)
              (((child_positions orig (its.getD i dummy_item).id).foldl
                (scan_child i
                  ((its.getD i dummy_item).x + (its.getD i dummy_item).width)
                  ((its.getD i dummy_item).y + (its.getD i dummy_item).height))
                { items := its, ctxX := (its.getD i dummy_item).x,
                  ctxY := (its.getD i dummy_item).y,
                  detached := [] }).items.getD i dummy_item) := by
            rcases sj j hj with hd | hin
            · exact absurd hd hjd
            · exact hin
          have hjsrt : j ∉ sort_detached ((child_positions orig (its.getD i dummy_item).id).foldl
            (scan_child i
              ((its.getD i dummy_item).x + (its.getD i dummy_item).width)
              ((its.getD i dummy_item).y + (its.getD i dummy_item).height))
            { items := its, ctxX := (its.getD i dummy_item).x,
              ctxY := (its.getD i dummy_item).y, detached := [] }).items ((child_positions orig (its.getD i dummy_item).id).foldl
            (scan_child i
              ((its.getD i dummy_item).x + (its.getD i dummy_item).width)
              ((its.getD i dummy_item).y + (its.getD i dummy_item).height))
            { items := its, ctxX := (its.getD i dummy_item).x,
              ctxY := (its.getD i dummy_item).y, detached := [] }).detached :=
            fun hs => hjd (sort_detached_sub _ _ j hs)
          have hpresj := pu j hne hjsrt
          rw [hpresj]
          simp only [insideBox] at hin ⊢
          omega

lemma skel_id {a b : BoardItem} (h : skel a = skel b) : a.id = b.id :=
  congrArg (fun t => t.1) h

lemma skel_type {a b : BoardItem} (h : skel a = skel b) : a.type = b.type :=
  congrArg (fun t => t.2.1) h

lemma skel_parent {a b : BoardItem} (h : skel a = skel b) : a.parent = b.parent :=
  congrArg (fun t => t.2.2) h

lemma mem_child_positions (orig : List BoardItem) (bid : Int) (j : Nat) :
    j ∈ child_positions orig bid ↔ j < orig.length ∧
      ∃ p, (orig.getD j dummy_item).parent = some p ∧ p ≠ 0 ∧ p = bid := by
  simp only [child_positions, List.mem_filter, List.mem_range]
  constructor
  · rintro ⟨hj, hp⟩
    refine ⟨hj, ?_⟩
    cases hpar : (orig.getD j dummy_item).parent with
    | none =>
        rw [hpar] at hp
        simp at hp
    | some p =>
        rw [hpar] at hp
        simp only [Bool.and_eq_true, bne_iff_ne, beq_iff_eq, ne_eq] at hp
        exact ⟨p, rfl, hp.1, hp.2⟩
  · rintro ⟨hj, p, hpar, hp0, hpb⟩
    refine ⟨hj, ?_⟩
    subst hpb
    rw [hpar]
    simp [hp0]

lemma not_child_of_parent_none (items : List BoardItem) (p : Nat)
    (hpar : (items.getD p dummy_item).parent = none) (bid : Int) :
    p ∉ child_positions items bid := by
  intro hmem
  obtain ⟨_, p', hpar', _, _⟩ := (mem_child_positions items bid p).mp hmem
  rw [hpar] at hpar'
  exact Option.noConfusion hpar'

lemma child_positions_id {items : List BoardItem} {bid1 bid2 : Int} {j : Nat}
    (h1 : j ∈ child_positions items bid1) (h2 : j ∈ child_positions items bid2) :
    bid1 = bid2 := by
  obtain ⟨_, p1, hp1, _, he1⟩ := (mem_child_positions items bid1 j).mp h1
  obtain ⟨_, p2, hp2, _, he2⟩ := (mem_child_positions items bid2 j).mp h2
  rw [hp1] at hp2
  cases hp2
  rw [← he1, ← he2]

lemma mem_box_positions (items : List BoardItem) (p : Nat) :
    p ∈ (List.range items.length).filter
      (fun i => (items.getD i dummy_item).type == "ContextBox") ↔
    p < items.length ∧ (items.getD p dummy_item).type = "ContextBox" := by
  simp [List.mem_filter, List.mem_range]

lemma adjust_fold (items : List BoardItem)
    (hparent : ∀ k, k < items.length →
      (items.getD k dummy_item).type = "ContextBox" →
      (items.getD k dummy_item).parent = none)
    (hids : ∀ p q, p < items.length → q < items.length → p ≠ q →
      (items.getD p dummy_item).type = "ContextBox" →
      (items.getD q dummy_item).type = "ContextBox" →
      (items.getD p dummy_item).id ≠ (items.getD q dummy_item).id)
    (hbh : ∀ k, k < items.length →
      (items.getD k dummy_item).type = "ContextBox" →
      PADDING ≤ (items.getD k dummy_item).height)
    (hch : ∀ k, k < items.length → 0 ≤ (items.getD k dummy_item).height)
    (hcw : ∀ p j, p < items.length → j < items.length →
      (items.getD p dummy_item).type = "ContextBox" →
      (items.getD j dummy_item).parent = some (items.getD p dummy_item).id →
      (items.getD j dummy_item).width + PADDING ≤
        (items.getD p dummy_item).width)
    (bs : List Nat) (cur : List BoardItem)
    (hbs : ∀ p ∈ bs, p < items.length ∧
      (items.getD p dummy_item).type = "ContextBox")
    (hnd : bs.Nodup)
    (hlen : cur.length = items.length)
    (hskel : ∀ k, skel (cur.getD k dummy_item) = skel (items.getD k dummy_item))
    (hwh : ∀ k, k < items.length → (items.getD k dummy_item).type ≠ "ContextBox" →
      (cur.getD k dummy_item).width = (items.getD k dummy_item).width ∧
      (cur.getD k dummy_item).height = (items.getD k dummy_item).height)
    (hA : ∀ q ∈ bs, cur.getD q dummy_item = items.getD q dummy_item ∧
      ∀ j ∈ child_positions items (items.getD q dummy_item).id,
        cur.getD j dummy_item = items.getD j dummy_item)
    (hB : ∀ p, p < items.length → (items.getD p dummy_item).type = "ContextBox" →
      p ∉ bs → ∀ j ∈ child_positions items (items.getD p dummy_item).id,
        insideBox (cur.getD j dummy_item) (cur.getD p dummy_item)) :
    (bs.foldl (repair_box items) cur).length = items.length ∧
    (∀ k, skel ((bs.foldl (repair_box items) cur).getD k dummy_item) =
      skel (items.getD k dummy_item)) ∧
    (∀ k, k < items.length → (items.getD k dummy_item).type ≠ "ContextBox" →
      ((bs.foldl (repair_box items) cur).getD k dummy_item).width =
        (items.getD k dummy_item).width ∧
      ((bs.foldl (repair_box items) cur).getD k dummy_item).height =
        (items.getD k dummy_item).height) ∧
    (∀ p, p < items.length → (items.getD p dummy_item).type = "ContextBox" →
      ∀ j ∈ child_positions items (items.getD p dummy_item).id,
        insideBox ((bs.foldl (repair_box items) cur).getD j dummy_item)
          ((bs.foldl (repair_box items) cur).getD p dummy_item)) := by
  induction bs generalizing cur with
  | nil =>
      exact ⟨hlen, hskel, hwh, fun p hp ht j hj =>
        hB p hp ht (List.not_mem_nil p) j hj⟩
  | cons q rest ih =>
      simp only [List.foldl_cons]
      obtain ⟨hq1, hq2⟩ := hbs q (List.mem_cons_self q rest)
      obtain ⟨hqcur, hqch⟩ := hA q (List.mem_cons_self q rest)
      have hqpar : (items.getD q dummy_item).parent = none := hparent q hq1 hq2
      have hjq : ∀ j ∈ child_positions items (items.getD q dummy_item).id,
          j ≠ q ∧ j < items.length := by
        intro j hj
        obtain ⟨hjl, pj, hpj, hpj0, hpjb⟩ :=
          (mem_child_positions items _ j).mp hj
        refine ⟨?_, hjl⟩
        intro he
        rw [he, hqpar] at hpj
        exact Option.noConfusion hpj
      have hcurid : child_positions items (cur.getD q dummy_item).id =
          child_positions items (items.getD q dummy_item).id := by rw [hqcur]
      obtain ⟨rl, ru, rs, rwh, rin⟩ :=
        repair_box_contains items cur q (by rw [hlen]; exact hq1)
          (by
            rw [hcurid]
            intro j hj
            exact ⟨(hjq j hj).1, by rw [hlen]; exact (hjq j hj).2⟩)
          (by rw [hqcur]; exact hbh q hq1 hq2)
          (by
            rw [hcurid]
            intro j hj
            rw [hqch j hj]
            exact hch j (hjq j hj).2)
          (by
            rw [hcurid]
            intro j hj
            obtain ⟨hjl, pj, hpj, hpj0, hpjb⟩ :=
              (mem_child_positions items _ j).mp hj
            rw [hqch j hj, hqcur]
            exact hcw q j hq1 hjl hq2 (by rw [hpj, hpjb]))
      rw [hcurid] at ru rin
      have hqnotin : q ∉ rest := (List.nodup_cons.mp hnd).1
      have hlen' : (repair_box items cur q).length = items.length :=
        rl.trans hlen
      have hskel' : ∀ k, skel ((repair_box items cur q).getD k dummy_item) =
          skel (items.getD k dummy_item) := fun k => (rs k).trans (hskel k)
      have hwh' : ∀ k, k < items.length →
          (items.getD k dummy_item).type ≠ "ContextBox" →
          ((repair_box items cur q).getD k dummy_item).width =
            (items.getD k dummy_item).width ∧
          ((repair_box items cur q).getD k dummy_item).height =
            (items.getD k dummy_item).height := by
        intro k hk ht
        have hkq : k ≠ q := fun he => ht (he ▸ hq2)
        obtain ⟨hw1, hh1⟩ := rwh k hkq
        obtain ⟨hw2, hh2⟩ := hwh k hk ht
        exact ⟨hw1.trans hw2, hh1.trans hh2⟩
      have hA' : ∀ q' ∈ rest,
          (repair_box items cur q).getD q' dummy_item =
            items.getD q' dummy_item ∧
          ∀ j ∈ child_positions items (items.getD q' dummy_item).id,
            (repair_box items cur q).getD j dummy_item =
              items.getD j dummy_item := by
        intro q' hq'
        obtain ⟨hq'1, hq'2⟩ := hbs q' (List.mem_cons_of_mem q hq')
        have hq'q : q' ≠ q := fun he => hqnotin (he ▸ hq')
        have hq'par : (items.getD q' dummy_item).parent = none :=
          hparent q' hq'1 hq'2
        have hq'notchild : q' ∉ child_positions items
            (items.getD q dummy_item).id :=
          not_child_of_parent_none items q' hq'par _
        constructor
        · rw [ru q' hq'q hq'notchild]
          exact (hA q' (List.mem_cons_of_mem q hq')).1
        · intro j hj
          have hjne : j ≠ q := by
            intro he
            obtain ⟨hjl, pj, hpj, _, _⟩ := (mem_child_positions items _ j).mp hj
            rw [he, hqpar] at hpj
            exact Option.noConfusion hpj
          have hjnotq : j ∉ child_positions items
              (items.getD q dummy_item).id := by
            intro hjq2
            exact absurd (child_positions_id hj hjq2)
              (hids q' q hq'1 hq1 hq'q hq'2 hq2)
          rw [ru j hjne hjnotq]
          exact (hA q' (List.mem_cons_of_mem q hq')).2 j hj
      have hB' : ∀ p, p < items.length →
          (items.getD p dummy_item).type = "ContextBox" → p ∉ rest →
          ∀ j ∈ child_positions items (items.getD p dummy_item).id,
            insideBox ((repair_box items cur q).getD j dummy_item)
              ((repair_box items cur q).getD p dummy_item) := by
        intro p hp ht hpnot j hj
        by_cases hpq : p = q
        · subst hpq
          exact rin j hj
        · have hpnotcons : p ∉ q :: rest := by
            intro hmem
            rcases List.mem_cons.mp hmem with he | hm
            · exact hpq he
            · exact hpnot hm
          have hin := hB p hp ht hpnotcons j hj
          have hppar := hparent p hp ht
          have hpnotchild : p ∉ child_positions items
              (items.getD q dummy_item).id :=
            not_child_of_parent_none items p hppar _
          have hjne : j ≠ q := by
            intro he
            obtain ⟨hjl, pj, hpj, _, _⟩ := (mem_child_positions items _ j).mp hj
            rw [he, hqpar] at hpj
            exact Option.noConfusion hpj
          have hjnotq : j ∉ child_positions items
              (items.getD q dummy_item).id := by
            intro hjq2
            exact absurd (child_positions_id hj hjq2)
              (hids p q hp hq1 hpq ht hq2)
          rw [ru j hjne hjnotq, ru p hpq hpnotchild]
          exact hin
      exact ih (repair_box items cur q)
        (fun p hp => hbs p (List.mem_cons_of_mem q hp))
        (List.nodup_cons.mp hnd).2 hlen' hskel' hwh' hA' hB'

lemma adjust_contains_pos (items : List BoardItem)
    (hparent : ∀ k, k < items.length →
      (items.getD k dummy_item).type = "ContextBox" →
      (items.getD k dummy_item).parent = none)
    (hids : ∀ p q, p < items.length → q < items.length → p ≠ q →
      (items.getD p dummy_item).type = "ContextBox" →
      (items.getD q dummy_item).type = "ContextBox" →
      (items.getD p dummy_item).id ≠ (items.getD q dummy_item).id)
    (hbh : ∀ k, k < items.length →
      (items.getD k dummy_item).type = "ContextBox" →
      PADDING ≤ (items.getD k dummy_item).height)
    (hch : ∀ k, k < items.length → 0 ≤ (items.getD k dummy_item).height)
    (hcw : ∀ p j, p < items.length → j < items.length →
      (items.getD p dummy_item).type = "ContextBox" →
      (items.getD j dummy_item).parent = some (items.getD p dummy_item).id →
      (items.getD j dummy_item).width + PADDING ≤
        (items.getD p dummy_item).width) :
    (adjust_board_layout items).length = items.length ∧
    (∀ k, skel ((adjust_board_layout items).getD k dummy_item) =
      skel (items.getD k dummy_item)) ∧
    (∀ k, k < items.length → (items.getD k dummy_item).type ≠ "ContextBox" →
      ((adjust_board_layout items).getD k dummy_item).width =
        (items.getD k dummy_item).width ∧
      ((adjust_board_layout items).getD k dummy_item).height =
        (items.getD k dummy_item).height) ∧
    (∀ p, p < items.length → (items.getD p dummy_item).type = "ContextBox" →
      ∀ j ∈ child_positions items (items.getD p dummy_item).id,
        insideBox ((adjust_board_layout items).getD j dummy_item)
          ((adjust_board_layout items).getD p dummy_item)) := by
  have he : adjust_board_layout items = ((List.range items.length).filter
      (fun i => (items.getD i dummy_item).type == "ContextBox")).foldl
      (repair_box items) items := by
    simp only [adjust_board_layout]
  rw [he]
  exact adjust_fold items hparent hids hbh hch hcw _ items
    (fun p hp => (mem_box_positions items p).mp hp)
    ((List.nodup_range items.length).filter _)
    rfl (fun k => rfl) (fun k _ _ => ⟨rfl, rfl⟩)
    (fun q _ => ⟨rfl, fun j _ => rfl⟩)
    (fun p hp ht hpnot j hj =>
      absurd ((mem_box_positions items p).mpr ⟨hp, ht⟩) hpnot)

/-- C3 (amended).  After Containment Repair runs, every item whose `parent`
equals a ContextBox's id lies fully inside that box — provided the board is
one the pass is designed for: ContextBoxes carry no parent and
pairwise-distinct non-zero ids, each box is at least `PADDING` tall, every
item's height is non-negative, and each child is at least `PADDING` narrower
than its box (the counterexample shows an over-wide child escapes, since the
re-stacking never grows the box's width). -/
theorem containment_amended (items : List BoardItem)
    (hparent : ∀ it ∈ items, it.type = "ContextBox" → it.parent = none)
    (hid0 : ∀ it ∈ items, it.type = "ContextBox" → it.id ≠ 0)
    (hids : ∀ p ∈ List.range items.length, ∀ q ∈ List.range items.length,
      p ≠ q → (items.getD p dummy_item).type = "ContextBox" →
      (items.getD q dummy_item).type = "ContextBox" →
      (items.getD p dummy_item).id ≠ (items.getD q dummy_item).id)
    (hbh : ∀ it ∈ items, it.type = "ContextBox" → PADDING ≤ it.height)
    (hch : ∀ it ∈ items, 0 ≤ it.height)
    (hcw : ∀ b ∈ items, ∀ c ∈ items, b.type = "ContextBox" →
      c.parent = some b.id → c.width + PADDING ≤ b.width) :
    ∀ b ∈ adjust_board_layout items, b.type = "ContextBox" →
    ∀ c ∈ adjust_board_layout items, c.parent = some b.id →
    insideBox c b := by
  have hmem : ∀ k, k < items.length → items.getD k dummy_item ∈ items := by
    intro k hk
    rw [List.getD_eq_getElem items dummy_item hk]
    exact List.getElem_mem hk
  obtain ⟨alen, askel, awh, ain⟩ := adjust_contains_pos items
    (fun k hk ht => hparent _ (hmem k hk) ht)
    (fun p q hp hq hne => hids p (List.mem_range.mpr hp) q
      (List.mem_range.mpr hq) hne)
    (fun k hk ht => hbh _ (hmem k hk) ht)
    (fun k hk => hch _ (hmem k hk))
    (fun p j hp hj ht hpar => hcw _ (hmem p hp) _ (hmem j hj) ht hpar)
  intro b hb htb c hc hpc
  obtain ⟨p, hp, hpb⟩ := List.getElem_of_mem hb
  obtain ⟨j, hj, hjc⟩ := List.getElem_of_mem hc
  have hp' : p < items.length := by rw [← alen]; exact hp
  have hj' : j < items.length := by rw [← alen]; exact hj
  have hgb : (adjust_board_layout items).getD p dummy_item = b := by
    rw [List.getD_eq_getElem _ _ hp]
    exact hpb
  have hgc : (adjust_board_layout items).getD j dummy_item = c := by
    rw [List.getD_eq_getElem _ _ hj]
    exact hjc
  have hsb := askel p
  have htb' : ((adjust_board_layout items).getD p dummy_item).type =
      "ContextBox" := by
    rw [hgb]
    exact htb
  have htype : (items.getD p dummy_item).type = "ContextBox" :=
    (skel_type hsb).symm.trans htb'
  have hidp : ((adjust_board_layout items).getD p dummy_item).id =
      (items.getD p dummy_item).id := skel_id hsb
  have hparc : (items.getD j dummy_item).parent =
      ((adjust_board_layout items).getD j dummy_item).parent :=
    (skel_parent (askel j)).symm
  have hjmem : j ∈ child_positions items (items.getD p dummy_item).id := by
    refine (mem_child_positions items _ j).mpr
      ⟨hj', (items.getD p dummy_item).id, ?_, ?_, rfl⟩
    · rw [hparc, hgc, hpc, ← hidp, hgb]
    · exact hid0 _ (hmem p hp') htype
  have hres := ain p hp' htype j hjmem
  rw [hgb, hgc] at hres
  exact hres

def w3Items : List BoardItem :=
  [{ id := 1, type := "ContextBox", instanceName := "A", description := "",
     x := 0, y := 0, width := 300, height := 210 },
   { id := 2, type := "Command", instanceName := "c", description := "",
     parent := some 1, x := 1000, y := 1000, width := 100, height := 80 }]

theorem containment_amended_witness :
    ((∀ it ∈ w3Items, it.type = "ContextBox" → it.parent = none) ∧
     (∀ it ∈ w3Items, it.type = "ContextBox" → it.id ≠ 0) ∧
     (∀ p ∈ List.range w3Items.length, ∀ q ∈ List.range w3Items.length,
       p ≠ q → (w3Items.getD p dummy_item).type = "ContextBox" →
       (w3Items.getD q dummy_item).type = "ContextBox" →
       (w3Items.getD p dummy_item).id ≠ (w3Items.getD q dummy_item).id) ∧
     (∀ it ∈ w3Items, it.type = "ContextBox" → PADDING ≤ it.height) ∧
     (∀ it ∈ w3Items, 0 ≤ it.height) ∧
     (∀ b ∈ w3Items, ∀ c ∈ w3Items, b.type = "ContextBox" →
       c.parent = some b.id → c.width + PADDING ≤ b.width)) ∧
    (∀ b ∈ adjust_board_layout w3Items, b.type = "ContextBox" →
     ∀ c ∈ adjust_board_layout w3Items, c.parent = some b.id →
     insideBox c b) :=
  ⟨⟨by decide, by decide, by decide, by decide, by decide, by decide⟩,
    containment_amended w3Items (by decide) (by decide) (by decide) (by decide)
      (by decide) (by decide)⟩

lemma grow_left_noop (i : Nat) (st : List BoardItem × Int) (ch_x : Int)
    (h : ¬ ch_x < st.2) : grow_left i st ch_x = st := by
  simp only [grow_left, if_neg h]

lemma grow_up_noop (i : Nat) (st : List BoardItem × Int) (ch_y : Int)
    (h : ¬ ch_y < st.2) : grow_up i st ch_y = st := by
  simp only [grow_up, if_neg h]

lemma grow_right_noop (i : Nat) (items : List BoardItem) (ctx_x ch_right : Int)
    (h : ¬ ch_right > ctx_x + (items.getD i dummy_item).width) :
    grow_right i items ctx_x ch_right = items := by
  simp only [grow_right, if_neg h]

lemma grow_down_noop (i : Nat) (items : List BoardItem) (ctx_y ch_bottom : Int)
    (h : ¬ ch_bottom > ctx_y + (items.getD i dummy_item).height) :
    grow_down i items ctx_y ch_bottom = items := by
  simp only [grow_down, if_neg h]

lemma scan_child_noop (i : Nat) (cr cb : Int) (acc : ChildScan) (j : Nat)
    (hbx : (acc.items.getD i dummy_item).x = acc.ctxX)
    (hby : (acc.items.getD i dummy_item).y = acc.ctxY)
    (hcr : (acc.items.getD i dummy_item).x + (acc.items.getD i dummy_item).width ≤ cr)
    (hcb : (acc.items.getD i dummy_item).y + (acc.items.getD i dummy_item).height ≤ cb)
    (hw : 0 ≤ (acc.items.getD j dummy_item).width)
    (hh : 0 ≤ (acc.items.getD j dummy_item).height)
    (hin : insideBox (acc.items.getD j dummy_item) (acc.items.getD i dummy_item)) :
    scan_child i cr cb acc j = acc := by
  simp only [insideBox] at hin
  obtain ⟨hi1, hi2, hi3, hi4⟩ := hin
  have hdet : ¬ is_detached acc j cr cb = true := by
    intro hcon
    simp only [is_detached, Bool.or_eq_true, decide_eq_true_eq] at hcon
    rcases hcon with (h' | h') | (h' | h') <;> omega
  have h1 : sc1 acc j i = (acc.items, acc.ctxX) :=
    grow_left_noop i (acc.items, acc.ctxX) _ (by dsimp only; omega)
  have h2 : sc2 acc j i = (acc.items, acc.ctxY) := by
    simp only [sc2, h1]
    exact grow_up_noop i (acc.items, acc.ctxY) _ (by dsimp only; omega)
  have h3 : sc3 acc j i = acc.items := by
    simp only [sc3, h1, h2]
    exact grow_right_noop i acc.items acc.ctxX _ (by omega)
  have h4 : sc4 acc j i = acc.items := by
    simp only [sc4, h2, h3]
    exact grow_down_noop i acc.items acc.ctxY _ (by omega)
  rw [scan_child_attached_eq i cr cb acc j hdet, h4, h1, h2]

lemma scan_fold_noop (i : Nat) (cr cb : Int) (cs : List Nat) (acc : ChildScan)
    (hbx : (acc.items.getD i dummy_item).x = acc.ctxX)
    (hby : (acc.items.getD i dummy_item).y = acc.ctxY)
    (hcr : (acc.items.getD i dummy_item).x + (acc.items.getD i dummy_item).width ≤ cr)
    (hcb : (acc.items.getD i dummy_item).y + (acc.items.getD i dummy_item).height ≤ cb)
    (hall : ∀ j ∈ cs, 0 ≤ (acc.items.getD j dummy_item).width ∧
      0 ≤ (acc.items.getD j dummy_item).height ∧
      insideBox (acc.items.getD j dummy_item) (acc.items.getD i dummy_item)) :
    cs.foldl (scan_child i cr cb) acc = acc := by
  induction cs with
  | nil => rfl
  | cons j rest ih =>
      simp only [List.foldl_cons]
      obtain ⟨hw, hh, hin⟩ := hall j (List.mem_cons_self j rest)
      rw [scan_child_noop i cr cb acc j hbx hby hcr hcb hw hh hin]
      exact ih (fun m hm => hall m (List.mem_cons_of_mem j hm))

lemma repair_box_noop (orig its : List BoardItem) (i : Nat)
    (hall : ∀ j ∈ child_positions orig (its.getD i dummy_item).id,
      0 ≤ (its.getD j dummy_item).width ∧ 0 ≤ (its.getD j dummy_item).height ∧
      insideBox (its.getD j dummy_item) (its.getD i dummy_item)) :
    repair_box orig its i = its := by
  by_cases hemp : (child_positions orig (its.getD i dummy_item).id).isEmpty = true
  · simp only [repair_box]
    rw [if_pos hemp]
  · have hs : (child_positions orig (its.getD i dummy_item).id).foldl
        (scan_child i ((its.getD i dummy_item).x + (its.getD i dummy_item).width)
          ((its.getD i dummy_item).y + (its.getD i dummy_item).height))
        { items := its, ctxX := (its.getD i dummy_item).x,
          ctxY := (its.getD i dummy_item).y, detached := [] } =
        { items := its, ctxX := (its.getD i dummy_item).x,
          ctxY := (its.getD i dummy_item).y, detached := [] } :=
      scan_fold_noop i _ _ _ _ rfl rfl (le_refl _) (le_refl _) hall
    simp only [repair_box]
    rw [if_neg hemp, hs]
    rfl

lemma child_positions_congr (l1 l2 : List BoardItem)
    (hlen : l1.length = l2.length)
    (hpar : ∀ k, (l1.getD k dummy_item).parent = (l2.getD k dummy_item).parent)
    (bid : Int) : child_positions l1 bid = child_positions l2 bid := by
  simp only [child_positions, hlen]
  apply List.filter_congr
  intro j _
  rw [hpar j]

lemma adjust_noop (items : List BoardItem)
    (hall : ∀ p, p < items.length →
      (items.getD p dummy_item).type = "ContextBox" →
      ∀ j ∈ child_positions items (items.getD p dummy_item).id,
        0 ≤ (items.getD j dummy_item).width ∧
        0 ≤ (items.getD j dummy_item).height ∧
        insideBox (items.getD j dummy_item) (items.getD p dummy_item)) :
    adjust_board_layout items = items := by
  simp only [adjust_board_layout]
  have hgen : ∀ bs : List Nat, (∀ p ∈ bs, p < items.length ∧
      (items.getD p dummy_item).type = "ContextBox") →
      bs.foldl (repair_box items) items = items := by
    intro bs
    induction bs with
    | nil => intro _; rfl
    | cons q rest ih =>
        intro hbs
        simp only [List.foldl_cons]
        rw [repair_box_noop items items q
          (hall q (hbs q (List.mem_cons_self q rest)).1
            (hbs q (List.mem_cons_self q rest)).2)]
        exact ih (fun p hp => hbs p (List.mem_cons_of_mem q hp))
  exact hgen _ (fun p hp => (mem_box_positions items p).mp hp)

/-- C4 (amended).  Containment Repair is idempotent on the boards it is
designed for: if every ContextBox carries no parent and pairwise-distinct
ids, is at least `PADDING` tall, every item has non-negative width and
height, and every child is at least `PADDING` narrower than its box, then a
second application of the pass changes nothing.  (The counterexample shows
that without the width margin a second pass grows the box again.) -/
theorem repair_idempotent_amended (items : List BoardItem)
    (hparent : ∀ it ∈ items, it.type = "ContextBox" → it.parent = none)
    (hids : ∀ p ∈ List.range items.length, ∀ q ∈ List.range items.length,
      p ≠ q → (items.getD p dummy_item).type = "ContextBox" →
      (items.getD q dummy_item).type = "ContextBox" →
      (items.getD p dummy_item).id ≠ (items.getD q dummy_item).id)
    (hbh : ∀ it ∈ items, it.type = "ContextBox" → PADDING ≤ it.height)
    (hch : ∀ it ∈ items, 0 ≤ it.height)
    (hw : ∀ it ∈ items, 0 ≤ it.width)
    (hcw : ∀ b ∈ items, ∀ c ∈ items, b.type = "ContextBox" →
      c.parent = some b.id → c.width + PADDING ≤ b.width) :
    adjust_board_layout (adjust_board_layout items) =
      adjust_board_layout items := by
  have hmem : ∀ k, k < items.length → items.getD k dummy_item ∈ items := by
    intro k hk
    rw [List.getD_eq_getElem items dummy_item hk]
    exact List.getElem_mem hk
  obtain ⟨alen, askel, awh, ain⟩ := adjust_contains_pos items
    (fun k hk ht => hparent _ (hmem k hk) ht)
    (fun p q hp hq hne => hids p (List.mem_range.mpr hp) q
      (List.mem_range.mpr hq) hne)
    (fun k hk ht => hbh _ (hmem k hk) ht)
    (fun k hk => hch _ (hmem k hk))
    (fun p j hp hj ht hpar => hcw _ (hmem p hp) _ (hmem j hj) ht hpar)
  apply adjust_noop
  intro p hp ht j hj
  have hp' : p < items.length := by rw [← alen]; exact hp
  have hsp := askel p
  have htype : (items.getD p dummy_item).type = "ContextBox" :=
    (skel_type hsp).symm.trans ht
  have hidp : ((adjust_board_layout items).getD p dummy_item).id =
      (items.getD p dummy_item).id := skel_id hsp
  have hcc : child_positions (adjust_board_layout items)
      ((adjust_board_layout items).getD p dummy_item).id =
      child_positions items (items.getD p dummy_item).id := by
    rw [hidp]
    exact child_positions_congr _ _ alen (fun k => skel_parent (askel k)) _
  rw [hcc] at hj
  obtain ⟨hjlt, pj, hpj, hpj0, hpjb⟩ := (mem_child_positions items _ j).mp hj
  have hjtype : (items.getD j dummy_item).type ≠ "ContextBox" := by
    intro hbox
    rw [hparent _ (hmem j hjlt) hbox] at hpj
    exact Option.noConfusion hpj
  obtain ⟨hwj, hhj⟩ := awh j hjlt hjtype
  refine ⟨?_, ?_, ?_⟩
  · rw [hwj]
    exact hw _ (hmem j hjlt)
  · rw [hhj]
    exact hch _ (hmem j hjlt)
  · exact ain p hp' htype j hj

theorem repair_idempotent_amended_witness :
    ((∀ it ∈ w3Items, it.type = "ContextBox" → it.parent = none) ∧
     (∀ p ∈ List.range w3Items.length, ∀ q ∈ List.range w3Items.length,
       p ≠ q → (w3Items.getD p dummy_item).type = "ContextBox" →
       (w3Items.getD q dummy_item).type = "ContextBox" →
       (w3Items.getD p dummy_item).id ≠ (w3Items.getD q dummy_item).id) ∧
     (∀ it ∈ w3Items, it.type = "ContextBox" → PADDING ≤ it.height) ∧
     (∀ it ∈ w3Items, 0 ≤ it.height) ∧
     (∀ it ∈ w3Items, 0 ≤ it.width) ∧
     (∀ b ∈ w3Items, ∀ c ∈ w3Items, b.type = "ContextBox" →
       c.parent = some b.id → c.width + PADDING ≤ b.width)) ∧
    adjust_board_layout (adjust_board_layout w3Items) =
      adjust_board_layout w3Items :=
  ⟨⟨by decide, by decide, by decide, by decide, by decide, by decide⟩,
    repair_idempotent_amended w3Items (by decide) (by decide) (by decide)
      (by decide) (by decide) (by decide)⟩
